import Mathlib

/-!
# Grafana API client (package `gapi`): a shallow embedding

The resource operations of the client (`dashboard.go`, `user.go`, `folder.go`, ...) are
embedded as Lean functions over an explicit client state.  The transport function
`c.request` is represented by its observable contract: every call is appended to a log and
its outcome is read from a script of replies carried by the client state.  `json.Marshal` is
a library function and is handed to every operation that calls it as an explicit argument.
Go's `int` and `int64` are unbounded integers here, a nil slice is the empty list, and
pointer arguments are taken to be non-nil.  The file `client.go`, which holds `c.request`,
is not part of the sources; where a property is about what `c.request` does with a
response, the function is modelled from the specification (`dispatch`), and the decoding of
a body into a destination is that of `json.Unmarshal`, which works in place.
-/

set_option linter.unusedVariables false

namespace Gapi

/-! ## Go values -/

/-- Go `error` values: a plain message (`errors.New`, `fmt.Errorf` without `%w`) or a
message wrapping another error (`fmt.Errorf` with `%w`). -/
inductive Error where
  | errorString (msg : String)
  | wrapError (msg : String) (err : Error)
deriving DecidableEq, Repr

/-- The text returned by the `Error()` method. -/
def Error.text : Error → String
  | .errorString msg => msg
  | .wrapError msg _ => msg

/-- The result of `errors.Unwrap`. -/
def Error.Unwrap : Error → Option Error
  | .errorString _ => none
  | .wrapError _ err => some err

/-- Values of `context.Context`: the background context, or any other context, told apart
by a tag. -/
inductive Context where
  | Background
  | WithCancel (tag : Nat)
deriving DecidableEq, Repr

/-- A run-time panic of the Go program: the dereference of a nil pointer. -/
inductive Panic where
  | nilDereference
deriving DecidableEq, Repr

/-- An encoded JSON document, kept as its syntax tree; object members are kept in the order
in which they are written. -/
inductive JSON where
  | null
  | bool (b : Bool)
  | num (n : Int)
  | str (s : String)
  | arr (items : List JSON)
  | obj (members : List (String × JSON))

/-- The value stored under `key` in a JSON object, if the document is an object having
that key. -/
def JSON.get? : JSON → String → Option JSON
  | .obj members, key => (members.find? (fun kv => kv.1 == key)).map Prod.snd
  | _, _ => none

/-- Whether the document is an object with a member named `key`. -/
def JSON.hasKey (doc : JSON) (key : String) : Bool :=
  (doc.get? key).isSome

/-- The type `url.Values` (`map[string][]string`), as an association list; the nil map is
the empty list. -/
abbrev Values := List (String × List String)

/-- The method `url.Values.Get`: the first value stored under the key, or the empty
string. -/
def Values.Get (v : Values) (key : String) : String :=
  match v.find? (fun kv => kv.1 == key) with
  | some (_, value :: _) => value
  | _ => ""

/-- The method `url.Values.Set`: replaces whatever is stored under the key by the single
value. -/
def Values.Set : Values → String → String → Values
  | [], key, value => [(key, [value])]
  | (k, vs) :: rest, key, value =>
    if k == key then (k, [value]) :: rest else (k, vs) :: Values.Set rest key value

/-- The method `url.Values.Add`: appends the value to those stored under the key. -/
def Values.Add : Values → String → String → Values
  | [], key, value => [(key, [value])]
  | (k, vs) :: rest, key, value =>
    if k == key then (k, vs ++ [value]) :: rest else (k, vs) :: Values.Add rest key value

/-- A request body reader: `bytes.NewBuffer(data)` for marshalled data, or
`bytes.NewBuffer(nil)`. -/
inductive Buffer where
  | ofData (doc : JSON)
  | ofNil

/-! ## The transport -/

/-- One call of `c.request(ctx, method, path, query, body, responseStruct)` as the
transport sees it. `body = none` is the nil reader, `hasDest = false` the nil
destination. -/
structure Call where
  ctx : Context
  method : String
  path : String
  query : Values
  body : Option Buffer
  hasDest : Bool

/-- What `c.client.Do` hands back for a completed exchange: the status code and the
outcome of reading the body. -/
structure HTTPResponse where
  StatusCode : Int
  Body : Except Error String

/-- The client together with the server it talks to. `replies n` is the outcome of the
`n`-th call of `c.request` (counting from zero): the error it returns, or the value it
leaves in the destination. The body of a response is decoded into the destination in place,
so where several calls are handed the same destination in turn, the value that a call
leaves depends on what the calls before have left: the script lists what the destination
holds after each call, and `repliesInPlace` builds it from the bodies that the server
sends. `trace` logs the calls of `c.request` made so far, oldest first. `newRequestErr`, `doReplies` and `sent` do the same for requests that an operation
builds with `c.newRequest` and sends with `c.client.Do` itself. -/
structure Client (δ : Type) where
  replies : Nat → Except Error δ
  trace : List Call
  newRequestErr : Call → Option Error
  doReplies : Nat → Except Error HTTPResponse
  sent : List Call

variable {δ : Type}

/-- The call `c.request(ctx, method, path, query, body, &dest)`: logs the call and returns
the destination after the call, the error, and the client. On an error the script holds no
value for the destination, which is returned as it was: what a decoding that fails has
already written into it is not embedded. -/
def Client.request (c : Client δ) (ctx : Context) (method path : String) (query : Values)
    (body : Option Buffer) (dest : δ) : δ × Option Error × Client δ :=
  let c' := { c with trace := c.trace ++ [⟨ctx, method, path, query, body, true⟩] }
  match c.replies c.trace.length with
  | .ok v => (v, none, c')
  | .error e => (dest, some e, c')

/-- The call `c.request(ctx, method, path, query, body, nil)`: logs the call and returns
the error and the client. -/
def Client.requestNil (c : Client δ) (ctx : Context) (method path : String) (query : Values)
    (body : Option Buffer) : Option Error × Client δ :=
  let c' := { c with trace := c.trace ++ [⟨ctx, method, path, query, body, false⟩] }
  match c.replies c.trace.length with
  | .ok _ => (none, c')
  | .error e => (some e, c')

/-- The client after `calls` more calls of `c.request` have been logged. -/
def Client.logged (c : Client δ) (calls : List Call) : Client δ :=
  { c with trace := c.trace ++ calls }

/-! ## dashboard.go -/

/-- The constant `limit` of `DashboardsContext`. -/
def DashboardsContext.limit : Nat := 1000

/-- The `for` loop of `DashboardsContext`, one iteration per unit of fuel; `none` when the
fuel runs out before the loop returns. Every call is handed the same slice
`newDashboards`, and `append` copies its elements to `dashboards`. The items are values
here: the backing arrays that these copies share with the elements of `newDashboards` (the
slices `Tags`), through which a later call can write into an item appended earlier, are
not embedded. -/
def DashboardsContext.loop {α : Type} (ctx : Context) :
    Nat → Nat → List α → List α → Values → Client (List α) →
      Option (List α × Option Error × Client (List α))
  | 0, _, _, _, _, _ => none
  | fuel + 1, page, newDashboards, dashboards, query, c =>
    let page := page + 1
    let query := query.Set "page" (toString page)
    match c.request ctx "GET" "/api/search" query none newDashboards with
    | (_, some err, c) => some ([], some err, c)
    | (newDashboards, none, c) =>
      let dashboards := dashboards ++ newDashboards
      if newDashboards.length < DashboardsContext.limit then
        some (dashboards, none, c)
      else
        DashboardsContext.loop ctx fuel page newDashboards dashboards query c

/-- The function `DashboardsContext`; `α` stands for `FolderDashboardSearchResponse`, the
nil slice is the empty list. -/
def DashboardsContext {α : Type} (c : Client (List α)) (ctx : Context) (fuel : Nat) :
    Option (List α × Option Error × Client (List α)) :=
  let query : Values := []
  let query := query.Set "type" "dash-db"
  let query := query.Set "limit" (toString DashboardsContext.limit)
  DashboardsContext.loop ctx fuel 0 [] [] query c

/-- The struct `DashboardMeta`. -/
structure DashboardMeta where
  IsStarred : Bool
  Slug : String
  Folder : Int
  URL : String

/-- The struct `Dashboard`; the map `Model` is kept as the members of a JSON object. -/
structure Dashboard where
  Meta : DashboardMeta
  Model : List (String × JSON)
  FolderID : Int
  FolderUID : String
  Overwrite : Bool
  Message : String

/-- The value `Dashboard{}`. -/
def Dashboard.zero : Dashboard :=
  ⟨⟨false, "", 0, ""⟩, [], 0, "", false, ""⟩

/-- The function `dashboardContext`. The variable `result` is a pointer, `&Dashboard{}`,
and the destination handed to `c.request` is its address `&result`: the call can leave the
pointer nil (`none`), as decoding the body `null` does. The statement
`result.FolderID = result.Meta.Folder` then dereferences a nil pointer and the program
panics: the first component is the panic, and nothing is returned. -/
def dashboardContext (c : Client (Option Dashboard)) (ctx : Context) (path : String) :
    Except Panic (Option Dashboard) × Option Error × Client (Option Dashboard) :=
  let result : Option Dashboard := some Dashboard.zero
  match c.request ctx "GET" path [] none result with
  | (_, some err, c) => (.ok none, some err, c)
  | (none, none, c) => (.error .nilDereference, none, c)
  | (some result, none, c) =>
    let result := { result with FolderID := result.Meta.Folder }
    (.ok (some result), none, c)

/-- The function `dashboard`. -/
def dashboard (c : Client (Option Dashboard)) (path : String) :
    Except Panic (Option Dashboard) × Option Error × Client (Option Dashboard) :=
  dashboardContext c Context.Background path

/-- The function `DashboardContext`. -/
def DashboardContext (c : Client (Option Dashboard)) (ctx : Context) (slug : String) :
    Except Panic (Option Dashboard) × Option Error × Client (Option Dashboard) :=
  dashboard c ("/api/dashboards/db/" ++ slug)

/-- The function `DashboardByUIDContext`. -/
def DashboardByUIDContext (c : Client (Option Dashboard)) (ctx : Context) (uid : String) :
    Except Panic (Option Dashboard) × Option Error × Client (Option Dashboard) :=
  dashboard c ("/api/dashboards/uid/" ++ uid)

/-- The function `FolderDashboardSearchContext` of `folder_dashboard_search.go`; `α` stands
for `FolderDashboardSearchResponse`. -/
def FolderDashboardSearchContext {α : Type} (c : Client (List α)) (ctx : Context)
    (params : Values) : List α × Option Error × Client (List α) :=
  c.request ctx "GET" "/api/search" params none []

/-- The function `FolderDashboardSearch` of `folder_dashboard_search.go`. -/
def FolderDashboardSearch {α : Type} (c : Client (List α)) (params : Values) :
    List α × Option Error × Client (List α) :=
  FolderDashboardSearchContext c Context.Background params

/-- The function `DashboardsByIDsContext`. The bytes that `json.Marshal` returns are put
into the query as a string, so here `jsonMarshal` yields them as text. -/
def DashboardsByIDsContext {α : Type} (jsonMarshal : List Int → Except Error String)
    (c : Client (List α)) (ctx : Context) (ids : List Int) :
    List α × Option Error × Client (List α) :=
  match jsonMarshal ids with
  | .error err => ([], some err, c)
  | .ok dashboardIdsJSON =>
    let params : Values := [("type", ["dash-db"]), ("dashboardIds", [dashboardIdsJSON])]
    FolderDashboardSearch c params

/-- The function `deleteDashboardContext`. -/
def deleteDashboardContext (c : Client δ) (ctx : Context) (path : String) :
    Option Error × Client δ :=
  c.requestNil ctx "DELETE" path [] none

/-- The function `deleteDashboard`. -/
def deleteDashboard (c : Client δ) (path : String) : Option Error × Client δ :=
  deleteDashboardContext c Context.Background path

/-- The function `DeleteDashboardContext`. -/
def DeleteDashboardContext (c : Client δ) (ctx : Context) (slug : String) :
    Option Error × Client δ :=
  deleteDashboard c ("/api/dashboards/db/" ++ slug)

/-- The function `DeleteDashboardByUIDContext`. -/
def DeleteDashboardByUIDContext (c : Client δ) (ctx : Context) (uid : String) :
    Option Error × Client δ :=
  deleteDashboard c ("/api/dashboards/uid/" ++ uid)

/-! ## folder.go -/

/-- The struct `Folder`. -/
structure Folder where
  ID : Int
  UID : String
  Title : String
  URL : String
deriving DecidableEq

/-- The value `Folder{}`. -/
def Folder.zero : Folder :=
  ⟨0, "", "", ""⟩

/-- The struct `FolderPayload`. -/
structure FolderPayload where
  Title : String
  UID : String
  Overwrite : Bool

/-- What `json.Marshal` produces for a `FolderPayload`, following the struct tags
`json:"title"`, `json:"uid,omitempty"` and `json:"overwrite,omitempty"`: the members are
written in field order, and a member tagged `omitempty` is left out when the field is the
empty string or `false`. Strings and booleans always encode, so there is no error. -/
def jsonMarshalFolderPayload (payload : FolderPayload) : Except Error JSON :=
  .ok (.obj
    ([("title", .str payload.Title)] ++
      (if payload.UID = "" then [] else [("uid", .str payload.UID)]) ++
      (if payload.Overwrite = false then [] else [("overwrite", .bool payload.Overwrite)])))

/-- The function `NewFolderContext`; `uid` is the variadic parameter. -/
def NewFolderContext (jsonMarshal : FolderPayload → Except Error JSON) (c : Client Folder)
    (ctx : Context) (title : String) (uid : List String) :
    Folder × Option Error × Client Folder :=
  if uid.length > 1 then
    (Folder.zero, some (.errorString "too many arguments. Expected 1 or 2"), c)
  else
    let folder := Folder.zero
    let payload : FolderPayload := { Title := title, UID := "", Overwrite := false }
    let payload := if uid.length = 1 then { payload with UID := uid.getD 0 "" } else payload
    match jsonMarshal payload with
    | .error err => (folder, some err, c)
    | .ok data => c.request ctx "POST" "/api/folders" [] (some (.ofData data)) folder

/-- The function `UpdateFolderContext`; `newUID` is the variadic parameter. -/
def UpdateFolderContext (jsonMarshal : FolderPayload → Except Error JSON) (c : Client δ)
    (ctx : Context) (uid : String) (title : String) (newUID : List String) :
    Option Error × Client δ :=
  let payload : FolderPayload := { Title := title, UID := "", Overwrite := true }
  let payload := if newUID.length = 1 then { payload with UID := newUID.getD 0 "" } else payload
  match jsonMarshal payload with
  | .error err => (some err, c)
  | .ok data => c.requestNil ctx "PUT" ("/api/folders/" ++ uid) [] (some (.ofData data))

/-! ## user.go -/

/-- The `for` loop of `UsersContext`, one evaluation of the loop condition per unit of
fuel; `none` when the fuel runs out before the loop ends. Every call is handed the same
slice `newUsers`, and `append` copies its elements to `users`. The items are values here:
the backing arrays that these copies share with the elements of `newUsers` (the slices
`AuthLabels`), through which a later call can write into an item appended earlier, are not
embedded. -/
def UsersContext.loop {α : Type} (ctx : Context) :
    Nat → Nat → List α → List α → Client (List α) →
      Option (List α × Option Error × Client (List α))
  | 0, _, _, _, _ => none
  | fuel + 1, page, newUsers, users, c =>
    if newUsers.length > 0 ∨ page = 1 then
      let query : Values := []
      let query := query.Add "page" (toString page)
      match c.request ctx "GET" "/api/users" query none newUsers with
      | (_, some err, c) => some (users, some err, c)
      | (newUsers, none, c) =>
        UsersContext.loop ctx fuel (page + 1) newUsers (users ++ newUsers) c
    else
      some (users, none, c)

/-- The function `UsersContext`; `α` stands for `UserSearch`, the nil slice is the empty
list. -/
def UsersContext {α : Type} (c : Client (List α)) (ctx : Context) (fuel : Nat) :
    Option (List α × Option Error × Client (List α)) :=
  UsersContext.loop ctx fuel 1 [] [] c

/-- A `time.Time`, as the number of nanoseconds elapsed since the zero time. -/
structure Time where
  nanos : Int
deriving DecidableEq

/-- The struct `User`. -/
structure User where
  ID : Int
  Email : String
  Name : String
  Login : String
  Theme : String
  OrgID : Int
  IsAdmin : Bool
  IsDisabled : Bool
  IsExternal : Bool
  UpdatedAt : Time
  CreatedAt : Time
  AuthLabels : List String
  AvatarURL : String
  Password : String

/-- The value `User{}`. -/
def User.zero : User :=
  ⟨0, "", "", "", "", 0, false, false, false, ⟨0⟩, ⟨0⟩, [], "", ""⟩

/-- The function `UserContext`. -/
def UserContext (c : Client User) (ctx : Context) (id : Int) :
    User × Option Error × Client User :=
  c.request ctx "GET" ("/api/users/" ++ toString id) [] none User.zero

/-- The function `UserByEmailContext`. -/
def UserByEmailContext (c : Client User) (ctx : Context) (email : String) :
    User × Option Error × Client User :=
  let query : Values := []
  let query := query.Add "loginOrEmail" email
  c.request ctx "GET" "/api/users/lookup" query none User.zero

/-- The function `UserUpdateContext`. -/
def UserUpdateContext (jsonMarshal : User → Except Error JSON) (c : Client δ) (ctx : Context)
    (u : User) : Option Error × Client δ :=
  match jsonMarshal u with
  | .error err => (some err, c)
  | .ok data => c.requestNil ctx "PUT" ("/api/users/" ++ toString u.ID) [] (some (.ofData data))

/-! ## admin.go -/

/-- The anonymous struct with the single field `ID`, into which the creating operations
decode the response. -/
structure IDResult where
  ID : Int

/-- The anonymous struct with the single field `Message`, into which the annotation
operations decode the response. -/
structure MessageResult where
  Message : String

/-- The struct `PauseAlertRequest`, declared in another file of the package;
`PauseAllAlertsContext` sets its field `Paused`. -/
structure PauseAlertRequest where
  Paused : Bool

/-- The function `CreateUserContext`. -/
def CreateUserContext (jsonMarshal : User → Except Error JSON) (c : Client IDResult)
    (ctx : Context) (user : User) : Int × Option Error × Client IDResult :=
  let id : Int := 0
  match jsonMarshal user with
  | .error err => (id, some err, c)
  | .ok data =>
    let created : IDResult := ⟨0⟩
    match c.request ctx "POST" "/api/admin/users" [] (some (.ofData data)) created with
    | (_, some err, c) => (id, some err, c)
    | (created, none, c) => (created.ID, none, c)

/-- The function `DeleteUserContext`. -/
def DeleteUserContext (c : Client δ) (ctx : Context) (id : Int) : Option Error × Client δ :=
  c.requestNil ctx "DELETE" ("/api/admin/users/" ++ toString id) [] none

/-- The function `UpdateUserPasswordContext`; the map `body` is kept as its list of
entries. -/
def UpdateUserPasswordContext (jsonMarshal : List (String × String) → Except Error JSON)
    (c : Client δ) (ctx : Context) (id : Int) (password : String) : Option Error × Client δ :=
  let body := [("password", password)]
  match jsonMarshal body with
  | .error err => (some err, c)
  | .ok data =>
    c.requestNil ctx "PUT" ("/api/admin/users/" ++ toString id ++ "/password") []
      (some (.ofData data))

/-- The function `UpdateUserPermissionsContext`; the map `body` is kept as its list of
entries. -/
def UpdateUserPermissionsContext (jsonMarshal : List (String × Bool) → Except Error JSON)
    (c : Client δ) (ctx : Context) (id : Int) (isAdmin : Bool) : Option Error × Client δ :=
  let body := [("isGrafanaAdmin", isAdmin)]
  match jsonMarshal body with
  | .error err => (some err, c)
  | .ok data =>
    c.requestNil ctx "PUT" ("/api/admin/users/" ++ toString id ++ "/permissions") []
      (some (.ofData data))

/-- The function `PauseAllAlertsContext`; `δ` stands for `PauseAllAlertsResponse`, whose zero
value is `default`. -/
def PauseAllAlertsContext [Inhabited δ] (jsonMarshal : PauseAlertRequest → Except Error JSON)
    (c : Client δ) (ctx : Context) : δ × Option Error × Client δ :=
  let result : δ := default
  match jsonMarshal { Paused := true } with
  | .error err => (result, some err, c)
  | .ok data => c.request ctx "POST" "/api/admin/pause-all-alerts" [] (some (.ofData data)) result

/-! ## alerting_alert_rule.go -/

/-- The struct `RelativeTimeRange`; a `time.Duration` is a number of nanoseconds. -/
structure RelativeTimeRange where
  From : Int
  To : Int

/-- The struct `AlertQuery`; the `interface{}` field `Model` holds a JSON value. -/
structure AlertQuery where
  DatasourceUID : String
  Model : JSON
  QueryType : String
  RefID : String
  RelativeTimeRange : RelativeTimeRange

/-- The struct `AlertRule`; maps are kept as lists of entries, a `time.Duration` is a number
of nanoseconds. -/
structure AlertRule where
  Annotations : List (String × String)
  Condition : String
  Data : List AlertQuery
  ExecErrState : String
  FolderUID : String
  ID : Int
  Labels : List (String × String)
  NoDataState : String
  OrgID : Int
  RuleGroup : String
  Title : String
  UID : String
  Updated : Time
  For : String
  ForDuration : Int
  Provenance : String

/-- The value `AlertRule{}`. -/
def AlertRule.zero : AlertRule :=
  ⟨[], "", [], "", "", 0, [], "", 0, "", "", "", ⟨0⟩, "", 0, ""⟩

/-- The struct `RuleGroup`. -/
structure RuleGroup where
  Title : String
  FolderUID : String
  Interval : Int
  Rules : List AlertRule

/-- The value `RuleGroup{}`. -/
def RuleGroup.zero : RuleGroup :=
  ⟨"", "", 0, []⟩

/-- The closure `f` of `timeDurationToRuleDuration`, acting on the pair of the variables
`r` and `ms` that it updates. Go's `/` and `%` on integers truncate toward zero. -/
def timeDurationToRuleDuration.f (st : String × Int) (unit : String) (mult : Int)
    (exact : Bool) : String × Int :=
  if exact && st.2.tmod mult != 0 then
    st
  else
    let v := st.2.tdiv mult
    if v > 0 then (st.1 ++ toString v ++ unit, st.2 - v * mult) else st

/-- The function `timeDurationToRuleDuration`; `d` is a `time.Duration`, a number of
nanoseconds. -/
def timeDurationToRuleDuration (d : Int) : String :=
  let ms : Int := d.tdiv 1000000
  if ms = 0 then
    "0s"
  else
    let st : String × Int := ("", ms)
    let st := timeDurationToRuleDuration.f st "y" (1000 * 60 * 60 * 24 * 365) true
    let st := timeDurationToRuleDuration.f st "w" (1000 * 60 * 60 * 24 * 7) true
    let st := timeDurationToRuleDuration.f st "d" (1000 * 60 * 60 * 24) false
    let st := timeDurationToRuleDuration.f st "h" (1000 * 60 * 60) false
    let st := timeDurationToRuleDuration.f st "m" (1000 * 60) false
    let st := timeDurationToRuleDuration.f st "s" 1000 false
    let st := timeDurationToRuleDuration.f st "ms" 1 false
    st.1

/-- The function `syncCalculatedRuleFields`, returning the rule as it leaves it. -/
def syncCalculatedRuleFields (rule : AlertRule) : AlertRule :=
  if rule.For = "" then
    { rule with For := timeDurationToRuleDuration rule.ForDuration }
  else
    rule

/-- The function `syncCalculatedRuleGroupFields`, returning the group as it leaves it. -/
def syncCalculatedRuleGroupFields (group : RuleGroup) : RuleGroup :=
  { group with Rules := group.Rules.map syncCalculatedRuleFields }

/-- The function `AlertRuleContext`. -/
def AlertRuleContext (c : Client AlertRule) (ctx : Context) (uid : String) :
    AlertRule × Option Error × Client AlertRule :=
  let path := "/api/v1/provisioning/alert-rules/" ++ uid
  let result := AlertRule.zero
  match c.request ctx "GET" path [] none result with
  | (_, some err, c) => (AlertRule.zero, some err, c)
  | (result, none, c) => (result, none, c)

/-- The function `AlertRuleGroupContext`. -/
def AlertRuleGroupContext (c : Client RuleGroup) (ctx : Context) (folderUID : String)
    (name : String) : RuleGroup × Option Error × Client RuleGroup :=
  let path := "/api/v1/provisioning/folder/" ++ folderUID ++ "/rule-groups/" ++ name
  let result := RuleGroup.zero
  c.request ctx "GET" path [] none result

/-- The function `SetAlertRuleGroupContext`. -/
def SetAlertRuleGroupContext (jsonMarshal : RuleGroup → Except Error JSON) (c : Client δ)
    (ctx : Context) (group : RuleGroup) : Option Error × Client δ :=
  let group := syncCalculatedRuleGroupFields group
  let folderUID := group.FolderUID
  let name := group.Title
  match jsonMarshal group with
  | .error err => (some err, c)
  | .ok req =>
    let uri := "/api/v1/provisioning/folder/" ++ folderUID ++ "/rule-groups/" ++ name
    c.requestNil ctx "PUT" uri [] (some (.ofData req))

/-- The function `NewAlertRuleContext`; the pointer `ar` is taken to be non-nil. -/
def NewAlertRuleContext (jsonMarshal : AlertRule → Except Error JSON) (c : Client AlertRule)
    (ctx : Context) (ar : AlertRule) : String × Option Error × Client AlertRule :=
  let ar := syncCalculatedRuleFields ar
  match jsonMarshal ar with
  | .error err => ("", some err, c)
  | .ok req =>
    let result := AlertRule.zero
    match c.request ctx "POST" "/api/v1/provisioning/alert-rules" [] (some (.ofData req))
        result with
    | (_, some err, c) => ("", some err, c)
    | (result, none, c) => (result.UID, none, c)

/-- The function `UpdateAlertRuleContext`; the pointer `ar` is taken to be non-nil. -/
def UpdateAlertRuleContext (jsonMarshal : AlertRule → Except Error JSON) (c : Client δ)
    (ctx : Context) (ar : AlertRule) : Option Error × Client δ :=
  let ar := syncCalculatedRuleFields ar
  let uri := "/api/v1/provisioning/alert-rules/" ++ ar.UID
  match jsonMarshal ar with
  | .error err => (some err, c)
  | .ok req => c.requestNil ctx "PUT" uri [] (some (.ofData req))

/-- The function `DeleteAlertRuleContext`. -/
def DeleteAlertRuleContext (c : Client δ) (ctx : Context) (uid : String) :
    Option Error × Client δ :=
  let uri := "/api/v1/provisioning/alert-rules/" ++ uid
  c.requestNil ctx "DELETE" uri [] none

/-! ## alerting_message_template.go -/

/-- The anonymous struct `req` of `SetMessageTemplateContext`. -/
structure TemplateRequest where
  Template : String

/-- The function `MessageTemplatesContext`; `α` stands for `AlertingMessageTemplate`. -/
def MessageTemplatesContext {α : Type} (c : Client (List α)) (ctx : Context) :
    List α × Option Error × Client (List α) :=
  let ts : List α := []
  match c.request ctx "GET" "/api/v1/provisioning/templates" [] none ts with
  | (_, some err, c) => ([], some err, c)
  | (ts, none, c) => (ts, none, c)

/-- The function `MessageTemplateContext`; `δ` stands for `AlertingMessageTemplate`. -/
def MessageTemplateContext [Inhabited δ] (c : Client δ) (ctx : Context) (name : String) :
    Option δ × Option Error × Client δ :=
  let t : δ := default
  let uri := "/api/v1/provisioning/templates/" ++ name
  match c.request ctx "GET" uri [] none t with
  | (_, some err, c) => (none, some err, c)
  | (t, none, c) => (some t, none, c)

/-- The function `SetMessageTemplateContext`. -/
def SetMessageTemplateContext (jsonMarshal : TemplateRequest → Except Error JSON)
    (c : Client δ) (ctx : Context) (name content : String) : Option Error × Client δ :=
  let req : TemplateRequest := { Template := content }
  match jsonMarshal req with
  | .error err => (some err, c)
  | .ok body =>
    let uri := "/api/v1/provisioning/templates/" ++ name
    c.requestNil ctx "PUT" uri [] (some (.ofData body))

/-- The function `DeleteMessageTemplateContext`. -/
def DeleteMessageTemplateContext (c : Client δ) (ctx : Context) (name : String) :
    Option Error × Client δ :=
  let uri := "/api/v1/provisioning/templates/" ++ name
  c.requestNil ctx "DELETE" uri [] none

/-! ## alerting_mute_timing.go -/

/-- The struct `TimeRange`. -/
structure TimeRange where
  StartMinute : String
  EndMinute : String

/-- The struct `TimeInterval`; the range types are strings. -/
structure TimeInterval where
  Times : List TimeRange
  Weekdays : List String
  DaysOfMonth : List String
  Months : List String
  Years : List String

/-- The struct `MuteTiming`. -/
structure MuteTiming where
  Name : String
  TimeIntervals : List TimeInterval
  Provenance : String

/-- The value `MuteTiming{}`. -/
def MuteTiming.zero : MuteTiming :=
  ⟨"", [], ""⟩

/-- The function `MuteTimingsContext`. -/
def MuteTimingsContext (c : Client (List MuteTiming)) (ctx : Context) :
    List MuteTiming × Option Error × Client (List MuteTiming) :=
  let mts : List MuteTiming := []
  match c.request ctx "GET" "/api/v1/provisioning/mute-timings" [] none mts with
  | (_, some err, c) => ([], some err, c)
  | (mts, none, c) => (mts, none, c)

/-- The function `MuteTimingContext`. -/
def MuteTimingContext (c : Client MuteTiming) (ctx : Context) (name : String) :
    MuteTiming × Option Error × Client MuteTiming :=
  let mt := MuteTiming.zero
  let uri := "/api/v1/provisioning/mute-timings/" ++ name
  c.request ctx "GET" uri [] none mt

/-- The function `NewMuteTimingContext`; the pointer `mt` is taken to be non-nil. -/
def NewMuteTimingContext (jsonMarshal : MuteTiming → Except Error JSON) (c : Client δ)
    (ctx : Context) (mt : MuteTiming) : Option Error × Client δ :=
  match jsonMarshal mt with
  | .error err => (some err, c)
  | .ok req =>
    c.requestNil ctx "POST" "/api/v1/provisioning/mute-timings" [] (some (.ofData req))

/-- The function `UpdateMuteTimingContext`; the pointer `mt` is taken to be non-nil. -/
def UpdateMuteTimingContext (jsonMarshal : MuteTiming → Except Error JSON) (c : Client δ)
    (ctx : Context) (mt : MuteTiming) : Option Error × Client δ :=
  let uri := "/api/v1/provisioning/mute-timings/" ++ mt.Name
  match jsonMarshal mt with
  | .error err => (some err, c)
  | .ok req => c.requestNil ctx "PUT" uri [] (some (.ofData req))

/-- The function `DeleteMuteTimingContext`. -/
def DeleteMuteTimingContext (c : Client δ) (ctx : Context) (name : String) :
    Option Error × Client δ :=
  let uri := "/api/v1/provisioning/mute-timings/" ++ name
  c.requestNil ctx "DELETE" uri [] none

/-! ## alertnotification.go -/

/-- The struct `AlertNotification`; the `interface{}` fields hold JSON values, the field
`Type` is written `Type_`. -/
structure AlertNotification where
  ID : Int
  UID : String
  Name : String
  Type_ : String
  IsDefault : Bool
  DisableResolveMessage : Bool
  SendReminder : Bool
  Frequency : String
  Settings : JSON
  SecureFields : JSON
  SecureSettings : JSON

/-- The value `AlertNotification{}`. -/
def AlertNotification.zero : AlertNotification :=
  ⟨0, "", "", "", false, false, false, "", .null, .null, .null⟩

/-- The function `AlertNotificationsContext`. -/
def AlertNotificationsContext (c : Client (List AlertNotification)) (ctx : Context) :
    List AlertNotification × Option Error × Client (List AlertNotification) :=
  let alertnotifications : List AlertNotification := []
  match c.request ctx "GET" "/api/alert-notifications/" [] none alertnotifications with
  | (_, some err, c) => ([], some err, c)
  | (alertnotifications, none, c) => (alertnotifications, none, c)

/-- The function `AlertNotificationContext`. -/
def AlertNotificationContext (c : Client AlertNotification) (ctx : Context) (id : Int) :
    Option AlertNotification × Option Error × Client AlertNotification :=
  let path := "/api/alert-notifications/" ++ toString id
  let result := AlertNotification.zero
  match c.request ctx "GET" path [] none result with
  | (_, some err, c) => (none, some err, c)
  | (result, none, c) => (some result, none, c)

/-- The function `NewAlertNotificationContext`; the pointer `a` is taken to be non-nil. -/
def NewAlertNotificationContext (jsonMarshal : AlertNotification → Except Error JSON)
    (c : Client IDResult) (ctx : Context) (a : AlertNotification) :
    Int × Option Error × Client IDResult :=
  match jsonMarshal a with
  | .error err => (0, some err, c)
  | .ok data =>
    let result : IDResult := ⟨0⟩
    match c.request ctx "POST" "/api/alert-notifications" [] (some (.ofData data)) result with
    | (_, some err, c) => (0, some err, c)
    | (result, none, c) => (result.ID, none, c)

/-- The function `UpdateAlertNotificationContext`; the pointer `a` is taken to be
non-nil. -/
def UpdateAlertNotificationContext (jsonMarshal : AlertNotification → Except Error JSON)
    (c : Client δ) (ctx : Context) (a : AlertNotification) : Option Error × Client δ :=
  let path := "/api/alert-notifications/" ++ toString a.ID
  match jsonMarshal a with
  | .error err => (some err, c)
  | .ok data => c.requestNil ctx "PUT" path [] (some (.ofData data))

/-- The function `DeleteAlertNotificationContext`. -/
def DeleteAlertNotificationContext (c : Client δ) (ctx : Context) (id : Int) :
    Option Error × Client δ :=
  let path := "/api/alert-notifications/" ++ toString id
  c.requestNil ctx "DELETE" path [] none

/-! ## annotation.go -/

/-- The function `AnnotationsContext`; `α` stands for `Annotation`. -/
def AnnotationsContext {α : Type} (c : Client (List α)) (ctx : Context) (params : Values) :
    List α × Option Error × Client (List α) :=
  let result : List α := []
  match c.request ctx "GET" "/api/annotations" params none result with
  | (_, some err, c) => ([], some err, c)
  | (result, none, c) => (result, none, c)

/-- The function `NewAnnotationContext`; `π` stands for `Annotation`, the pointer `a` is
taken to be non-nil. -/
def NewAnnotationContext {π : Type} (jsonMarshal : π → Except Error JSON)
    (c : Client IDResult) (ctx : Context) (a : π) : Int × Option Error × Client IDResult :=
  match jsonMarshal a with
  | .error err => (0, some err, c)
  | .ok data =>
    let result : IDResult := ⟨0⟩
    match c.request ctx "POST" "/api/annotations" [] (some (.ofData data)) result with
    | (_, some err, c) => (0, some err, c)
    | (result, none, c) => (result.ID, none, c)

/-- The function `NewGraphiteAnnotationContext`; `π` stands for `GraphiteAnnotation`, the
pointer `gfa` is taken to be non-nil. -/
def NewGraphiteAnnotationContext {π : Type} (jsonMarshal : π → Except Error JSON)
    (c : Client IDResult) (ctx : Context) (gfa : π) : Int × Option Error × Client IDResult :=
  match jsonMarshal gfa with
  | .error err => (0, some err, c)
  | .ok data =>
    let result : IDResult := ⟨0⟩
    match c.request ctx "POST" "/api/annotations/graphite" [] (some (.ofData data)) result with
    | (_, some err, c) => (0, some err, c)
    | (result, none, c) => (result.ID, none, c)

/-- The function `UpdateAnnotationContext`; `π` stands for `Annotation`, the pointer `a` is
taken to be non-nil. -/
def UpdateAnnotationContext {π : Type} (jsonMarshal : π → Except Error JSON)
    (c : Client MessageResult) (ctx : Context) (id : Int) (a : π) :
    String × Option Error × Client MessageResult :=
  let path := "/api/annotations/" ++ toString id
  match jsonMarshal a with
  | .error err => ("", some err, c)
  | .ok data =>
    let result : MessageResult := ⟨""⟩
    match c.request ctx "PUT" path [] (some (.ofData data)) result with
    | (_, some err, c) => ("", some err, c)
    | (result, none, c) => (result.Message, none, c)

/-- The function `PatchAnnotationContext`; `π` stands for `Annotation`, the pointer `a` is
taken to be non-nil. -/
def PatchAnnotationContext {π : Type} (jsonMarshal : π → Except Error JSON)
    (c : Client MessageResult) (ctx : Context) (id : Int) (a : π) :
    String × Option Error × Client MessageResult :=
  let path := "/api/annotations/" ++ toString id
  match jsonMarshal a with
  | .error err => ("", some err, c)
  | .ok data =>
    let result : MessageResult := ⟨""⟩
    match c.request ctx "PATCH" path [] (some (.ofData data)) result with
    | (_, some err, c) => ("", some err, c)
    | (result, none, c) => (result.Message, none, c)

/-- The function `DeleteAnnotationContext`. -/
def DeleteAnnotationContext (c : Client MessageResult) (ctx : Context) (id : Int) :
    String × Option Error × Client MessageResult :=
  let path := "/api/annotations/" ++ toString id
  let result : MessageResult := ⟨""⟩
  match c.request ctx "DELETE" path [] (some .ofNil) result with
  | (_, some err, c) => ("", some err, c)
  | (result, none, c) => (result.Message, none, c)

/-- The function `DeleteAnnotationByRegionIDContext`. -/
def DeleteAnnotationByRegionIDContext (c : Client MessageResult) (ctx : Context) (id : Int) :
    String × Option Error × Client MessageResult :=
  let path := "/api/annotations/region/" ++ toString id
  let result : MessageResult := ⟨""⟩
  match c.request ctx "DELETE" path [] (some .ofNil) result with
  | (_, some err, c) => ("", some err, c)
  | (result, none, c) => (result.Message, none, c)

/-! ## api_key.go -/

/-- The function `CreateAPIKeyContext`; `π` stands for `CreateAPIKeyRequest`, `δ` for
`CreateAPIKeyResponse`. -/
def CreateAPIKeyContext {π : Type} [Inhabited δ] (jsonMarshal : π → Except Error JSON)
    (c : Client δ) (ctx : Context) (request : π) : δ × Option Error × Client δ :=
  let response : δ := default
  match jsonMarshal request with
  | .error err => (response, some err, c)
  | .ok data => c.request ctx "POST" "/api/auth/keys" [] (some (.ofData data)) response

/-- The function `GetAPIKeysContext`; `α` stands for `*GetAPIKeysResponse`. -/
def GetAPIKeysContext {α : Type} (c : Client (List α)) (ctx : Context)
    (includeExpired : Bool) : List α × Option Error × Client (List α) :=
  let response : List α := []
  let query : Values := []
  let query := query.Add "includeExpired" (toString includeExpired)
  c.request ctx "GET" "/api/auth/keys" query none response

/-- The function `DeleteAPIKeyContext`; `δ` stands for `DeleteAPIKeyResponse`. -/
def DeleteAPIKeyContext [Inhabited δ] (c : Client δ) (ctx : Context) (id : Int) :
    δ × Option Error × Client δ :=
  let response : δ := default
  let path := "/api/auth/keys/" ++ toString id
  c.request ctx "DELETE" path [] none response

/-! ## builtin_role_assignments.go -/

/-- The constant `baseURL`. -/
def baseURL : String := "/api/access-control/builtin-roles"

/-- The struct `BuiltInRoleAssignment`. -/
structure BuiltInRoleAssignment where
  BuiltinRole : String
  RoleUID : String
  Global : Bool

/-- The value `BuiltInRoleAssignment{}`. -/
def BuiltInRoleAssignment.zero : BuiltInRoleAssignment :=
  ⟨"", "", false⟩

/-- The function `GetBuiltInRoleAssignmentsContext`; `α` stands for the entries of the map
`map[string][]*Role`. -/
def GetBuiltInRoleAssignmentsContext {α : Type} (c : Client (List α)) (ctx : Context) :
    List α × Option Error × Client (List α) :=
  let br : List α := []
  match c.request ctx "GET" baseURL [] none br with
  | (_, some err, c) => ([], some err, c)
  | (br, none, c) => (br, none, c)

/-- The function `NewBuiltInRoleAssignmentContext`. -/
def NewBuiltInRoleAssignmentContext
    (jsonMarshal : BuiltInRoleAssignment → Except Error JSON)
    (c : Client BuiltInRoleAssignment) (ctx : Context)
    (builtInRoleAssignment : BuiltInRoleAssignment) :
    Option BuiltInRoleAssignment × Option Error × Client BuiltInRoleAssignment :=
  match jsonMarshal builtInRoleAssignment with
  | .error err => (none, some err, c)
  | .ok body =>
    let br := BuiltInRoleAssignment.zero
    match c.request ctx "POST" baseURL [] (some (.ofData body)) br with
    | (_, some err, c) => (none, some err, c)
    | (br, none, c) => (some br, none, c)

/-- The function `DeleteBuiltInRoleAssignmentContext`. -/
def DeleteBuiltInRoleAssignmentContext
    (jsonMarshal : BuiltInRoleAssignment → Except Error JSON) (c : Client δ) (ctx : Context)
    (builtInRole : BuiltInRoleAssignment) : Option Error × Client δ :=
  match jsonMarshal builtInRole with
  | .error err => (some err, c)
  | .ok data =>
    let qp : Values := [("global", [toString builtInRole.Global])]
    let url := baseURL ++ "/" ++ builtInRole.BuiltinRole ++ "/roles/" ++ builtInRole.RoleUID
    c.requestNil ctx "DELETE" url qp (some (.ofData data))

/-! ## cloud_api_key.go -/

/-- The function `CreateCloudAPIKeyContext`; `π` stands for `CreateCloudAPIKeyInput`, `δ`
for `CloudAPIKey`, the pointer `input` is taken to be non-nil. -/
def CreateCloudAPIKeyContext {π : Type} [Inhabited δ] (jsonMarshal : π → Except Error JSON)
    (c : Client δ) (ctx : Context) (org : String) (input : π) :
    Option δ × Option Error × Client δ :=
  let resp : δ := default
  match jsonMarshal input with
  | .error err => (none, some err, c)
  | .ok data =>
    match c.request ctx "POST" ("/api/orgs/" ++ org ++ "/api-keys") [] (some (.ofData data))
        resp with
    | (resp, err, c) => (some resp, err, c)

/-- The function `ListCloudAPIKeysContext`; `δ` stands for `ListCloudAPIKeysOutput`. -/
def ListCloudAPIKeysContext [Inhabited δ] (c : Client δ) (ctx : Context) (org : String) :
    Option δ × Option Error × Client δ :=
  let resp : δ := default
  match c.request ctx "GET" ("/api/orgs/" ++ org ++ "/api-keys") [] none resp with
  | (resp, err, c) => (some resp, err, c)

/-- The function `DeleteCloudAPIKeyContext`. -/
def DeleteCloudAPIKeyContext (c : Client δ) (ctx : Context) (org : String)
    (keyName : String) : Option Error × Client δ :=
  c.requestNil ctx "DELETE" ("/api/orgs/" ++ org ++ "/api-keys/" ++ keyName) [] none

/-! ## cloud_plugin.go -/

/-- The struct `Plugin`. -/
structure Plugin where
  ID : Int
  Name : String
  Slug : String
  Version : String
  Description : String
deriving DecidableEq

/-- The value `Plugin{}`. -/
def Plugin.zero : Plugin :=
  ⟨0, "", "", "", ""⟩

/-- The anonymous struct `installPluginRequest` of `InstallCloudPluginContext`. -/
structure InstallPluginRequest where
  Plugin : String
  Version : String

/-- The call `c.newRequest(ctx, method, path, query, body)`: the request built, or the
error. -/
def Client.newRequest (c : Client δ) (ctx : Context) (method path : String) (query : Values)
    (body : Option Buffer) : Except Error Call :=
  let req : Call := ⟨ctx, method, path, query, body, false⟩
  match c.newRequestErr req with
  | some err => .error err
  | none => .ok req

/-- The call `c.client.Do(req)`: logs the request sent and returns the response or the
error. -/
def Client.Do (c : Client δ) (req : Call) : Except Error HTTPResponse × Client δ :=
  (c.doReplies c.sent.length, { c with sent := c.sent ++ [req] })

/-- The function `InstallCloudPluginContext`; `δ` stands for `CloudPluginInstallation`. -/
def InstallCloudPluginContext [Inhabited δ]
    (jsonMarshal : InstallPluginRequest → Except Error JSON) (c : Client δ) (ctx : Context)
    (stackSlug : String) (pluginSlug : String) (pluginVersion : String) :
    Option δ × Option Error × Client δ :=
  let installPluginRequest : InstallPluginRequest :=
    { Plugin := pluginSlug, Version := pluginVersion }
  match jsonMarshal installPluginRequest with
  | .error err => (none, some err, c)
  | .ok data =>
    let installation : δ := default
    match c.request ctx "POST" ("/api/instances/" ++ stackSlug ++ "/plugins") []
        (some (.ofData data)) installation with
    | (_, some err, c) => (none, some err, c)
    | (installation, none, c) => (some installation, none, c)

/-- The function `UninstallCloudPluginContext`. -/
def UninstallCloudPluginContext (c : Client δ) (ctx : Context) (stackSlug : String)
    (pluginSlug : String) : Option Error × Client δ :=
  c.requestNil ctx "DELETE" ("/api/instances/" ++ stackSlug ++ "/plugins/" ++ pluginSlug) []
    none

/-- The function `IsCloudPluginInstalledContext`, which builds its request with
`c.newRequest` and sends it with `c.client.Do`. -/
def IsCloudPluginInstalledContext (c : Client δ) (ctx : Context) (stackSlug : String)
    (pluginSlug : String) : Bool × Option Error × Client δ :=
  match c.newRequest ctx "GET" ("/api/instances/" ++ stackSlug ++ "/plugins/" ++ pluginSlug)
      [] none with
  | .error err => (false, some err, c)
  | .ok req =>
    match c.Do req with
    | (.error err, c) => (false, some err, c)
    | (.ok resp, c) =>
      if resp.StatusCode ≠ 200 then
        if resp.StatusCode = 404 then
          (false, none, c)
        else
          match resp.Body with
          | .error err => (false, some err, c)
          | .ok bodyContents =>
            (false,
              some (.errorString
                ("status: " ++ toString resp.StatusCode ++ ", body: " ++ bodyContents)), c)
      else
        (true, none, c)

/-- The function `GetCloudPluginInstallationContext`; `δ` stands for
`CloudPluginInstallation`. -/
def GetCloudPluginInstallationContext [Inhabited δ] (c : Client δ) (ctx : Context)
    (stackSlug : String) (pluginSlug : String) : Option δ × Option Error × Client δ :=
  let installation : δ := default
  match c.request ctx "GET" ("/api/instances/" ++ stackSlug ++ "/plugins/" ++ pluginSlug) []
      none installation with
  | (_, some err, c) => (none, some err, c)
  | (installation, none, c) => (some installation, none, c)

/-- The function `PluginBySlugContext`. -/
def PluginBySlugContext (c : Client Plugin) (ctx : Context) (slug : String) :
    Option Plugin × Option Error × Client Plugin :=
  let p := Plugin.zero
  match c.request ctx "GET" ("/api/plugins/" ++ slug) [] none p with
  | (_, some err, c) => (none, some err, c)
  | (p, none, c) => (some p, none, c)

/-- The function `PluginByIDContext`. It hands `p` itself to `c.request`, not `&p`: the
callee works on a copy, and the `p` whose address is returned is the one declared here. -/
def PluginByIDContext (c : Client Plugin) (ctx : Context) (pluginID : Int) :
    Option Plugin × Option Error × Client Plugin :=
  let p := Plugin.zero
  match c.request ctx "GET" ("/api/plugins/" ++ toString pluginID) [] none p with
  | (_, some err, c) => (none, some err, c)
  | (_, none, c) => (some p, none, c)

/-! ## dashboard.go, the saving operations -/

/-- The map `wrapper` of `SaveDashboardContext`, with its two entries; `π` stands for
`map[string]interface{}`. -/
structure SaveDashboardWrapper (π : Type) where
  dashboard : π
  overwrite : Bool

/-- The function `SaveDashboardContext`; `π` stands for `map[string]interface{}`, `δ` for
`DashboardSaveResponse`. -/
def SaveDashboardContext {π : Type} [Inhabited δ]
    (jsonMarshal : SaveDashboardWrapper π → Except Error JSON) (c : Client δ) (ctx : Context)
    (model : π) (overwrite : Bool) : Option δ × Option Error × Client δ :=
  let wrapper : SaveDashboardWrapper π := { dashboard := model, overwrite := overwrite }
  match jsonMarshal wrapper with
  | .error err => (none, some err, c)
  | .ok data =>
    let result : δ := default
    match c.request ctx "POST" "/api/dashboards/db" [] (some (.ofData data)) result with
    | (_, some err, c) => (none, some err, c)
    | (result, none, c) => (some result, none, c)

/-- The function `NewDashboardContext`; `δ` stands for `DashboardSaveResponse`. -/
def NewDashboardContext [Inhabited δ] (jsonMarshal : Dashboard → Except Error JSON)
    (c : Client δ) (ctx : Context) (dashboard : Dashboard) :
    Option δ × Option Error × Client δ :=
  match jsonMarshal dashboard with
  | .error err => (none, some err, c)
  | .ok data =>
    let result : δ := default
    match c.request ctx "POST" "/api/dashboards/db" [] (some (.ofData data)) result with
    | (_, some err, c) => (none, some err, c)
    | (result, none, c) => (some result, none, c)

/-! ## datasource_permissions.go -/

/-- The function `EnableDatasourcePermissionsContext`. -/
def EnableDatasourcePermissionsContext (c : Client δ) (ctx : Context) (id : Int) :
    Option Error × Client δ :=
  let path := "/api/datasources/" ++ toString id ++ "/enable-permissions"
  match c.requestNil ctx "POST" path [] none with
  | (some err, c) =>
    (some (.wrapError ("error enabling permissions at " ++ path ++ ": " ++ err.text) err), c)
  | (none, c) => (none, c)

/-- The function `DisableDatasourcePermissionsContext`. -/
def DisableDatasourcePermissionsContext (c : Client δ) (ctx : Context) (id : Int) :
    Option Error × Client δ :=
  let path := "/api/datasources/" ++ toString id ++ "/disable-permissions"
  match c.requestNil ctx "POST" path [] none with
  | (some err, c) =>
    (some (.wrapError ("error disabling permissions at " ++ path ++ ": " ++ err.text) err), c)
  | (none, c) => (none, c)

/-- The function `DatasourcePermissionsContext`; `δ` stands for
`DatasourcePermissionsResponse`, the destination is the pointer `out`, nil at first. -/
def DatasourcePermissionsContext (c : Client (Option δ)) (ctx : Context) (id : Int) :
    Option δ × Option Error × Client (Option δ) :=
  let path := "/api/datasources/" ++ toString id ++ "/permissions"
  let out : Option δ := none
  match c.request ctx "GET" path [] none out with
  | (out, some err, c) =>
    (out, some (.wrapError ("error getting permissions at " ++ path ++ ": " ++ err.text) err),
      c)
  | (out, none, c) => (out, none, c)

/-- The function `AddDatasourcePermissionContext`; `π` stands for
`DatasourcePermissionAddPayload`, the pointer `item` is taken to be non-nil. -/
def AddDatasourcePermissionContext {π : Type} (jsonMarshal : π → Except Error JSON)
    (c : Client δ) (ctx : Context) (id : Int) (item : π) : Option Error × Client δ :=
  let path := "/api/datasources/" ++ toString id ++ "/permissions"
  match jsonMarshal item with
  | .error err => (some (.wrapError ("marshal err: " ++ err.text) err), c)
  | .ok data =>
    match c.requestNil ctx "POST" path [] (some (.ofData data)) with
    | (some err, c) =>
      (some (.wrapError ("error adding permissions at " ++ path ++ ": " ++ err.text) err), c)
    | (none, c) => (none, c)

/-- The function `RemoveDatasourcePermissionContext`. -/
def RemoveDatasourcePermissionContext (c : Client δ) (ctx : Context) (id permissionID : Int) :
    Option Error × Client δ :=
  let path := "/api/datasources/" ++ toString id ++ "/permissions/" ++ toString permissionID
  match c.requestNil ctx "DELETE" path [] none with
  | (some err, c) =>
    (some (.wrapError ("error deleting permissions at " ++ path ++ ": " ++ err.text) err), c)
  | (none, c) => (none, c)

/-! ## folder.go, the remaining operations -/

/-- The function `FoldersContext`. -/
def FoldersContext (c : Client (List Folder)) (ctx : Context) :
    List Folder × Option Error × Client (List Folder) :=
  let folders : List Folder := []
  c.request ctx "GET" "/api/folders/" [] none folders

/-- The function `FolderContext`. -/
def FolderContext (c : Client Folder) (ctx : Context) (id : Int) :
    Folder × Option Error × Client Folder :=
  let folder := Folder.zero
  c.request ctx "GET" ("/api/folders/id/" ++ toString id) [] none folder

/-- The function `FolderByUIDContext`. -/
def FolderByUIDContext (c : Client Folder) (ctx : Context) (uid : String) :
    Folder × Option Error × Client Folder :=
  let folder := Folder.zero
  c.request ctx "GET" ("/api/folders/" ++ uid) [] none folder

/-- The function `DeleteFolderContext`. -/
def DeleteFolderContext (c : Client δ) (ctx : Context) (id : String) :
    Option Error × Client δ :=
  c.requestNil ctx "DELETE" ("/api/folders/" ++ id) [] none

/-! ## health.go -/

/-- The struct `HealthResponse`. -/
structure HealthResponse where
  Commit : String
  Database : String
  Version : String
deriving DecidableEq

/-- The function `HealthContext`. -/
def HealthContext (c : Client HealthResponse) (ctx : Context) :
    HealthResponse × Option Error × Client HealthResponse :=
  let health : HealthResponse := ⟨"", "", ""⟩
  c.request ctx "GET" "/api/health" [] none health

/-! ## org_preferences.go -/

/-- The function `OrgPreferencesContext`; `δ` stands for `Preferences`. -/
def OrgPreferencesContext [Inhabited δ] (c : Client δ) (ctx : Context) :
    δ × Option Error × Client δ :=
  let prefs : δ := default
  c.request ctx "GET" "/api/org/preferences" [] none prefs

/-- The function `UpdateOrgPreferencesContext`; `π` stands for `Preferences`, `δ` for
`UpdateOrgPreferencesResponse`. -/
def UpdateOrgPreferencesContext {π : Type} [Inhabited δ]
    (jsonMarshal : π → Except Error JSON) (c : Client δ) (ctx : Context) (p : π) :
    δ × Option Error × Client δ :=
  let resp : δ := default
  match jsonMarshal p with
  | .error err => (resp, some err, c)
  | .ok data => c.request ctx "PATCH" "/api/org/preferences" [] (some (.ofData data)) resp

/-- The function `UpdateAllOrgPreferencesContext`; `π` stands for `Preferences`, `δ` for
`UpdateOrgPreferencesResponse`. -/
def UpdateAllOrgPreferencesContext {π : Type} [Inhabited δ]
    (jsonMarshal : π → Except Error JSON) (c : Client δ) (ctx : Context) (p : π) :
    δ × Option Error × Client δ :=
  let resp : δ := default
  match jsonMarshal p with
  | .error err => (resp, some err, c)
  | .ok data => c.request ctx "PUT" "/api/org/preferences" [] (some (.ofData data)) resp

/-! ## org_users.go -/

/-- The function `OrgUsersCurrentContext`; `α` stands for `OrgUser`. -/
def OrgUsersCurrentContext {α : Type} (c : Client (List α)) (ctx : Context) :
    List α × Option Error × Client (List α) :=
  let users : List α := []
  match c.request ctx "GET" "/api/org/users" [] none users with
  | (_, some err, c) => ([], some err, c)
  | (users, none, c) => (users, none, c)

/-- The function `OrgUsersContext`; `α` stands for `OrgUser`. -/
def OrgUsersContext {α : Type} (c : Client (List α)) (ctx : Context) (orgID : Int) :
    List α × Option Error × Client (List α) :=
  let users : List α := []
  c.request ctx "GET" ("/api/orgs/" ++ toString orgID ++ "/users") [] none users

/-- The function `AddOrgUserContext`; the map `dataMap` is kept as its list of entries. -/
def AddOrgUserContext (jsonMarshal : List (String × String) → Except Error JSON)
    (c : Client δ) (ctx : Context) (orgID : Int) (user role : String) :
    Option Error × Client δ :=
  let dataMap := [("loginOrEmail", user), ("role", role)]
  match jsonMarshal dataMap with
  | .error err => (some err, c)
  | .ok data =>
    c.requestNil ctx "POST" ("/api/orgs/" ++ toString orgID ++ "/users") []
      (some (.ofData data))

/-- The function `UpdateOrgUserContext`; the map `dataMap` is kept as its list of
entries. -/
def UpdateOrgUserContext (jsonMarshal : List (String × String) → Except Error JSON)
    (c : Client δ) (ctx : Context) (orgID userID : Int) (role : String) :
    Option Error × Client δ :=
  let dataMap := [("role", role)]
  match jsonMarshal dataMap with
  | .error err => (some err, c)
  | .ok data =>
    c.requestNil ctx "PATCH" ("/api/orgs/" ++ toString orgID ++ "/users/" ++ toString userID)
      [] (some (.ofData data))

/-- The function `RemoveOrgUserContext`. -/
def RemoveOrgUserContext (c : Client δ) (ctx : Context) (orgID userID : Int) :
    Option Error × Client δ :=
  c.requestNil ctx "DELETE" ("/api/orgs/" ++ toString orgID ++ "/users/" ++ toString userID)
    [] none

/-! ## orgs.go -/

/-- The struct `Org`. -/
structure Org where
  ID : Int
  Name : String
deriving DecidableEq

/-- The function `OrgsContext`. -/
def OrgsContext (c : Client (List Org)) (ctx : Context) :
    List Org × Option Error × Client (List Org) :=
  let orgs : List Org := []
  c.request ctx "GET" "/api/orgs/" [] none orgs

/-- The function `OrgByNameContext`. -/
def OrgByNameContext (c : Client Org) (ctx : Context) (name : String) :
    Org × Option Error × Client Org :=
  let org : Org := ⟨0, ""⟩
  c.request ctx "GET" ("/api/orgs/name/" ++ name) [] none org

/-- The function `OrgContext`. -/
def OrgContext (c : Client Org) (ctx : Context) (id : Int) :
    Org × Option Error × Client Org :=
  let org : Org := ⟨0, ""⟩
  c.request ctx "GET" ("/api/orgs/" ++ toString id) [] none org

/-- The function `NewOrgContext`; the map `dataMap` is kept as its list of entries. -/
def NewOrgContext (jsonMarshal : List (String × String) → Except Error JSON)
    (c : Client IDResult) (ctx : Context) (name : String) :
    Int × Option Error × Client IDResult :=
  let id : Int := 0
  let dataMap := [("name", name)]
  match jsonMarshal dataMap with
  | .error err => (id, some err, c)
  | .ok data =>
    let tmp : IDResult := ⟨0⟩
    match c.request ctx "POST" "/api/orgs" [] (some (.ofData data)) tmp with
    | (_, some err, c) => (id, some err, c)
    | (tmp, none, c) => (tmp.ID, none, c)

/-- The function `UpdateOrgContext`; the map `dataMap` is kept as its list of entries. -/
def UpdateOrgContext (jsonMarshal : List (String × String) → Except Error JSON)
    (c : Client δ) (ctx : Context) (id : Int) (name : String) : Option Error × Client δ :=
  let dataMap := [("name", name)]
  match jsonMarshal dataMap with
  | .error err => (some err, c)
  | .ok data => c.requestNil ctx "PUT" ("/api/orgs/" ++ toString id) [] (some (.ofData data))

/-- The function `DeleteOrgContext`. -/
def DeleteOrgContext (c : Client δ) (ctx : Context) (id : Int) : Option Error × Client δ :=
  c.requestNil ctx "DELETE" ("/api/orgs/" ++ toString id) [] none

/-! ## playlist.go -/

/-- The struct `PlaylistItem`; the field `Type` is written `Type_`. -/
structure PlaylistItem where
  Type_ : String
  Value : String
  Order : Int
  Title : String

/-- The struct `Playlist`. -/
structure Playlist where
  ID : Int
  UID : String
  Name : String
  Interval : String
  Items : List PlaylistItem

/-- The value `Playlist{}`. -/
def Playlist.zero : Playlist :=
  ⟨0, "", "", "", []⟩

/-- The method `QueryID` of `Playlist`. -/
def Playlist.QueryID (p : Playlist) : String :=
  if p.UID ≠ "" then p.UID else toString p.ID

/-- The function `PlaylistContext`. -/
def PlaylistContext (c : Client Playlist) (ctx : Context) (idOrUID : String) :
    Option Playlist × Option Error × Client Playlist :=
  let path := "/api/playlists/" ++ idOrUID
  let playlist := Playlist.zero
  match c.request ctx "GET" path [] none playlist with
  | (_, some err, c) => (none, some err, c)
  | (playlist, none, c) => (some playlist, none, c)

/-- The function `NewPlaylistContext`. -/
def NewPlaylistContext (jsonMarshal : Playlist → Except Error JSON) (c : Client Playlist)
    (ctx : Context) (playlist : Playlist) : String × Option Error × Client Playlist :=
  match jsonMarshal playlist with
  | .error err => ("", some err, c)
  | .ok data =>
    let result := Playlist.zero
    match c.request ctx "POST" "/api/playlists" [] (some (.ofData data)) result with
    | (_, some err, c) => ("", some err, c)
    | (result, none, c) => (result.QueryID, none, c)

/-- The function `UpdatePlaylistContext`. -/
def UpdatePlaylistContext (jsonMarshal : Playlist → Except Error JSON) (c : Client δ)
    (ctx : Context) (playlist : Playlist) : Option Error × Client δ :=
  let path := "/api/playlists/" ++ playlist.QueryID
  match jsonMarshal playlist with
  | .error err => (some err, c)
  | .ok data => c.requestNil ctx "PUT" path [] (some (.ofData data))

/-- The function `DeletePlaylistContext`. -/
def DeletePlaylistContext (c : Client δ) (ctx : Context) (idOrUID : String) :
    Option Error × Client δ :=
  let path := "/api/playlists/" ++ idOrUID
  c.requestNil ctx "DELETE" path [] none

/-! ## report.go -/

/-- The struct `ReportSchedule`; a nil `*time.Time` is `none`. -/
structure ReportSchedule where
  StartDate : Option Time
  EndDate : Option Time
  Frequency : String
  IntervalFrequency : String
  IntervalAmount : Int
  WorkdaysOnly : Bool
  TimeZone : String
  DayOfMonth : String

/-- The struct `ReportTimeRange`. -/
structure ReportTimeRange where
  From : String
  To : String

/-- The struct `ReportOptions`. -/
structure ReportOptions where
  Orientation : String
  Layout : String
  TimeRange : ReportTimeRange

/-- The struct `Report`. -/
structure Report where
  ID : Int
  UserID : Int
  OrgID : Int
  State : String
  DashboardID : Int
  DashboardUID : String
  Name : String
  Recipients : String
  ReplyTo : String
  Message : String
  Schedule : ReportSchedule
  Options : ReportOptions
  EnableDashboardURL : Bool
  EnableCSV : Bool

/-- The value `Report{}`. -/
def Report.zero : Report :=
  ⟨0, 0, 0, "", 0, "", "", "", "", "", ⟨none, none, "", "", 0, false, "", ""⟩,
    ⟨"", "", ⟨"", ""⟩⟩, false, false⟩

/-- The function `ReportContext`. -/
def ReportContext (c : Client Report) (ctx : Context) (id : Int) :
    Option Report × Option Error × Client Report :=
  let path := "/api/reports/" ++ toString id
  let report := Report.zero
  match c.request ctx "GET" path [] none report with
  | (_, some err, c) => (none, some err, c)
  | (report, none, c) => (some report, none, c)

/-- The function `NewReportContext`. -/
def NewReportContext (jsonMarshal : Report → Except Error JSON) (c : Client IDResult)
    (ctx : Context) (report : Report) : Int × Option Error × Client IDResult :=
  match jsonMarshal report with
  | .error err => (0, some err, c)
  | .ok data =>
    let result : IDResult := ⟨0⟩
    match c.request ctx "POST" "/api/reports" [] (some (.ofData data)) result with
    | (_, some err, c) => (0, some err, c)
    | (result, none, c) => (result.ID, none, c)

/-- The function `UpdateReportContext`. -/
def UpdateReportContext (jsonMarshal : Report → Except Error JSON) (c : Client δ)
    (ctx : Context) (report : Report) : Option Error × Client δ :=
  let path := "/api/reports/" ++ toString report.ID
  match jsonMarshal report with
  | .error err => (some err, c)
  | .ok data => c.requestNil ctx "PUT" path [] (some (.ofData data))

/-- The function `DeleteReportContext`. -/
def DeleteReportContext (c : Client δ) (ctx : Context) (id : Int) : Option Error × Client δ :=
  let path := "/api/reports/" ++ toString id
  c.requestNil ctx "DELETE" path [] none

/-! ## role.go -/

/-- The struct `Permission`. -/
structure Permission where
  Action : String
  Scope : String

/-- The struct `Role`. -/
structure Role where
  Version : Int
  UID : String
  Name : String
  Description : String
  Global : Bool
  Group : String
  DisplayName : String
  Hidden : Bool
  Permissions : List Permission

/-- The value `Role{}`. -/
def Role.zero : Role :=
  ⟨0, "", "", "", false, "", "", false, []⟩

/-- The function `buildURL`. -/
def buildURL (uid : String) : String :=
  let rootURL := "/api/access-control/roles"
  rootURL ++ "/" ++ uid

/-- The function `GetRoleContext`. -/
def GetRoleContext (c : Client Role) (ctx : Context) (uid : String) :
    Option Role × Option Error × Client Role :=
  let r := Role.zero
  match c.request ctx "GET" (buildURL uid) [] none r with
  | (_, some err, c) => (none, some err, c)
  | (r, none, c) => (some r, none, c)

/-- The function `NewRoleContext`. -/
def NewRoleContext (jsonMarshal : Role → Except Error JSON) (c : Client Role) (ctx : Context)
    (role : Role) : Option Role × Option Error × Client Role :=
  match jsonMarshal role with
  | .error err => (none, some err, c)
  | .ok data =>
    let r := Role.zero
    match c.request ctx "POST" "/api/access-control/roles" [] (some (.ofData data)) r with
    | (_, some err, c) => (none, some err, c)
    | (r, none, c) => (some r, none, c)

/-- The function `UpdateRoleContext`. -/
def UpdateRoleContext (jsonMarshal : Role → Except Error JSON) (c : Client δ) (ctx : Context)
    (role : Role) : Option Error × Client δ :=
  match jsonMarshal role with
  | .error err => (some err, c)
  | .ok data => c.requestNil ctx "PUT" (buildURL role.UID) [] (some (.ofData data))

/-- The function `DeleteRoleContext`. -/
def DeleteRoleContext (c : Client δ) (ctx : Context) (uid : String) (global : Bool) :
    Option Error × Client δ :=
  let qp : Values := [("global", [toString global])]
  c.requestNil ctx "DELETE" (buildURL uid) qp none

/-! ## role_assignments.go -/

/-- The struct `RoleAssignments`. -/
structure RoleAssignments where
  RoleUID : String
  Users : List Int
  Teams : List Int
  ServiceAccounts : List Int

/-- The value `RoleAssignments{}`. -/
def RoleAssignments.zero : RoleAssignments :=
  ⟨"", [], [], []⟩

/-- The function `GetRoleAssignmentsContext`. -/
def GetRoleAssignmentsContext (c : Client RoleAssignments) (ctx : Context) (uid : String) :
    Option RoleAssignments × Option Error × Client RoleAssignments :=
  let assignments := RoleAssignments.zero
  let url := "/api/access-control/roles/" ++ uid ++ "/assignments"
  match c.request ctx "GET" url [] none assignments with
  | (_, some err, c) => (none, some err, c)
  | (assignments, none, c) => (some assignments, none, c)

/-- The function `UpdateRoleAssignmentsContext`; the pointer `ra` is taken to be non-nil. -/
def UpdateRoleAssignmentsContext (jsonMarshal : RoleAssignments → Except Error JSON)
    (c : Client RoleAssignments) (ctx : Context) (ra : RoleAssignments) :
    Option RoleAssignments × Option Error × Client RoleAssignments :=
  let response := RoleAssignments.zero
  match jsonMarshal ra with
  | .error err => (none, some err, c)
  | .ok data =>
    let url := "/api/access-control/roles/" ++ ra.RoleUID ++ "/assignments"
    match c.request ctx "PUT" url [] (some (.ofData data)) response with
    | (_, some err, c) => (none, some err, c)
    | (response, none, c) => (some response, none, c)

/-! ## snapshot.go -/

/-- The function `NewSnapshotContext`; `π` stands for `Snapshot`, `δ` for
`SnapshotCreateResponse`. -/
def NewSnapshotContext {π : Type} [Inhabited δ] (jsonMarshal : π → Except Error JSON)
    (c : Client δ) (ctx : Context) (snapshot : π) : Option δ × Option Error × Client δ :=
  match jsonMarshal snapshot with
  | .error err => (none, some err, c)
  | .ok data =>
    let result : δ := default
    match c.request ctx "POST" "/api/snapshots" [] (some (.ofData data)) result with
    | (_, some err, c) => (none, some err, c)
    | (result, none, c) => (some result, none, c)

/-! ## team_external_group.go -/

/-- The function `TeamGroupsContext`; `α` stands for `TeamGroup`. -/
def TeamGroupsContext {α : Type} (c : Client (List α)) (ctx : Context) (id : Int) :
    List α × Option Error × Client (List α) :=
  let teamGroups : List α := []
  c.request ctx "GET" ("/api/teams/" ++ toString id ++ "/groups") [] none teamGroups

/-- The function `NewTeamGroupContext`; the map `dataMap` is kept as its list of entries. -/
def NewTeamGroupContext (jsonMarshal : List (String × String) → Except Error JSON)
    (c : Client δ) (ctx : Context) (id : Int) (groupID : String) : Option Error × Client δ :=
  let dataMap := [("groupId", groupID)]
  match jsonMarshal dataMap with
  | .error err => (some err, c)
  | .ok data =>
    c.requestNil ctx "POST" ("/api/teams/" ++ toString id ++ "/groups") []
      (some (.ofData data))

/-- The function `DeleteTeamGroupContext`. -/
def DeleteTeamGroupContext (c : Client δ) (ctx : Context) (id : Int) (groupID : String) :
    Option Error × Client δ :=
  c.requestNil ctx "DELETE" ("/api/teams/" ++ toString id ++ "/groups/" ++ groupID) [] none

/-! ## The operations, listed -/

/-- The exported operations of the package that take a context, other than the two
paginated ones (`DashboardsContext`, `UsersContext`), each with the arguments of one
invocation. `π` stands for the payload types and `δ` for the response types that the
operations do not look into. -/
inductive Operation (π δ : Type) where
  | CreateUserContext (jsonMarshal : User → Except Error JSON) (ctx : Context) (user : User)
  | DeleteUserContext (ctx : Context) (id : Int)
  | UpdateUserPasswordContext (jsonMarshal : List (String × String) → Except Error JSON)
      (ctx : Context) (id : Int) (password : String)
  | UpdateUserPermissionsContext (jsonMarshal : List (String × Bool) → Except Error JSON)
      (ctx : Context) (id : Int) (isAdmin : Bool)
  | PauseAllAlertsContext (jsonMarshal : PauseAlertRequest → Except Error JSON) (ctx : Context)
  | AlertRuleContext (ctx : Context) (uid : String)
  | AlertRuleGroupContext (ctx : Context) (folderUID : String) (name : String)
  | SetAlertRuleGroupContext (jsonMarshal : RuleGroup → Except Error JSON) (ctx : Context)
      (group : RuleGroup)
  | NewAlertRuleContext (jsonMarshal : AlertRule → Except Error JSON) (ctx : Context)
      (ar : AlertRule)
  | UpdateAlertRuleContext (jsonMarshal : AlertRule → Except Error JSON) (ctx : Context)
      (ar : AlertRule)
  | DeleteAlertRuleContext (ctx : Context) (uid : String)
  | MessageTemplatesContext (ctx : Context)
  | MessageTemplateContext (ctx : Context) (name : String)
  | SetMessageTemplateContext (jsonMarshal : TemplateRequest → Except Error JSON) (ctx : Context)
      (name : String) (content : String)
  | DeleteMessageTemplateContext (ctx : Context) (name : String)
  | MuteTimingsContext (ctx : Context)
  | MuteTimingContext (ctx : Context) (name : String)
  | NewMuteTimingContext (jsonMarshal : MuteTiming → Except Error JSON) (ctx : Context)
      (mt : MuteTiming)
  | UpdateMuteTimingContext (jsonMarshal : MuteTiming → Except Error JSON) (ctx : Context)
      (mt : MuteTiming)
  | DeleteMuteTimingContext (ctx : Context) (name : String)
  | AlertNotificationsContext (ctx : Context)
  | AlertNotificationContext (ctx : Context) (id : Int)
  | NewAlertNotificationContext (jsonMarshal : AlertNotification → Except Error JSON)
      (ctx : Context) (a : AlertNotification)
  | UpdateAlertNotificationContext (jsonMarshal : AlertNotification → Except Error JSON)
      (ctx : Context) (a : AlertNotification)
  | DeleteAlertNotificationContext (ctx : Context) (id : Int)
  | AnnotationsContext (ctx : Context) (params : Values)
  | NewAnnotationContext (jsonMarshal : π → Except Error JSON) (ctx : Context) (a : π)
  | NewGraphiteAnnotationContext (jsonMarshal : π → Except Error JSON) (ctx : Context) (gfa : π)
  | UpdateAnnotationContext (jsonMarshal : π → Except Error JSON) (ctx : Context) (id : Int)
      (a : π)
  | PatchAnnotationContext (jsonMarshal : π → Except Error JSON) (ctx : Context) (id : Int)
      (a : π)
  | DeleteAnnotationContext (ctx : Context) (id : Int)
  | DeleteAnnotationByRegionIDContext (ctx : Context) (id : Int)
  | CreateAPIKeyContext (jsonMarshal : π → Except Error JSON) (ctx : Context) (request : π)
  | GetAPIKeysContext (ctx : Context) (includeExpired : Bool)
  | DeleteAPIKeyContext (ctx : Context) (id : Int)
  | GetBuiltInRoleAssignmentsContext (ctx : Context)
  | NewBuiltInRoleAssignmentContext (jsonMarshal : BuiltInRoleAssignment → Except Error JSON)
      (ctx : Context) (builtInRoleAssignment : BuiltInRoleAssignment)
  | DeleteBuiltInRoleAssignmentContext (jsonMarshal : BuiltInRoleAssignment → Except Error JSON)
      (ctx : Context) (builtInRole : BuiltInRoleAssignment)
  | CreateCloudAPIKeyContext (jsonMarshal : π → Except Error JSON) (ctx : Context) (org : String)
      (input : π)
  | ListCloudAPIKeysContext (ctx : Context) (org : String)
  | DeleteCloudAPIKeyContext (ctx : Context) (org : String) (keyName : String)
  | InstallCloudPluginContext (jsonMarshal : InstallPluginRequest → Except Error JSON)
      (ctx : Context) (stackSlug : String) (pluginSlug : String) (pluginVersion : String)
  | UninstallCloudPluginContext (ctx : Context) (stackSlug : String) (pluginSlug : String)
  | IsCloudPluginInstalledContext (ctx : Context) (stackSlug : String) (pluginSlug : String)
  | GetCloudPluginInstallationContext (ctx : Context) (stackSlug : String) (pluginSlug : String)
  | PluginBySlugContext (ctx : Context) (slug : String)
  | PluginByIDContext (ctx : Context) (pluginID : Int)
  | SaveDashboardContext (jsonMarshal : SaveDashboardWrapper π → Except Error JSON)
      (ctx : Context) (model : π) (overwrite : Bool)
  | NewDashboardContext (jsonMarshal : Dashboard → Except Error JSON) (ctx : Context)
      (dashboard : Dashboard)
  | DashboardContext (ctx : Context) (slug : String)
  | DashboardByUIDContext (ctx : Context) (uid : String)
  | DashboardsByIDsContext (jsonMarshal : List Int → Except Error String) (ctx : Context)
      (ids : List Int)
  | DeleteDashboardContext (ctx : Context) (slug : String)
  | DeleteDashboardByUIDContext (ctx : Context) (uid : String)
  | EnableDatasourcePermissionsContext (ctx : Context) (id : Int)
  | DisableDatasourcePermissionsContext (ctx : Context) (id : Int)
  | DatasourcePermissionsContext (ctx : Context) (id : Int)
  | AddDatasourcePermissionContext (jsonMarshal : π → Except Error JSON) (ctx : Context)
      (id : Int) (item : π)
  | RemoveDatasourcePermissionContext (ctx : Context) (id : Int) (permissionID : Int)
  | FoldersContext (ctx : Context)
  | FolderContext (ctx : Context) (id : Int)
  | FolderByUIDContext (ctx : Context) (uid : String)
  | NewFolderContext (jsonMarshal : FolderPayload → Except Error JSON) (ctx : Context)
      (title : String) (uid : List String)
  | UpdateFolderContext (jsonMarshal : FolderPayload → Except Error JSON) (ctx : Context)
      (uid : String) (title : String) (newUID : List String)
  | DeleteFolderContext (ctx : Context) (id : String)
  | FolderDashboardSearchContext (ctx : Context) (params : Values)
  | HealthContext (ctx : Context)
  | OrgPreferencesContext (ctx : Context)
  | UpdateOrgPreferencesContext (jsonMarshal : π → Except Error JSON) (ctx : Context) (p : π)
  | UpdateAllOrgPreferencesContext (jsonMarshal : π → Except Error JSON) (ctx : Context) (p : π)
  | OrgUsersCurrentContext (ctx : Context)
  | OrgUsersContext (ctx : Context) (orgID : Int)
  | AddOrgUserContext (jsonMarshal : List (String × String) → Except Error JSON) (ctx : Context)
      (orgID : Int) (user : String) (role : String)
  | UpdateOrgUserContext (jsonMarshal : List (String × String) → Except Error JSON)
      (ctx : Context) (orgID : Int) (userID : Int) (role : String)
  | RemoveOrgUserContext (ctx : Context) (orgID : Int) (userID : Int)
  | OrgsContext (ctx : Context)
  | OrgByNameContext (ctx : Context) (name : String)
  | OrgContext (ctx : Context) (id : Int)
  | NewOrgContext (jsonMarshal : List (String × String) → Except Error JSON) (ctx : Context)
      (name : String)
  | UpdateOrgContext (jsonMarshal : List (String × String) → Except Error JSON) (ctx : Context)
      (id : Int) (name : String)
  | DeleteOrgContext (ctx : Context) (id : Int)
  | PlaylistContext (ctx : Context) (idOrUID : String)
  | NewPlaylistContext (jsonMarshal : Playlist → Except Error JSON) (ctx : Context)
      (playlist : Playlist)
  | UpdatePlaylistContext (jsonMarshal : Playlist → Except Error JSON) (ctx : Context)
      (playlist : Playlist)
  | DeletePlaylistContext (ctx : Context) (idOrUID : String)
  | ReportContext (ctx : Context) (id : Int)
  | NewReportContext (jsonMarshal : Report → Except Error JSON) (ctx : Context) (report : Report)
  | UpdateReportContext (jsonMarshal : Report → Except Error JSON) (ctx : Context)
      (report : Report)
  | DeleteReportContext (ctx : Context) (id : Int)
  | GetRoleContext (ctx : Context) (uid : String)
  | NewRoleContext (jsonMarshal : Role → Except Error JSON) (ctx : Context) (role : Role)
  | UpdateRoleContext (jsonMarshal : Role → Except Error JSON) (ctx : Context) (role : Role)
  | DeleteRoleContext (ctx : Context) (uid : String) (global : Bool)
  | GetRoleAssignmentsContext (ctx : Context) (uid : String)
  | UpdateRoleAssignmentsContext (jsonMarshal : RoleAssignments → Except Error JSON)
      (ctx : Context) (ra : RoleAssignments)
  | NewSnapshotContext (jsonMarshal : π → Except Error JSON) (ctx : Context) (snapshot : π)
  | TeamGroupsContext (ctx : Context) (id : Int)
  | NewTeamGroupContext (jsonMarshal : List (String × String) → Except Error JSON) (ctx : Context)
      (id : Int) (groupID : String)
  | DeleteTeamGroupContext (ctx : Context) (id : Int) (groupID : String)
  | UserContext (ctx : Context) (id : Int)
  | UserByEmailContext (ctx : Context) (email : String)
  | UserUpdateContext (jsonMarshal : User → Except Error JSON) (ctx : Context) (u : User)

/-- The type of the destination that the operation hands to `c.request`; for an operation
that hands over none, any type will do. -/
def Operation.Dest {π δ : Type} : Operation π δ → Type
  | .CreateUserContext _ _ _ => IDResult
  | .DeleteUserContext _ _ => δ
  | .UpdateUserPasswordContext _ _ _ _ => δ
  | .UpdateUserPermissionsContext _ _ _ _ => δ
  | .PauseAllAlertsContext _ _ => δ
  | .AlertRuleContext _ _ => AlertRule
  | .AlertRuleGroupContext _ _ _ => RuleGroup
  | .SetAlertRuleGroupContext _ _ _ => δ
  | .NewAlertRuleContext _ _ _ => AlertRule
  | .UpdateAlertRuleContext _ _ _ => δ
  | .DeleteAlertRuleContext _ _ => δ
  | .MessageTemplatesContext _ => List δ
  | .MessageTemplateContext _ _ => δ
  | .SetMessageTemplateContext _ _ _ _ => δ
  | .DeleteMessageTemplateContext _ _ => δ
  | .MuteTimingsContext _ => List MuteTiming
  | .MuteTimingContext _ _ => MuteTiming
  | .NewMuteTimingContext _ _ _ => δ
  | .UpdateMuteTimingContext _ _ _ => δ
  | .DeleteMuteTimingContext _ _ => δ
  | .AlertNotificationsContext _ => List AlertNotification
  | .AlertNotificationContext _ _ => AlertNotification
  | .NewAlertNotificationContext _ _ _ => IDResult
  | .UpdateAlertNotificationContext _ _ _ => δ
  | .DeleteAlertNotificationContext _ _ => δ
  | .AnnotationsContext _ _ => List δ
  | .NewAnnotationContext _ _ _ => IDResult
  | .NewGraphiteAnnotationContext _ _ _ => IDResult
  | .UpdateAnnotationContext _ _ _ _ => MessageResult
  | .PatchAnnotationContext _ _ _ _ => MessageResult
  | .DeleteAnnotationContext _ _ => MessageResult
  | .DeleteAnnotationByRegionIDContext _ _ => MessageResult
  | .CreateAPIKeyContext _ _ _ => δ
  | .GetAPIKeysContext _ _ => List δ
  | .DeleteAPIKeyContext _ _ => δ
  | .GetBuiltInRoleAssignmentsContext _ => List δ
  | .NewBuiltInRoleAssignmentContext _ _ _ => BuiltInRoleAssignment
  | .DeleteBuiltInRoleAssignmentContext _ _ _ => δ
  | .CreateCloudAPIKeyContext _ _ _ _ => δ
  | .ListCloudAPIKeysContext _ _ => δ
  | .DeleteCloudAPIKeyContext _ _ _ => δ
  | .InstallCloudPluginContext _ _ _ _ _ => δ
  | .UninstallCloudPluginContext _ _ _ => δ
  | .IsCloudPluginInstalledContext _ _ _ => δ
  | .GetCloudPluginInstallationContext _ _ _ => δ
  | .PluginBySlugContext _ _ => Plugin
  | .PluginByIDContext _ _ => Plugin
  | .SaveDashboardContext _ _ _ _ => δ
  | .NewDashboardContext _ _ _ => δ
  | .DashboardContext _ _ => Option Dashboard
  | .DashboardByUIDContext _ _ => Option Dashboard
  | .DashboardsByIDsContext _ _ _ => List δ
  | .DeleteDashboardContext _ _ => δ
  | .DeleteDashboardByUIDContext _ _ => δ
  | .EnableDatasourcePermissionsContext _ _ => δ
  | .DisableDatasourcePermissionsContext _ _ => δ
  | .DatasourcePermissionsContext _ _ => Option δ
  | .AddDatasourcePermissionContext _ _ _ _ => δ
  | .RemoveDatasourcePermissionContext _ _ _ => δ
  | .FoldersContext _ => List Folder
  | .FolderContext _ _ => Folder
  | .FolderByUIDContext _ _ => Folder
  | .NewFolderContext _ _ _ _ => Folder
  | .UpdateFolderContext _ _ _ _ _ => δ
  | .DeleteFolderContext _ _ => δ
  | .FolderDashboardSearchContext _ _ => List δ
  | .HealthContext _ => HealthResponse
  | .OrgPreferencesContext _ => δ
  | .UpdateOrgPreferencesContext _ _ _ => δ
  | .UpdateAllOrgPreferencesContext _ _ _ => δ
  | .OrgUsersCurrentContext _ => List δ
  | .OrgUsersContext _ _ => List δ
  | .AddOrgUserContext _ _ _ _ _ => δ
  | .UpdateOrgUserContext _ _ _ _ _ => δ
  | .RemoveOrgUserContext _ _ _ => δ
  | .OrgsContext _ => List Org
  | .OrgByNameContext _ _ => Org
  | .OrgContext _ _ => Org
  | .NewOrgContext _ _ _ => IDResult
  | .UpdateOrgContext _ _ _ _ => δ
  | .DeleteOrgContext _ _ => δ
  | .PlaylistContext _ _ => Playlist
  | .NewPlaylistContext _ _ _ => Playlist
  | .UpdatePlaylistContext _ _ _ => δ
  | .DeletePlaylistContext _ _ => δ
  | .ReportContext _ _ => Report
  | .NewReportContext _ _ _ => IDResult
  | .UpdateReportContext _ _ _ => δ
  | .DeleteReportContext _ _ => δ
  | .GetRoleContext _ _ => Role
  | .NewRoleContext _ _ _ => Role
  | .UpdateRoleContext _ _ _ => δ
  | .DeleteRoleContext _ _ _ => δ
  | .GetRoleAssignmentsContext _ _ => RoleAssignments
  | .UpdateRoleAssignmentsContext _ _ _ => RoleAssignments
  | .NewSnapshotContext _ _ _ => δ
  | .TeamGroupsContext _ _ => List δ
  | .NewTeamGroupContext _ _ _ _ => δ
  | .DeleteTeamGroupContext _ _ _ => δ
  | .UserContext _ _ => User
  | .UserByEmailContext _ _ => User
  | .UserUpdateContext _ _ _ => δ

/-- One invocation of the operation: the error returned and the client afterwards. -/
def Operation.run {π δ : Type} [Inhabited δ] :
    (op : Operation π δ) → Client op.Dest → Option Error × Client op.Dest
  | .CreateUserContext jsonMarshal ctx user, c =>
    let r := Gapi.CreateUserContext jsonMarshal c ctx user
    (r.2.1, r.2.2)
  | .DeleteUserContext ctx id, c =>
    Gapi.DeleteUserContext c ctx id
  | .UpdateUserPasswordContext jsonMarshal ctx id password, c =>
    Gapi.UpdateUserPasswordContext jsonMarshal c ctx id password
  | .UpdateUserPermissionsContext jsonMarshal ctx id isAdmin, c =>
    Gapi.UpdateUserPermissionsContext jsonMarshal c ctx id isAdmin
  | .PauseAllAlertsContext jsonMarshal ctx, c =>
    let r := Gapi.PauseAllAlertsContext (δ := δ) jsonMarshal c ctx
    (r.2.1, r.2.2)
  | .AlertRuleContext ctx uid, c =>
    let r := Gapi.AlertRuleContext c ctx uid
    (r.2.1, r.2.2)
  | .AlertRuleGroupContext ctx folderUID name, c =>
    let r := Gapi.AlertRuleGroupContext c ctx folderUID name
    (r.2.1, r.2.2)
  | .SetAlertRuleGroupContext jsonMarshal ctx group, c =>
    Gapi.SetAlertRuleGroupContext jsonMarshal c ctx group
  | .NewAlertRuleContext jsonMarshal ctx ar, c =>
    let r := Gapi.NewAlertRuleContext jsonMarshal c ctx ar
    (r.2.1, r.2.2)
  | .UpdateAlertRuleContext jsonMarshal ctx ar, c =>
    Gapi.UpdateAlertRuleContext jsonMarshal c ctx ar
  | .DeleteAlertRuleContext ctx uid, c =>
    Gapi.DeleteAlertRuleContext c ctx uid
  | .MessageTemplatesContext ctx, c =>
    let r := Gapi.MessageTemplatesContext c ctx
    (r.2.1, r.2.2)
  | .MessageTemplateContext ctx name, c =>
    let r := Gapi.MessageTemplateContext (δ := δ) c ctx name
    (r.2.1, r.2.2)
  | .SetMessageTemplateContext jsonMarshal ctx name content, c =>
    Gapi.SetMessageTemplateContext jsonMarshal c ctx name content
  | .DeleteMessageTemplateContext ctx name, c =>
    Gapi.DeleteMessageTemplateContext c ctx name
  | .MuteTimingsContext ctx, c =>
    let r := Gapi.MuteTimingsContext c ctx
    (r.2.1, r.2.2)
  | .MuteTimingContext ctx name, c =>
    let r := Gapi.MuteTimingContext c ctx name
    (r.2.1, r.2.2)
  | .NewMuteTimingContext jsonMarshal ctx mt, c =>
    Gapi.NewMuteTimingContext jsonMarshal c ctx mt
  | .UpdateMuteTimingContext jsonMarshal ctx mt, c =>
    Gapi.UpdateMuteTimingContext jsonMarshal c ctx mt
  | .DeleteMuteTimingContext ctx name, c =>
    Gapi.DeleteMuteTimingContext c ctx name
  | .AlertNotificationsContext ctx, c =>
    let r := Gapi.AlertNotificationsContext c ctx
    (r.2.1, r.2.2)
  | .AlertNotificationContext ctx id, c =>
    let r := Gapi.AlertNotificationContext c ctx id
    (r.2.1, r.2.2)
  | .NewAlertNotificationContext jsonMarshal ctx a, c =>
    let r := Gapi.NewAlertNotificationContext jsonMarshal c ctx a
    (r.2.1, r.2.2)
  | .UpdateAlertNotificationContext jsonMarshal ctx a, c =>
    Gapi.UpdateAlertNotificationContext jsonMarshal c ctx a
  | .DeleteAlertNotificationContext ctx id, c =>
    Gapi.DeleteAlertNotificationContext c ctx id
  | .AnnotationsContext ctx params, c =>
    let r := Gapi.AnnotationsContext c ctx params
    (r.2.1, r.2.2)
  | .NewAnnotationContext jsonMarshal ctx a, c =>
    let r := Gapi.NewAnnotationContext jsonMarshal c ctx a
    (r.2.1, r.2.2)
  | .NewGraphiteAnnotationContext jsonMarshal ctx gfa, c =>
    let r := Gapi.NewGraphiteAnnotationContext jsonMarshal c ctx gfa
    (r.2.1, r.2.2)
  | .UpdateAnnotationContext jsonMarshal ctx id a, c =>
    let r := Gapi.UpdateAnnotationContext jsonMarshal c ctx id a
    (r.2.1, r.2.2)
  | .PatchAnnotationContext jsonMarshal ctx id a, c =>
    let r := Gapi.PatchAnnotationContext jsonMarshal c ctx id a
    (r.2.1, r.2.2)
  | .DeleteAnnotationContext ctx id, c =>
    let r := Gapi.DeleteAnnotationContext c ctx id
    (r.2.1, r.2.2)
  | .DeleteAnnotationByRegionIDContext ctx id, c =>
    let r := Gapi.DeleteAnnotationByRegionIDContext c ctx id
    (r.2.1, r.2.2)
  | .CreateAPIKeyContext jsonMarshal ctx request, c =>
    let r := Gapi.CreateAPIKeyContext (δ := δ) jsonMarshal c ctx request
    (r.2.1, r.2.2)
  | .GetAPIKeysContext ctx includeExpired, c =>
    let r := Gapi.GetAPIKeysContext c ctx includeExpired
    (r.2.1, r.2.2)
  | .DeleteAPIKeyContext ctx id, c =>
    let r := Gapi.DeleteAPIKeyContext (δ := δ) c ctx id
    (r.2.1, r.2.2)
  | .GetBuiltInRoleAssignmentsContext ctx, c =>
    let r := Gapi.GetBuiltInRoleAssignmentsContext c ctx
    (r.2.1, r.2.2)
  | .NewBuiltInRoleAssignmentContext jsonMarshal ctx builtInRoleAssignment, c =>
    let r := Gapi.NewBuiltInRoleAssignmentContext jsonMarshal c ctx builtInRoleAssignment
    (r.2.1, r.2.2)
  | .DeleteBuiltInRoleAssignmentContext jsonMarshal ctx builtInRole, c =>
    Gapi.DeleteBuiltInRoleAssignmentContext jsonMarshal c ctx builtInRole
  | .CreateCloudAPIKeyContext jsonMarshal ctx org input, c =>
    let r := Gapi.CreateCloudAPIKeyContext (δ := δ) jsonMarshal c ctx org input
    (r.2.1, r.2.2)
  | .ListCloudAPIKeysContext ctx org, c =>
    let r := Gapi.ListCloudAPIKeysContext (δ := δ) c ctx org
    (r.2.1, r.2.2)
  | .DeleteCloudAPIKeyContext ctx org keyName, c =>
    Gapi.DeleteCloudAPIKeyContext c ctx org keyName
  | .InstallCloudPluginContext jsonMarshal ctx stackSlug pluginSlug pluginVersion, c =>
    let r := Gapi.InstallCloudPluginContext (δ := δ) jsonMarshal c ctx stackSlug pluginSlug pluginVersion
    (r.2.1, r.2.2)
  | .UninstallCloudPluginContext ctx stackSlug pluginSlug, c =>
    Gapi.UninstallCloudPluginContext c ctx stackSlug pluginSlug
  | .IsCloudPluginInstalledContext ctx stackSlug pluginSlug, c =>
    let r := Gapi.IsCloudPluginInstalledContext (δ := δ) c ctx stackSlug pluginSlug
    (r.2.1, r.2.2)
  | .GetCloudPluginInstallationContext ctx stackSlug pluginSlug, c =>
    let r := Gapi.GetCloudPluginInstallationContext (δ := δ) c ctx stackSlug pluginSlug
    (r.2.1, r.2.2)
  | .PluginBySlugContext ctx slug, c =>
    let r := Gapi.PluginBySlugContext c ctx slug
    (r.2.1, r.2.2)
  | .PluginByIDContext ctx pluginID, c =>
    let r := Gapi.PluginByIDContext c ctx pluginID
    (r.2.1, r.2.2)
  | .SaveDashboardContext jsonMarshal ctx model overwrite, c =>
    let r := Gapi.SaveDashboardContext (δ := δ) jsonMarshal c ctx model overwrite
    (r.2.1, r.2.2)
  | .NewDashboardContext jsonMarshal ctx dashboard, c =>
    let r := Gapi.NewDashboardContext (δ := δ) jsonMarshal c ctx dashboard
    (r.2.1, r.2.2)
  | .DashboardContext ctx slug, c =>
    let r := Gapi.DashboardContext c ctx slug
    (r.2.1, r.2.2)
  | .DashboardByUIDContext ctx uid, c =>
    let r := Gapi.DashboardByUIDContext c ctx uid
    (r.2.1, r.2.2)
  | .DashboardsByIDsContext jsonMarshal ctx ids, c =>
    let r := Gapi.DashboardsByIDsContext jsonMarshal c ctx ids
    (r.2.1, r.2.2)
  | .DeleteDashboardContext ctx slug, c =>
    Gapi.DeleteDashboardContext c ctx slug
  | .DeleteDashboardByUIDContext ctx uid, c =>
    Gapi.DeleteDashboardByUIDContext c ctx uid
  | .EnableDatasourcePermissionsContext ctx id, c =>
    Gapi.EnableDatasourcePermissionsContext c ctx id
  | .DisableDatasourcePermissionsContext ctx id, c =>
    Gapi.DisableDatasourcePermissionsContext c ctx id
  | .DatasourcePermissionsContext ctx id, c =>
    let r := Gapi.DatasourcePermissionsContext c ctx id
    (r.2.1, r.2.2)
  | .AddDatasourcePermissionContext jsonMarshal ctx id item, c =>
    Gapi.AddDatasourcePermissionContext jsonMarshal c ctx id item
  | .RemoveDatasourcePermissionContext ctx id permissionID, c =>
    Gapi.RemoveDatasourcePermissionContext c ctx id permissionID
  | .FoldersContext ctx, c =>
    let r := Gapi.FoldersContext c ctx
    (r.2.1, r.2.2)
  | .FolderContext ctx id, c =>
    let r := Gapi.FolderContext c ctx id
    (r.2.1, r.2.2)
  | .FolderByUIDContext ctx uid, c =>
    let r := Gapi.FolderByUIDContext c ctx uid
    (r.2.1, r.2.2)
  | .NewFolderContext jsonMarshal ctx title uid, c =>
    let r := Gapi.NewFolderContext jsonMarshal c ctx title uid
    (r.2.1, r.2.2)
  | .UpdateFolderContext jsonMarshal ctx uid title newUID, c =>
    Gapi.UpdateFolderContext jsonMarshal c ctx uid title newUID
  | .DeleteFolderContext ctx id, c =>
    Gapi.DeleteFolderContext c ctx id
  | .FolderDashboardSearchContext ctx params, c =>
    let r := Gapi.FolderDashboardSearchContext c ctx params
    (r.2.1, r.2.2)
  | .HealthContext ctx, c =>
    let r := Gapi.HealthContext c ctx
    (r.2.1, r.2.2)
  | .OrgPreferencesContext ctx, c =>
    let r := Gapi.OrgPreferencesContext (δ := δ) c ctx
    (r.2.1, r.2.2)
  | .UpdateOrgPreferencesContext jsonMarshal ctx p, c =>
    let r := Gapi.UpdateOrgPreferencesContext (δ := δ) jsonMarshal c ctx p
    (r.2.1, r.2.2)
  | .UpdateAllOrgPreferencesContext jsonMarshal ctx p, c =>
    let r := Gapi.UpdateAllOrgPreferencesContext (δ := δ) jsonMarshal c ctx p
    (r.2.1, r.2.2)
  | .OrgUsersCurrentContext ctx, c =>
    let r := Gapi.OrgUsersCurrentContext c ctx
    (r.2.1, r.2.2)
  | .OrgUsersContext ctx orgID, c =>
    let r := Gapi.OrgUsersContext c ctx orgID
    (r.2.1, r.2.2)
  | .AddOrgUserContext jsonMarshal ctx orgID user role, c =>
    Gapi.AddOrgUserContext jsonMarshal c ctx orgID user role
  | .UpdateOrgUserContext jsonMarshal ctx orgID userID role, c =>
    Gapi.UpdateOrgUserContext jsonMarshal c ctx orgID userID role
  | .RemoveOrgUserContext ctx orgID userID, c =>
    Gapi.RemoveOrgUserContext c ctx orgID userID
  | .OrgsContext ctx, c =>
    let r := Gapi.OrgsContext c ctx
    (r.2.1, r.2.2)
  | .OrgByNameContext ctx name, c =>
    let r := Gapi.OrgByNameContext c ctx name
    (r.2.1, r.2.2)
  | .OrgContext ctx id, c =>
    let r := Gapi.OrgContext c ctx id
    (r.2.1, r.2.2)
  | .NewOrgContext jsonMarshal ctx name, c =>
    let r := Gapi.NewOrgContext jsonMarshal c ctx name
    (r.2.1, r.2.2)
  | .UpdateOrgContext jsonMarshal ctx id name, c =>
    Gapi.UpdateOrgContext jsonMarshal c ctx id name
  | .DeleteOrgContext ctx id, c =>
    Gapi.DeleteOrgContext c ctx id
  | .PlaylistContext ctx idOrUID, c =>
    let r := Gapi.PlaylistContext c ctx idOrUID
    (r.2.1, r.2.2)
  | .NewPlaylistContext jsonMarshal ctx playlist, c =>
    let r := Gapi.NewPlaylistContext jsonMarshal c ctx playlist
    (r.2.1, r.2.2)
  | .UpdatePlaylistContext jsonMarshal ctx playlist, c =>
    Gapi.UpdatePlaylistContext jsonMarshal c ctx playlist
  | .DeletePlaylistContext ctx idOrUID, c =>
    Gapi.DeletePlaylistContext c ctx idOrUID
  | .ReportContext ctx id, c =>
    let r := Gapi.ReportContext c ctx id
    (r.2.1, r.2.2)
  | .NewReportContext jsonMarshal ctx report, c =>
    let r := Gapi.NewReportContext jsonMarshal c ctx report
    (r.2.1, r.2.2)
  | .UpdateReportContext jsonMarshal ctx report, c =>
    Gapi.UpdateReportContext jsonMarshal c ctx report
  | .DeleteReportContext ctx id, c =>
    Gapi.DeleteReportContext c ctx id
  | .GetRoleContext ctx uid, c =>
    let r := Gapi.GetRoleContext c ctx uid
    (r.2.1, r.2.2)
  | .NewRoleContext jsonMarshal ctx role, c =>
    let r := Gapi.NewRoleContext jsonMarshal c ctx role
    (r.2.1, r.2.2)
  | .UpdateRoleContext jsonMarshal ctx role, c =>
    Gapi.UpdateRoleContext jsonMarshal c ctx role
  | .DeleteRoleContext ctx uid global, c =>
    Gapi.DeleteRoleContext c ctx uid global
  | .GetRoleAssignmentsContext ctx uid, c =>
    let r := Gapi.GetRoleAssignmentsContext c ctx uid
    (r.2.1, r.2.2)
  | .UpdateRoleAssignmentsContext jsonMarshal ctx ra, c =>
    let r := Gapi.UpdateRoleAssignmentsContext jsonMarshal c ctx ra
    (r.2.1, r.2.2)
  | .NewSnapshotContext jsonMarshal ctx snapshot, c =>
    let r := Gapi.NewSnapshotContext (δ := δ) jsonMarshal c ctx snapshot
    (r.2.1, r.2.2)
  | .TeamGroupsContext ctx id, c =>
    let r := Gapi.TeamGroupsContext c ctx id
    (r.2.1, r.2.2)
  | .NewTeamGroupContext jsonMarshal ctx id groupID, c =>
    Gapi.NewTeamGroupContext jsonMarshal c ctx id groupID
  | .DeleteTeamGroupContext ctx id groupID, c =>
    Gapi.DeleteTeamGroupContext c ctx id groupID
  | .UserContext ctx id, c =>
    let r := Gapi.UserContext c ctx id
    (r.2.1, r.2.2)
  | .UserByEmailContext ctx email, c =>
    let r := Gapi.UserByEmailContext c ctx email
    (r.2.1, r.2.2)
  | .UserUpdateContext jsonMarshal ctx u, c =>
    Gapi.UserUpdateContext jsonMarshal c ctx u

/-- What `json.Marshal` returns for the payload of the invocation: `none` for an operation
that marshals nothing, otherwise success or the error. -/
def Operation.marshalResult {π δ : Type} : Operation π δ → Option (Except Error Unit)
  | .CreateUserContext jsonMarshal _ user =>
    some ((jsonMarshal user).map fun _ => ())
  | .DeleteUserContext _ _ => none
  | .UpdateUserPasswordContext jsonMarshal _ _ password =>
    some ((jsonMarshal ([("password", password)])).map fun _ => ())
  | .UpdateUserPermissionsContext jsonMarshal _ _ isAdmin =>
    some ((jsonMarshal ([("isGrafanaAdmin", isAdmin)])).map fun _ => ())
  | .PauseAllAlertsContext jsonMarshal _ =>
    some ((jsonMarshal ({ Paused := true })).map fun _ => ())
  | .AlertRuleContext _ _ => none
  | .AlertRuleGroupContext _ _ _ => none
  | .SetAlertRuleGroupContext jsonMarshal _ group =>
    some ((jsonMarshal (syncCalculatedRuleGroupFields group)).map fun _ => ())
  | .NewAlertRuleContext jsonMarshal _ ar =>
    some ((jsonMarshal (syncCalculatedRuleFields ar)).map fun _ => ())
  | .UpdateAlertRuleContext jsonMarshal _ ar =>
    some ((jsonMarshal (syncCalculatedRuleFields ar)).map fun _ => ())
  | .DeleteAlertRuleContext _ _ => none
  | .MessageTemplatesContext _ => none
  | .MessageTemplateContext _ _ => none
  | .SetMessageTemplateContext jsonMarshal _ _ content =>
    some ((jsonMarshal ({ Template := content })).map fun _ => ())
  | .DeleteMessageTemplateContext _ _ => none
  | .MuteTimingsContext _ => none
  | .MuteTimingContext _ _ => none
  | .NewMuteTimingContext jsonMarshal _ mt =>
    some ((jsonMarshal mt).map fun _ => ())
  | .UpdateMuteTimingContext jsonMarshal _ mt =>
    some ((jsonMarshal mt).map fun _ => ())
  | .DeleteMuteTimingContext _ _ => none
  | .AlertNotificationsContext _ => none
  | .AlertNotificationContext _ _ => none
  | .NewAlertNotificationContext jsonMarshal _ a =>
    some ((jsonMarshal a).map fun _ => ())
  | .UpdateAlertNotificationContext jsonMarshal _ a =>
    some ((jsonMarshal a).map fun _ => ())
  | .DeleteAlertNotificationContext _ _ => none
  | .AnnotationsContext _ _ => none
  | .NewAnnotationContext jsonMarshal _ a =>
    some ((jsonMarshal a).map fun _ => ())
  | .NewGraphiteAnnotationContext jsonMarshal _ gfa =>
    some ((jsonMarshal gfa).map fun _ => ())
  | .UpdateAnnotationContext jsonMarshal _ _ a =>
    some ((jsonMarshal a).map fun _ => ())
  | .PatchAnnotationContext jsonMarshal _ _ a =>
    some ((jsonMarshal a).map fun _ => ())
  | .DeleteAnnotationContext _ _ => none
  | .DeleteAnnotationByRegionIDContext _ _ => none
  | .CreateAPIKeyContext jsonMarshal _ request =>
    some ((jsonMarshal request).map fun _ => ())
  | .GetAPIKeysContext _ _ => none
  | .DeleteAPIKeyContext _ _ => none
  | .GetBuiltInRoleAssignmentsContext _ => none
  | .NewBuiltInRoleAssignmentContext jsonMarshal _ builtInRoleAssignment =>
    some ((jsonMarshal builtInRoleAssignment).map fun _ => ())
  | .DeleteBuiltInRoleAssignmentContext jsonMarshal _ builtInRole =>
    some ((jsonMarshal builtInRole).map fun _ => ())
  | .CreateCloudAPIKeyContext jsonMarshal _ _ input =>
    some ((jsonMarshal input).map fun _ => ())
  | .ListCloudAPIKeysContext _ _ => none
  | .DeleteCloudAPIKeyContext _ _ _ => none
  | .InstallCloudPluginContext jsonMarshal _ _ pluginSlug pluginVersion =>
    some ((jsonMarshal ({ Plugin := pluginSlug, Version := pluginVersion })).map fun _ => ())
  | .UninstallCloudPluginContext _ _ _ => none
  | .IsCloudPluginInstalledContext _ _ _ => none
  | .GetCloudPluginInstallationContext _ _ _ => none
  | .PluginBySlugContext _ _ => none
  | .PluginByIDContext _ _ => none
  | .SaveDashboardContext jsonMarshal _ model overwrite =>
    some ((jsonMarshal ({ dashboard := model, overwrite := overwrite })).map fun _ => ())
  | .NewDashboardContext jsonMarshal _ dashboard =>
    some ((jsonMarshal dashboard).map fun _ => ())
  | .DashboardContext _ _ => none
  | .DashboardByUIDContext _ _ => none
  | .DashboardsByIDsContext jsonMarshal _ ids =>
    some ((jsonMarshal ids).map fun _ => ())
  | .DeleteDashboardContext _ _ => none
  | .DeleteDashboardByUIDContext _ _ => none
  | .EnableDatasourcePermissionsContext _ _ => none
  | .DisableDatasourcePermissionsContext _ _ => none
  | .DatasourcePermissionsContext _ _ => none
  | .AddDatasourcePermissionContext jsonMarshal _ _ item =>
    some ((jsonMarshal item).map fun _ => ())
  | .RemoveDatasourcePermissionContext _ _ _ => none
  | .FoldersContext _ => none
  | .FolderContext _ _ => none
  | .FolderByUIDContext _ _ => none
  | .NewFolderContext jsonMarshal _ title uid =>
    some ((jsonMarshal
      (if uid.length = 1 then { Title := title, UID := uid.getD 0 "", Overwrite := false }
      else { Title := title, UID := "", Overwrite := false })).map fun _ => ())
  | .UpdateFolderContext jsonMarshal _ _ title newUID =>
    some ((jsonMarshal
      (if newUID.length = 1 then { Title := title, UID := newUID.getD 0 "", Overwrite := true }
      else { Title := title, UID := "", Overwrite := true })).map fun _ => ())
  | .DeleteFolderContext _ _ => none
  | .FolderDashboardSearchContext _ _ => none
  | .HealthContext _ => none
  | .OrgPreferencesContext _ => none
  | .UpdateOrgPreferencesContext jsonMarshal _ p =>
    some ((jsonMarshal p).map fun _ => ())
  | .UpdateAllOrgPreferencesContext jsonMarshal _ p =>
    some ((jsonMarshal p).map fun _ => ())
  | .OrgUsersCurrentContext _ => none
  | .OrgUsersContext _ _ => none
  | .AddOrgUserContext jsonMarshal _ _ user role =>
    some ((jsonMarshal ([("loginOrEmail", user), ("role", role)])).map fun _ => ())
  | .UpdateOrgUserContext jsonMarshal _ _ _ role =>
    some ((jsonMarshal ([("role", role)])).map fun _ => ())
  | .RemoveOrgUserContext _ _ _ => none
  | .OrgsContext _ => none
  | .OrgByNameContext _ _ => none
  | .OrgContext _ _ => none
  | .NewOrgContext jsonMarshal _ name =>
    some ((jsonMarshal ([("name", name)])).map fun _ => ())
  | .UpdateOrgContext jsonMarshal _ _ name =>
    some ((jsonMarshal ([("name", name)])).map fun _ => ())
  | .DeleteOrgContext _ _ => none
  | .PlaylistContext _ _ => none
  | .NewPlaylistContext jsonMarshal _ playlist =>
    some ((jsonMarshal playlist).map fun _ => ())
  | .UpdatePlaylistContext jsonMarshal _ playlist =>
    some ((jsonMarshal playlist).map fun _ => ())
  | .DeletePlaylistContext _ _ => none
  | .ReportContext _ _ => none
  | .NewReportContext jsonMarshal _ report =>
    some ((jsonMarshal report).map fun _ => ())
  | .UpdateReportContext jsonMarshal _ report =>
    some ((jsonMarshal report).map fun _ => ())
  | .DeleteReportContext _ _ => none
  | .GetRoleContext _ _ => none
  | .NewRoleContext jsonMarshal _ role =>
    some ((jsonMarshal role).map fun _ => ())
  | .UpdateRoleContext jsonMarshal _ role =>
    some ((jsonMarshal role).map fun _ => ())
  | .DeleteRoleContext _ _ _ => none
  | .GetRoleAssignmentsContext _ _ => none
  | .UpdateRoleAssignmentsContext jsonMarshal _ ra =>
    some ((jsonMarshal ra).map fun _ => ())
  | .NewSnapshotContext jsonMarshal _ snapshot =>
    some ((jsonMarshal snapshot).map fun _ => ())
  | .TeamGroupsContext _ _ => none
  | .NewTeamGroupContext jsonMarshal _ _ groupID =>
    some ((jsonMarshal ([("groupId", groupID)])).map fun _ => ())
  | .DeleteTeamGroupContext _ _ _ => none
  | .UserContext _ _ => none
  | .UserByEmailContext _ _ => none
  | .UserUpdateContext jsonMarshal _ u =>
    some ((jsonMarshal u).map fun _ => ())


/-! ## Descriptions of calls and scripted clients -/

/-- The query that `DashboardsContext` sends for the page whose number is written
`page`. -/
def DashboardsContext.query (page : String) : Values :=
  [("type", ["dash-db"]), ("limit", [toString DashboardsContext.limit]), ("page", [page])]

/-- The call that `DashboardsContext` makes for page number `page`. -/
def DashboardsContext.call (ctx : Context) (page : Nat) : Call :=
  ⟨ctx, "GET", "/api/search", DashboardsContext.query (toString page), none, true⟩

/-- The call that `UsersContext` makes for page number `page`. -/
def UsersContext.call (ctx : Context) (page : Nat) : Call :=
  ⟨ctx, "GET", "/api/users", [("page", [toString page])], none, true⟩

/-- The items of the pages `p 0`, ..., `p (n - 1)`, in order. -/
def concatPages {α : Type} (p : Nat → List α) (n : Nat) : List α :=
  ((List.range n).map p).flatten

/-- A fresh client whose server answers the successive calls of `c.request` with the
listed replies and every later call with `fallback`. -/
def Client.ofReplies (replies : List (Except Error δ)) (fallback : Except Error δ) :
    Client δ where
  replies := fun n => replies.getD n fallback
  trace := []
  newRequestErr := fun _ => none
  doReplies := fun _ => .error (.errorString "no exchange")
  sent := []

/-- What an observer sees of a run of a paginated operation: the items returned, the error
returned, and the calls logged. -/
def observe {α : Type} (r : Option (List α × Option Error × Client (List α))) :
    Option (List α × Option Error × List Call) :=
  r.map fun x => (x.1, x.2.1, x.2.2.trace)

/-- Two pages of dashboards: a full page of 1000 items, then a page of two items. -/
def fullThenShort : Nat → List Nat :=
  fun i => if i = 0 then List.replicate 1000 0 else [1, 2]

/-- A server that answers with the two pages of `fullThenShort` and then fails. -/
def fullThenShortClient : Client (List Nat) :=
  Client.ofReplies [.ok (fullThenShort 0), .ok (fullThenShort 1)] (.error (.errorString "EOF"))

/-- A server that answers with one full page of 1000 items and then fails with `EOF`. -/
def fullThenErrorClient : Client (List Nat) :=
  Client.ofReplies [.ok (fullThenShort 0)] (.error (.errorString "EOF"))

/-- A server whose first page of users holds one user and whose second page is empty. -/
def oneUserClient : Client (List Nat) :=
  Client.ofReplies [.ok [7], .ok []] (.error (.errorString "EOF"))

/-- A server whose pages of users have the sizes 2, 2, 2, 1 and 0. -/
def sevenUsersClient : Client (List Nat) :=
  Client.ofReplies [.ok [1, 2], .ok [3, 4], .ok [5, 6], .ok [7], .ok []]
    (.error (.errorString "EOF"))

/-- A server whose first page of users holds one user and whose second call fails. -/
def oneUserThenErrorClient : Client (List Nat) :=
  Client.ofReplies [.ok [7]] (.error (.errorString "EOF"))

/-- A fresh client whose server answers every call of `c.request` with the value
`reply`. -/
def Client.always (reply : δ) : Client δ :=
  Client.ofReplies [] (.ok reply)

/-- A fresh client whose server completes every exchange sent with `c.client.Do` with the
response `resp`. -/
def Client.answering (resp : HTTPResponse) : Client Unit where
  replies := fun _ => .ok ()
  trace := []
  newRequestErr := fun _ => none
  doReplies := fun _ => .ok resp
  sent := []

/-- The plugin that the server of the examples describes. -/
def clockPlugin : Plugin :=
  ⟨7, "Clock", "clock", "2.1.0", "A clock panel"⟩

/-- A rule whose caller gave both `For` and `ForDuration`. -/
def fiveMinuteRule : AlertRule :=
  { AlertRule.zero with For := "5m", ForDuration := 60000000000 }

/-- A marshaller that writes the field `For` of an `AlertRule` under its tag `json:"for"`
and nothing else. -/
def jsonMarshalForField (rule : AlertRule) : Except Error JSON :=
  .ok (.obj [("for", .str rule.For)])

/-- What `json.Marshal` produces for a `User`, following the struct tags. Every field is
tagged `omitempty`, which leaves out a zero number, an empty string, `false` and an empty
slice. For `encoding/json` a struct value is never empty, so the `time.Time` fields
`UpdatedAt` and `CreatedAt` are always written, with what the method `MarshalJSON` of
`time.Time` yields for them, here `marshalTime`; its error is the error of the whole. -/
def jsonMarshalUser (marshalTime : Time → Except Error JSON) (u : User) : Except Error JSON :=
  match marshalTime u.UpdatedAt, marshalTime u.CreatedAt with
  | .error err, _ => .error err
  | .ok _, .error err => .error err
  | .ok updatedAt, .ok createdAt =>
    .ok (.obj
      ((if u.ID = 0 then [] else [("id", .num u.ID)]) ++
        (if u.Email = "" then [] else [("email", .str u.Email)]) ++
        (if u.Name = "" then [] else [("name", .str u.Name)]) ++
        (if u.Login = "" then [] else [("login", .str u.Login)]) ++
        (if u.Theme = "" then [] else [("theme", .str u.Theme)]) ++
        (if u.OrgID = 0 then [] else [("orgId", .num u.OrgID)]) ++
        (if u.IsAdmin = false then [] else [("isGrafanaAdmin", .bool u.IsAdmin)]) ++
        (if u.IsDisabled = false then [] else [("isDisabled", .bool u.IsDisabled)]) ++
        (if u.IsExternal = false then [] else [("isExternal", .bool u.IsExternal)]) ++
        [("updatedAt", updatedAt)] ++
        [("createdAt", createdAt)] ++
        (if u.AuthLabels = [] then [] else [("authLabels", .arr (u.AuthLabels.map .str))]) ++
        (if u.AvatarURL = "" then [] else [("avatarUrl", .str u.AvatarURL)]) ++
        (if u.Password = "" then [] else [("password", .str u.Password)])))

/-- What `MarshalJSON` of `time.Time` yields for the zero time. -/
def zeroTimeJSON : JSON :=
  .str "0001-01-01T00:00:00Z"

/-- One component of a rule duration: the token `<number><unit>` when the number is
positive, and nothing otherwise. -/
def durationComponent (v : Int) (unit : String) : String :=
  if v > 0 then toString v ++ unit else ""

/-- The length, in milliseconds, of the units of a rule duration. -/
def unitLength (unit : String) : Int :=
  if unit = "y" then 1000 * 60 * 60 * 24 * 365
  else if unit = "w" then 1000 * 60 * 60 * 24 * 7
  else if unit = "d" then 1000 * 60 * 60 * 24
  else if unit = "h" then 1000 * 60 * 60
  else if unit = "m" then 1000 * 60
  else if unit = "s" then 1000
  else if unit = "ms" then 1
  else 0

/-- The concatenation of the tokens `<number><unit>`. -/
def renderTokens : List (Int × String) → String
  | [] => ""
  | (v, unit) :: ts => toString v ++ unit ++ renderTokens ts

/-! ## Path templates -/

/-- One part of the path of a call: text of the template, a string supplied by the caller
and put in with `%s`, or a number put in with `%d`. -/
inductive PathPart where
  | lit (s : String)
  | ident (s : String)
  | number (n : Int)

/-- The text that a part contributes to the path. -/
def PathPart.render : PathPart → String
  | .lit s => s
  | .ident s => s
  | .number n => toString n

/-- The path made of the parts, in order. -/
def renderPath : List PathPart → String
  | [] => ""
  | p :: ps => p.render ++ renderPath ps

/-- The part that `QueryID` contributes to a path: the UID, a string of the caller, or the
ID, a number. -/
def Playlist.QueryIDPart (p : Playlist) : PathPart :=
  if p.UID ≠ "" then .ident p.UID else .number p.ID

/-- The path template of each operation, with the arguments of the invocation filled
in. -/
def Operation.pathTemplate {π δ : Type} : Operation π δ → List PathPart
  | .CreateUserContext _ _ _ => [.lit "/api/admin/users"]
  | .DeleteUserContext _ id => [.lit "/api/admin/users/", .number id]
  | .UpdateUserPasswordContext _ _ id _ =>
    [.lit "/api/admin/users/", .number id, .lit "/password"]
  | .UpdateUserPermissionsContext _ _ id _ =>
    [.lit "/api/admin/users/", .number id, .lit "/permissions"]
  | .PauseAllAlertsContext _ _ => [.lit "/api/admin/pause-all-alerts"]
  | .AlertRuleContext _ uid => [.lit "/api/v1/provisioning/alert-rules/", .ident uid]
  | .AlertRuleGroupContext _ folderUID name =>
    [.lit "/api/v1/provisioning/folder/", .ident folderUID, .lit "/rule-groups/", .ident name]
  | .SetAlertRuleGroupContext _ _ group =>
    [.lit "/api/v1/provisioning/folder/", .ident group.FolderUID, .lit "/rule-groups/",
      .ident group.Title]
  | .NewAlertRuleContext _ _ _ => [.lit "/api/v1/provisioning/alert-rules"]
  | .UpdateAlertRuleContext _ _ ar => [.lit "/api/v1/provisioning/alert-rules/", .ident ar.UID]
  | .DeleteAlertRuleContext _ uid => [.lit "/api/v1/provisioning/alert-rules/", .ident uid]
  | .MessageTemplatesContext _ => [.lit "/api/v1/provisioning/templates"]
  | .MessageTemplateContext _ name => [.lit "/api/v1/provisioning/templates/", .ident name]
  | .SetMessageTemplateContext _ _ name _ => [.lit "/api/v1/provisioning/templates/", .ident name]
  | .DeleteMessageTemplateContext _ name => [.lit "/api/v1/provisioning/templates/", .ident name]
  | .MuteTimingsContext _ => [.lit "/api/v1/provisioning/mute-timings"]
  | .MuteTimingContext _ name => [.lit "/api/v1/provisioning/mute-timings/", .ident name]
  | .NewMuteTimingContext _ _ _ => [.lit "/api/v1/provisioning/mute-timings"]
  | .UpdateMuteTimingContext _ _ mt => [.lit "/api/v1/provisioning/mute-timings/", .ident mt.Name]
  | .DeleteMuteTimingContext _ name => [.lit "/api/v1/provisioning/mute-timings/", .ident name]
  | .AlertNotificationsContext _ => [.lit "/api/alert-notifications/"]
  | .AlertNotificationContext _ id => [.lit "/api/alert-notifications/", .number id]
  | .NewAlertNotificationContext _ _ _ => [.lit "/api/alert-notifications"]
  | .UpdateAlertNotificationContext _ _ a => [.lit "/api/alert-notifications/", .number a.ID]
  | .DeleteAlertNotificationContext _ id => [.lit "/api/alert-notifications/", .number id]
  | .AnnotationsContext _ _ => [.lit "/api/annotations"]
  | .NewAnnotationContext _ _ _ => [.lit "/api/annotations"]
  | .NewGraphiteAnnotationContext _ _ _ => [.lit "/api/annotations/graphite"]
  | .UpdateAnnotationContext _ _ id _ => [.lit "/api/annotations/", .number id]
  | .PatchAnnotationContext _ _ id _ => [.lit "/api/annotations/", .number id]
  | .DeleteAnnotationContext _ id => [.lit "/api/annotations/", .number id]
  | .DeleteAnnotationByRegionIDContext _ id => [.lit "/api/annotations/region/", .number id]
  | .CreateAPIKeyContext _ _ _ => [.lit "/api/auth/keys"]
  | .GetAPIKeysContext _ _ => [.lit "/api/auth/keys"]
  | .DeleteAPIKeyContext _ id => [.lit "/api/auth/keys/", .number id]
  | .GetBuiltInRoleAssignmentsContext _ => [.lit "/api/access-control/builtin-roles"]
  | .NewBuiltInRoleAssignmentContext _ _ _ => [.lit "/api/access-control/builtin-roles"]
  | .DeleteBuiltInRoleAssignmentContext _ _ builtInRole =>
    [.lit "/api/access-control/builtin-roles/", .ident builtInRole.BuiltinRole, .lit "/roles/",
      .ident builtInRole.RoleUID]
  | .CreateCloudAPIKeyContext _ _ org _ => [.lit "/api/orgs/", .ident org, .lit "/api-keys"]
  | .ListCloudAPIKeysContext _ org => [.lit "/api/orgs/", .ident org, .lit "/api-keys"]
  | .DeleteCloudAPIKeyContext _ org keyName =>
    [.lit "/api/orgs/", .ident org, .lit "/api-keys/", .ident keyName]
  | .InstallCloudPluginContext _ _ stackSlug _ _ =>
    [.lit "/api/instances/", .ident stackSlug, .lit "/plugins"]
  | .UninstallCloudPluginContext _ stackSlug pluginSlug =>
    [.lit "/api/instances/", .ident stackSlug, .lit "/plugins/", .ident pluginSlug]
  | .IsCloudPluginInstalledContext _ stackSlug pluginSlug =>
    [.lit "/api/instances/", .ident stackSlug, .lit "/plugins/", .ident pluginSlug]
  | .GetCloudPluginInstallationContext _ stackSlug pluginSlug =>
    [.lit "/api/instances/", .ident stackSlug, .lit "/plugins/", .ident pluginSlug]
  | .PluginBySlugContext _ slug => [.lit "/api/plugins/", .ident slug]
  | .PluginByIDContext _ pluginID => [.lit "/api/plugins/", .number pluginID]
  | .SaveDashboardContext _ _ _ _ => [.lit "/api/dashboards/db"]
  | .NewDashboardContext _ _ _ => [.lit "/api/dashboards/db"]
  | .DashboardContext _ slug => [.lit "/api/dashboards/db/", .ident slug]
  | .DashboardByUIDContext _ uid => [.lit "/api/dashboards/uid/", .ident uid]
  | .DashboardsByIDsContext _ _ _ => [.lit "/api/search"]
  | .DeleteDashboardContext _ slug => [.lit "/api/dashboards/db/", .ident slug]
  | .DeleteDashboardByUIDContext _ uid => [.lit "/api/dashboards/uid/", .ident uid]
  | .EnableDatasourcePermissionsContext _ id =>
    [.lit "/api/datasources/", .number id, .lit "/enable-permissions"]
  | .DisableDatasourcePermissionsContext _ id =>
    [.lit "/api/datasources/", .number id, .lit "/disable-permissions"]
  | .DatasourcePermissionsContext _ id =>
    [.lit "/api/datasources/", .number id, .lit "/permissions"]
  | .AddDatasourcePermissionContext _ _ id _ =>
    [.lit "/api/datasources/", .number id, .lit "/permissions"]
  | .RemoveDatasourcePermissionContext _ id permissionID =>
    [.lit "/api/datasources/", .number id, .lit "/permissions/", .number permissionID]
  | .FoldersContext _ => [.lit "/api/folders/"]
  | .FolderContext _ id => [.lit "/api/folders/id/", .number id]
  | .FolderByUIDContext _ uid => [.lit "/api/folders/", .ident uid]
  | .NewFolderContext _ _ _ _ => [.lit "/api/folders"]
  | .UpdateFolderContext _ _ uid _ _ => [.lit "/api/folders/", .ident uid]
  | .DeleteFolderContext _ id => [.lit "/api/folders/", .ident id]
  | .FolderDashboardSearchContext _ _ => [.lit "/api/search"]
  | .HealthContext _ => [.lit "/api/health"]
  | .OrgPreferencesContext _ => [.lit "/api/org/preferences"]
  | .UpdateOrgPreferencesContext _ _ _ => [.lit "/api/org/preferences"]
  | .UpdateAllOrgPreferencesContext _ _ _ => [.lit "/api/org/preferences"]
  | .OrgUsersCurrentContext _ => [.lit "/api/org/users"]
  | .OrgUsersContext _ orgID => [.lit "/api/orgs/", .number orgID, .lit "/users"]
  | .AddOrgUserContext _ _ orgID _ _ => [.lit "/api/orgs/", .number orgID, .lit "/users"]
  | .UpdateOrgUserContext _ _ orgID userID _ =>
    [.lit "/api/orgs/", .number orgID, .lit "/users/", .number userID]
  | .RemoveOrgUserContext _ orgID userID =>
    [.lit "/api/orgs/", .number orgID, .lit "/users/", .number userID]
  | .OrgsContext _ => [.lit "/api/orgs/"]
  | .OrgByNameContext _ name => [.lit "/api/orgs/name/", .ident name]
  | .OrgContext _ id => [.lit "/api/orgs/", .number id]
  | .NewOrgContext _ _ _ => [.lit "/api/orgs"]
  | .UpdateOrgContext _ _ id _ => [.lit "/api/orgs/", .number id]
  | .DeleteOrgContext _ id => [.lit "/api/orgs/", .number id]
  | .PlaylistContext _ idOrUID => [.lit "/api/playlists/", .ident idOrUID]
  | .NewPlaylistContext _ _ _ => [.lit "/api/playlists"]
  | .UpdatePlaylistContext _ _ playlist => [.lit "/api/playlists/", playlist.QueryIDPart]
  | .DeletePlaylistContext _ idOrUID => [.lit "/api/playlists/", .ident idOrUID]
  | .ReportContext _ id => [.lit "/api/reports/", .number id]
  | .NewReportContext _ _ _ => [.lit "/api/reports"]
  | .UpdateReportContext _ _ report => [.lit "/api/reports/", .number report.ID]
  | .DeleteReportContext _ id => [.lit "/api/reports/", .number id]
  | .GetRoleContext _ uid => [.lit "/api/access-control/roles/", .ident uid]
  | .NewRoleContext _ _ _ => [.lit "/api/access-control/roles"]
  | .UpdateRoleContext _ _ role => [.lit "/api/access-control/roles/", .ident role.UID]
  | .DeleteRoleContext _ uid _ => [.lit "/api/access-control/roles/", .ident uid]
  | .GetRoleAssignmentsContext _ uid =>
    [.lit "/api/access-control/roles/", .ident uid, .lit "/assignments"]
  | .UpdateRoleAssignmentsContext _ _ ra =>
    [.lit "/api/access-control/roles/", .ident ra.RoleUID, .lit "/assignments"]
  | .NewSnapshotContext _ _ _ => [.lit "/api/snapshots"]
  | .TeamGroupsContext _ id => [.lit "/api/teams/", .number id, .lit "/groups"]
  | .NewTeamGroupContext _ _ id _ => [.lit "/api/teams/", .number id, .lit "/groups"]
  | .DeleteTeamGroupContext _ id groupID =>
    [.lit "/api/teams/", .number id, .lit "/groups/", .ident groupID]
  | .UserContext _ id => [.lit "/api/users/", .number id]
  | .UserByEmailContext _ _ => [.lit "/api/users/lookup"]
  | .UserUpdateContext _ _ u => [.lit "/api/users/", .number u.ID]

/-- Whether the path begins with the text `/api/`. -/
def startsWithApi (path : String) : Bool :=
  "/api/".data.isPrefixOf path.data

/-- How often the character occurs in the text. -/
def countChar (ch : Char) (s : String) : Nat :=
  s.data.count ch

/-- How often the character occurs in the text of the template itself. -/
def templateCount (ch : Char) : List PathPart → Nat
  | [] => 0
  | .lit s :: ps => countChar ch s + templateCount ch ps
  | .ident _ :: ps => templateCount ch ps
  | .number _ :: ps => templateCount ch ps

/-- How often the character occurs in the strings of the caller put into the template. -/
def identCount (ch : Char) : List PathPart → Nat
  | [] => 0
  | .lit _ :: ps => identCount ch ps
  | .ident s :: ps => countChar ch s + identCount ch ps
  | .number _ :: ps => identCount ch ps

/-! ## The transport function, from the specification -/

/-- Modelled from the spec: the errors that `dispatch` returns. `dispatch` is `c.request`,
whose file `client.go` is not among the sources. The spec names a transport error ("the
exchange itself failed"), an API error ("a non-2xx HTTP status was returned; carries status
code and response body text") and a decode error ("a 2xx response body could not be parsed
into the expected shape"). -/
inductive DispatchError where
  | transport (err : Error)
  | api (status : Int) (body : String)
  | decode (err : Error)

/-- Modelled from the spec: what `dispatch` does on receipt of a response with status code
`status`, once it has read the full body `body`. "If status is in the success range
(200–299): if a destination value was supplied, decode the body as JSON into it; decoding
failure is a fatal error for this call. Absence of a destination value means the body is
ignored even if present. If status is outside the success range: construct a structured
error carrying the status code and the raw response body; this error is always returned."
`decode` is the JSON decoder: it yields the destination after decoding, and the error when
decoding failed. -/
def dispatch (decode : String → δ → δ × Option Error) (status : Int) (body : String)
    (dest : Option δ) : Option δ × Option DispatchError :=
  if 200 ≤ status ∧ status ≤ 299 then
    match dest with
    | none => (none, none)
    | some d =>
      match decode body d with
      | (d, some err) => (some d, some (.decode err))
      | (d, none) => (some d, none)
  else
    (dest, some (.api status body))

/-- Modelled from the spec: the `error` value that the caller of `dispatch` receives. A
transport error and a decode error are handed on as they are; the API error is an error
whose text holds the status code and the raw body, written the way
`IsCloudPluginInstalledContext` writes it for the exchange that it makes itself. -/
def DispatchError.toError : DispatchError → Error
  | .transport err => err
  | .api status body => .errorString ("status: " ++ toString status ++ ", body: " ++ body)
  | .decode err => err

/-- The reply that the script of a client holds for a call of `c.request` which `dispatch`
answers with `r`: the error, or the value left in the destination (`fallback` when the call
has no destination). -/
def dispatchReply (r : Option δ × Option DispatchError) (fallback : δ) : Except Error δ :=
  match r with
  | (_, some err) => .error err.toError
  | (some d, none) => .ok d
  | (none, none) => .ok fallback

/-- The body `{"message":"not found"}`. -/
def notFoundBody : String := "\x7b\"message\":\"not found\"\x7d"

/-- The body `{"version":"10.0.0"}`. -/
def versionBody : String := "\x7b\"version\":\"10.0.0\"\x7d"

/-- A decoder that reads the member `version` of `versionBody` into the field `Version`
and leaves the destination as it is for any other body. -/
def decodeVersion (body : String) (dst : HealthResponse) : HealthResponse × Option Error :=
  if body = versionBody then ({ dst with Version := "10.0.0" }, none) else (dst, none)

/-- Two pages of dashboards: a page of 1001 items, then a page of two items. -/
def overfullThenShort : Nat → List Nat :=
  fun i => if i = 0 then List.replicate 1001 0 else [1, 2]

/-- A server that answers with the two pages of `overfullThenShort` and then fails. -/
def overfullThenShortClient : Client (List Nat) :=
  Client.ofReplies [.ok (overfullThenShort 0), .ok (overfullThenShort 1)]
    (.error (.errorString "EOF"))

/-! ## `encoding/json`: decoding

The specification has `dispatch` decode the body of a successful response as JSON into
the destination: in Go that is `json.Unmarshal`, embedded here for the destinations used
below. It checks the syntax of the whole text first, and then decodes in place, so that
whatever the document does not mention keeps the value it had. -/

/-- JSON white space: space, tab, line feed and carriage return. -/
def JSON.isSpace (c : Char) : Bool :=
  c.toNat = 32 || c.toNat = 9 || c.toNat = 10 || c.toNat = 13

/-- The text after its leading white space. -/
def JSON.skipSpace : List Char → List Char
  | [] => []
  | c :: cs => if JSON.isSpace c then JSON.skipSpace cs else c :: cs

/-- The character that the escape `\c` stands for. The escape `\u` with its four hexadecimal
digits is not embedded: a text that uses it is treated as malformed. -/
def JSON.unescape (c : Char) : Option Char :=
  if c.toNat = 34 then some c
  else if c.toNat = 92 then some c
  else if c = '/' then some c
  else if c = 'b' then some (Char.ofNat 8)
  else if c = 'f' then some (Char.ofNat 12)
  else if c = 'n' then some (Char.ofNat 10)
  else if c = 'r' then some (Char.ofNat 13)
  else if c = 't' then some (Char.ofNat 9)
  else none

/-- Reads a string literal after its opening quote: the string and the text after the
closing quote. `acc` holds the characters read so far, last first. -/
def JSON.readString : List Char → List Char → Option (String × List Char)
  | [], _ => none
  | c :: cs, acc =>
    if c.toNat = 34 then some (String.mk acc.reverse, cs)
    else if c.toNat = 92 then
      match cs with
      | [] => none
      | e :: rest =>
        match JSON.unescape e with
        | none => none
        | some ch => JSON.readString rest (ch :: acc)
    else if c.toNat < 32 then none
    else JSON.readString cs (c :: acc)

/-- Reads decimal digits: the number they write after `n`, and the text after them. -/
def JSON.readDigits : List Char → Nat → Nat × List Char
  | [], n => (n, [])
  | c :: cs, n =>
    if c.isDigit then JSON.readDigits cs (10 * n + (c.toNat - 48)) else (n, c :: cs)

/-- Reads a number after its sign. `JSON.num` holds integers, so a number with a fraction
or an exponent is not embedded: a text that has one is treated as malformed. -/
def JSON.readNumber (negative : Bool) (cs : List Char) : Option (JSON × List Char) :=
  match cs with
  | [] => none
  | c :: rest =>
    if c.isDigit then
      let r := JSON.readDigits cs 0
      let leadingZero : Bool := c = '0' && (match rest with | d :: _ => d.isDigit | [] => false)
      let goesOn : Bool := match r.2 with | d :: _ => d = '.' || d = 'e' || d = 'E' | [] => false
      if leadingZero || goesOn then none
      else some (.num (if negative then -(r.1 : Int) else (r.1 : Int)), r.2)
    else none

mutual

/-- Reads one JSON value: the document and the text after it. The fuel bounds the number of
values read; `JSON.parse` gives one unit for every character of the text. -/
def JSON.readValue : Nat → List Char → Option (JSON × List Char)
  | 0, _ => none
  | fuel + 1, cs =>
    match JSON.skipSpace cs with
    | [] => none
    | 't' :: 'r' :: 'u' :: 'e' :: rest => some (.bool true, rest)
    | 'f' :: 'a' :: 'l' :: 's' :: 'e' :: rest => some (.bool false, rest)
    | 'n' :: 'u' :: 'l' :: 'l' :: rest => some (.null, rest)
    | c :: rest =>
      if c.toNat = 34 then
        (JSON.readString rest []).map fun r => (.str r.1, r.2)
      else if c.toNat = 91 then
        match JSON.skipSpace rest with
        | [] => none
        | d :: rest2 =>
          if d.toNat = 93 then some (.arr [], rest2) else JSON.readItems fuel (d :: rest2) []
      else if c.toNat = 123 then
        match JSON.skipSpace rest with
        | [] => none
        | d :: rest2 =>
          if d.toNat = 125 then some (.obj [], rest2) else JSON.readMembers fuel (d :: rest2) []
      else if c = '-' then JSON.readNumber true rest
      else JSON.readNumber false (c :: rest)

/-- Reads the items of an array up to its closing bracket. -/
def JSON.readItems : Nat → List Char → List JSON → Option (JSON × List Char)
  | 0, _, _ => none
  | fuel + 1, cs, acc =>
    match JSON.readValue fuel cs with
    | none => none
    | some (v, rest) =>
      match JSON.skipSpace rest with
      | [] => none
      | d :: rest2 =>
        if d = ',' then JSON.readItems fuel rest2 (v :: acc)
        else if d.toNat = 93 then some (.arr (v :: acc).reverse, rest2)
        else none

/-- Reads the members of an object up to its closing brace. -/
def JSON.readMembers : Nat → List Char → List (String × JSON) → Option (JSON × List Char)
  | 0, _, _ => none
  | fuel + 1, cs, acc =>
    match JSON.skipSpace cs with
    | [] => none
    | q :: rest =>
      if q.toNat = 34 then
        match JSON.readString rest [] with
        | none => none
        | some (key, rest1) =>
          match JSON.skipSpace rest1 with
          | [] => none
          | colon :: rest2 =>
            if colon = ':' then
              match JSON.readValue fuel rest2 with
              | none => none
              | some (v, rest3) =>
                match JSON.skipSpace rest3 with
                | [] => none
                | d :: rest4 =>
                  if d = ',' then JSON.readMembers fuel rest4 ((key, v) :: acc)
                  else if d.toNat = 125 then some (.obj ((key, v) :: acc).reverse, rest4)
                  else none
            else none
      else none

end

/-- The document that a text writes, if the text is one well-formed JSON value. -/
def JSON.parse (text : String) : Option JSON :=
  match JSON.readValue (text.length + 1) text.data with
  | none => none
  | some (doc, rest) => if (JSON.skipSpace rest).isEmpty then some doc else none

/-- The name that `encoding/json` gives to the kind of a value in its type errors. -/
def JSON.kind : JSON → String
  | .null => "null"
  | .bool _ => "bool"
  | .num _ => "number"
  | .str _ => "string"
  | .arr _ => "array"
  | .obj _ => "object"

/-- The `*json.UnmarshalTypeError` for a value that does not fit its destination; `target`
names the destination, as in `Go value of type string`. -/
def unmarshalTypeError (doc : JSON) (target : String) : Error :=
  .errorString ("json: cannot unmarshal " ++ doc.kind ++ " into " ++ target)

/-- The outcome of decoding one value into a destination of type `α`: the destination
afterwards, the error if there was one, and whether the error ends the decoding. A type
error does not: `encoding/json` keeps the first one, decodes the rest, and returns it at
the end. The error of an `UnmarshalJSON` method does. -/
abbrev Decoded (α : Type) := α × Option Error × Bool

/-- A decoder in place: from the document and the destination before, the outcome. -/
abbrev Decoder (α : Type) := JSON → α → Decoded α

/-- The first of two errors kept while decoding. -/
def keepFirst (saved err : Option Error) : Option Error :=
  match saved with
  | some e => some e
  | none => err

/-- Decoding into a `string`. The value `null` leaves the destination as it is. -/
def jsonString (target : String) : Decoder String
  | .str s, _ => (s, none, false)
  | .null, dst => (dst, none, false)
  | doc, dst => (dst, some (unmarshalTypeError doc target), false)

/-- Decoding into an `int64`. -/
def jsonInt64 (target : String) : Decoder Int
  | .num n, _ => (n, none, false)
  | .null, dst => (dst, none, false)
  | doc, dst => (dst, some (unmarshalTypeError doc target), false)

/-- Decoding into a `uint`: a negative number does not fit. -/
def jsonUint (target : String) : Decoder Nat
  | .num n, dst =>
    if 0 ≤ n then (n.toNat, none, false)
    else (dst, some (unmarshalTypeError (.num n) target), false)
  | .null, dst => (dst, none, false)
  | doc, dst => (dst, some (unmarshalTypeError doc target), false)

/-- Decoding into a `bool`. -/
def jsonBool (target : String) : Decoder Bool
  | .bool b, _ => (b, none, false)
  | .null, dst => (dst, none, false)
  | doc, dst => (dst, some (unmarshalTypeError doc target), false)

/-- A Go slice: the elements of its backing array that have been in use, and its length.
The elements of the slice are the first `len` of them. -/
structure Slice (α : Type) where
  slots : List α
  len : Nat

/-- The nil slice. -/
def Slice.nil {α : Type} : Slice α :=
  ⟨[], 0⟩

/-- The elements of the slice. -/
def Slice.items {α : Type} (s : Slice α) : List α :=
  s.slots.take s.len

/-- Decoding the items of an array into the elements of a backing array, one into one: an
item is decoded into the element that is already there, and into the zero value past the
elements in use. Yields the elements decoded, up to and including one whose decoding ended
with an error that ends everything. -/
def jsonElements {α : Type} (item : Decoder α) (zero : α) :
    List JSON → List α → Option Error → Decoded (List α)
  | [], _, saved => ([], saved, false)
  | doc :: docs, slots, saved =>
    match item doc (slots.headD zero) with
    | (x, err, true) => ([x], err, true)
    | (x, err, false) =>
      let r := jsonElements item zero docs slots.tail (keepFirst saved err)
      (x :: r.1, r.2)

/-- Decoding into a slice. An array is decoded element by element into the backing array,
which the slice keeps, and the slice gets the length of the array; the empty array gives a
new empty slice, and `null` gives the nil slice. -/
def jsonSlice {α : Type} (item : Decoder α) (zero : α) (target : String) :
    Decoder (Slice α)
  | .arr [], _ => (⟨[], 0⟩, none, false)
  | .arr docs, s =>
    let r := jsonElements item zero docs s.slots none
    (⟨r.1 ++ s.slots.drop r.1.length, if r.2.2 then max s.len r.1.length else r.1.length⟩,
      r.2)
  | .null, _ => (Slice.nil, none, false)
  | doc, s => (s, some (unmarshalTypeError doc target), false)

/-- Decoding into a pointer: `null` sets the pointer to nil; any other value is decoded
into what the pointer points to, a new zero value if the pointer is nil. -/
def jsonPointer {α : Type} (pointee : Decoder α) (zero : α) : Decoder (Option α)
  | .null, _ => (none, none, false)
  | doc, p =>
    let r := pointee doc (p.getD zero)
    (some r.1, r.2)

/-- Writing the entries of an object into a `map[string]interface{}`, kept as the members
of a JSON object: an entry replaces the one with the same key, and is added otherwise. -/
def jsonMapEntries : List (String × JSON) → List (String × JSON) → List (String × JSON)
  | [], m => m
  | (key, value) :: rest, m =>
    jsonMapEntries rest
      (if m.any (fun kv => kv.1 = key) then
        m.map fun kv => if kv.1 = key then (key, value) else kv
      else m ++ [(key, value)])

/-- Decoding into a `map[string]interface{}`: an object adds its entries to the map, and
`null` gives the nil map. -/
def jsonMap (target : String) : Decoder (List (String × JSON))
  | .obj members, m => (jsonMapEntries members m, none, false)
  | .null, _ => ([], none, false)
  | doc, m => (m, some (unmarshalTypeError doc target), false)

/-- One field of a struct as `encoding/json` sees it: the name in its tag, and the decoding
of a value into it. -/
structure JSONField (α : Type) where
  name : String
  decode : Decoder α

/-- The field of a struct made of the name in the tag, the field's getter and setter, and
the decoder for its type. -/
def JSONField.of {α β : Type} (name : String) (get : α → β) (set : α → β → α)
    (decoder : Decoder β) : JSONField α :=
  ⟨name, fun doc dst =>
    let r := decoder doc (get dst)
    (set dst r.1, r.2)⟩

/-- The field that a key of an object addresses: the one whose name is the key, and
otherwise the first one whose name is the key but for the case of the letters. -/
def JSONField.find {α : Type} (fields : List (JSONField α)) (key : String) :
    Option (JSONField α) :=
  match fields.find? (fun f => f.name = key) with
  | some f => some f
  | none => fields.find? (fun f => f.name.toLower = key.toLower)

/-- Decoding the members of an object into a struct, in the order written: a member whose
key addresses no field is skipped. -/
def jsonMembers {α : Type} (fields : List (JSONField α)) :
    List (String × JSON) → α → Option Error → Decoded α
  | [], dst, saved => (dst, saved, false)
  | (key, value) :: rest, dst, saved =>
    match JSONField.find fields key with
    | none => jsonMembers fields rest dst saved
    | some f =>
      match f.decode value dst with
      | (dst, err, true) => (dst, err, true)
      | (dst, err, false) => jsonMembers fields rest dst (keepFirst saved err)

/-- Decoding into a struct with the given fields. The value `null` leaves the struct as it
is, and so does every field that the object does not mention. -/
def jsonStruct {α : Type} (fields : List (JSONField α)) (target : String) : Decoder α
  | .obj members, dst => jsonMembers fields members dst none
  | .null, dst => (dst, none, false)
  | doc, dst => (dst, some (unmarshalTypeError doc target), false)

/-- The function `json.Unmarshal(body, &dst)` with the decoder for the type of `dst`: a
text that is not well formed is refused before anything is decoded. -/
def jsonUnmarshal {α : Type} (decoder : Decoder α) (body : String) (dst : α) :
    α × Option Error :=
  match JSON.parse body with
  | none => (dst, some (.errorString "json: syntax error"))
  | some doc =>
    let r := decoder doc dst
    (r.1, r.2.1)

/-- The decoder for `HealthResponse`, from its struct tags. -/
def HealthResponse.decoder : Decoder HealthResponse :=
  jsonStruct
    [JSONField.of "commit" (fun h => h.Commit) (fun h v => { h with Commit := v })
        (jsonString "Go struct field HealthResponse.commit of type string"),
      JSONField.of "database" (fun h => h.Database) (fun h v => { h with Database := v })
        (jsonString "Go struct field HealthResponse.database of type string"),
      JSONField.of "version" (fun h => h.Version) (fun h v => { h with Version := v })
        (jsonString "Go struct field HealthResponse.version of type string")]
    "Go value of type gapi.HealthResponse"

/-- The decoder for `time.Time`, whose method `UnmarshalJSON` leaves the time as it is for
`null` and otherwise reads a string with `unmarshalTime`, the parsing of an RFC 3339 time;
its errors end the decoding. -/
def jsonTime (unmarshalTime : String → Except Error Time) : Decoder Time
  | .null, dst => (dst, none, false)
  | .str s, dst =>
    match unmarshalTime s with
    | .ok t => (t, none, false)
    | .error err => (dst, some err, true)
  | _, dst => (dst, some (.errorString "Time.UnmarshalJSON: input is not a JSON string"), true)

/-- The struct `UserSearch` of `user.go`. -/
structure UserSearch where
  ID : Int
  Email : String
  Name : String
  Login : String
  IsAdmin : Bool
  IsDisabled : Bool
  LastSeenAt : Time
  LastSeenAtAge : String
  AuthLabels : Slice String
  AvatarURL : String

/-- The value `UserSearch{}`. -/
def UserSearch.zero : UserSearch :=
  ⟨0, "", "", "", false, false, ⟨0⟩, "", Slice.nil, ""⟩

/-- The decoder for `UserSearch`, from its struct tags. -/
def UserSearch.decoder (unmarshalTime : String → Except Error Time) : Decoder UserSearch :=
  jsonStruct
    [JSONField.of "id" (fun u => u.ID) (fun u v => { u with ID := v })
        (jsonInt64 "Go struct field UserSearch.id of type int64"),
      JSONField.of "email" (fun u => u.Email) (fun u v => { u with Email := v })
        (jsonString "Go struct field UserSearch.email of type string"),
      JSONField.of "name" (fun u => u.Name) (fun u v => { u with Name := v })
        (jsonString "Go struct field UserSearch.name of type string"),
      JSONField.of "login" (fun u => u.Login) (fun u v => { u with Login := v })
        (jsonString "Go struct field UserSearch.login of type string"),
      JSONField.of "isAdmin" (fun u => u.IsAdmin) (fun u v => { u with IsAdmin := v })
        (jsonBool "Go struct field UserSearch.isAdmin of type bool"),
      JSONField.of "isDisabled" (fun u => u.IsDisabled) (fun u v => { u with IsDisabled := v })
        (jsonBool "Go struct field UserSearch.isDisabled of type bool"),
      JSONField.of "lastSeenAt" (fun u => u.LastSeenAt) (fun u v => { u with LastSeenAt := v })
        (jsonTime unmarshalTime),
      JSONField.of "lastSeenAtAge" (fun u => u.LastSeenAtAge)
        (fun u v => { u with LastSeenAtAge := v })
        (jsonString "Go struct field UserSearch.lastSeenAtAge of type string"),
      JSONField.of "authLabels" (fun u => u.AuthLabels) (fun u v => { u with AuthLabels := v })
        (jsonSlice (jsonString "Go struct field UserSearch.authLabels of type string") ""
          "Go struct field UserSearch.authLabels of type []string"),
      JSONField.of "avatarUrl" (fun u => u.AvatarURL) (fun u v => { u with AvatarURL := v })
        (jsonString "Go struct field UserSearch.avatarUrl of type string")]
    "Go value of type gapi.UserSearch"

/-- The struct `FolderDashboardSearchResponse` of `folder_dashboard_search.go`. -/
structure FolderDashboardSearchResponse where
  ID : Nat
  UID : String
  Title : String
  URI : String
  URL : String
  Slug : String
  Type_ : String
  Tags : Slice String
  IsStarred : Bool
  FolderID : Nat
  FolderUID : String
  FolderTitle : String
  FolderURL : String

/-- The value `FolderDashboardSearchResponse{}`. -/
def FolderDashboardSearchResponse.zero : FolderDashboardSearchResponse :=
  ⟨0, "", "", "", "", "", "", Slice.nil, false, 0, "", "", ""⟩

/-- The decoder for `FolderDashboardSearchResponse`, from its struct tags. -/
def FolderDashboardSearchResponse.decoder : Decoder FolderDashboardSearchResponse :=
  jsonStruct
    [JSONField.of "id" (fun d => d.ID) (fun d v => { d with ID := v })
        (jsonUint "Go struct field FolderDashboardSearchResponse.id of type uint"),
      JSONField.of "uid" (fun d => d.UID) (fun d v => { d with UID := v })
        (jsonString "Go struct field FolderDashboardSearchResponse.uid of type string"),
      JSONField.of "title" (fun d => d.Title) (fun d v => { d with Title := v })
        (jsonString "Go struct field FolderDashboardSearchResponse.title of type string"),
      JSONField.of "uri" (fun d => d.URI) (fun d v => { d with URI := v })
        (jsonString "Go struct field FolderDashboardSearchResponse.uri of type string"),
      JSONField.of "url" (fun d => d.URL) (fun d v => { d with URL := v })
        (jsonString "Go struct field FolderDashboardSearchResponse.url of type string"),
      JSONField.of "slug" (fun d => d.Slug) (fun d v => { d with Slug := v })
        (jsonString "Go struct field FolderDashboardSearchResponse.slug of type string"),
      JSONField.of "type" (fun d => d.Type_) (fun d v => { d with Type_ := v })
        (jsonString "Go struct field FolderDashboardSearchResponse.type of type string"),
      JSONField.of "tags" (fun d => d.Tags) (fun d v => { d with Tags := v })
        (jsonSlice (jsonString "Go struct field FolderDashboardSearchResponse.tags of type string")
          "" "Go struct field FolderDashboardSearchResponse.tags of type []string"),
      JSONField.of "isStarred" (fun d => d.IsStarred) (fun d v => { d with IsStarred := v })
        (jsonBool "Go struct field FolderDashboardSearchResponse.isStarred of type bool"),
      JSONField.of "folderId" (fun d => d.FolderID) (fun d v => { d with FolderID := v })
        (jsonUint "Go struct field FolderDashboardSearchResponse.folderId of type uint"),
      JSONField.of "folderUid" (fun d => d.FolderUID) (fun d v => { d with FolderUID := v })
        (jsonString "Go struct field FolderDashboardSearchResponse.folderUid of type string"),
      JSONField.of "folderTitle" (fun d => d.FolderTitle)
        (fun d v => { d with FolderTitle := v })
        (jsonString "Go struct field FolderDashboardSearchResponse.folderTitle of type string"),
      JSONField.of "folderUrl" (fun d => d.FolderURL) (fun d v => { d with FolderURL := v })
        (jsonString "Go struct field FolderDashboardSearchResponse.folderUrl of type string")]
    "Go value of type gapi.FolderDashboardSearchResponse"

/-- The decoder for `DashboardMeta`, from its struct tags. -/
def DashboardMeta.decoder : Decoder DashboardMeta :=
  jsonStruct
    [JSONField.of "isStarred" (fun m => m.IsStarred) (fun m v => { m with IsStarred := v })
        (jsonBool "Go struct field Dashboard.meta.isStarred of type bool"),
      JSONField.of "slug" (fun m => m.Slug) (fun m v => { m with Slug := v })
        (jsonString "Go struct field Dashboard.meta.slug of type string"),
      JSONField.of "folderId" (fun m => m.Folder) (fun m v => { m with Folder := v })
        (jsonInt64 "Go struct field Dashboard.meta.folderId of type int64"),
      JSONField.of "url" (fun m => m.URL) (fun m v => { m with URL := v })
        (jsonString "Go struct field Dashboard.meta.url of type string")]
    "Go struct field Dashboard.meta of type gapi.DashboardMeta"

/-- The decoder for `Dashboard`, from its struct tags. -/
def Dashboard.decoder : Decoder Dashboard :=
  jsonStruct
    [JSONField.of "meta" (fun d => d.Meta) (fun d v => { d with Meta := v })
        DashboardMeta.decoder,
      JSONField.of "dashboard" (fun d => d.Model) (fun d v => { d with Model := v })
        (jsonMap "Go struct field Dashboard.dashboard of type map[string]interface \x7b\x7d"),
      JSONField.of "folderId" (fun d => d.FolderID) (fun d v => { d with FolderID := v })
        (jsonInt64 "Go struct field Dashboard.folderId of type int64"),
      JSONField.of "folderUid" (fun d => d.FolderUID) (fun d v => { d with FolderUID := v })
        (jsonString "Go struct field Dashboard.folderUid of type string"),
      JSONField.of "overwrite" (fun d => d.Overwrite) (fun d v => { d with Overwrite := v })
        (jsonBool "Go struct field Dashboard.overwrite of type bool"),
      JSONField.of "message" (fun d => d.Message) (fun d v => { d with Message := v })
        (jsonString "Go struct field Dashboard.message of type string")]
    "Go value of type gapi.Dashboard"

/-- The replies of successive calls of `c.request` that are all handed the same
destination, each call finding in it what the call before has left: the calls succeed, and
the body of the `n`-th is decoded in place into the destination. `σ` is the memory that
holds the destination, `view` what the operation reads off it after a call. -/
def repliesInPlace {β σ : Type} (decode : β → σ → σ × Option Error) (view : σ → δ) :
    List β → σ → List (Except Error δ)
  | [], _ => []
  | body :: bodies, s =>
    match decode body s with
    | (s, some err) => .error err :: repliesInPlace decode view bodies s
    | (s, none) => .ok (view s) :: repliesInPlace decode view bodies s

/-- Decoding the document of a page of users into the slice `newUsers`. -/
def decodeUsersPage (unmarshalTime : String → Except Error Time) (doc : JSON)
    (s : Slice UserSearch) : Slice UserSearch × Option Error :=
  let r := jsonSlice (UserSearch.decoder unmarshalTime) UserSearch.zero
    "Go value of type []gapi.UserSearch" doc s
  (r.1, r.2.1)

/-- Decoding the document of a page of dashboards into the slice `newDashboards`. -/
def decodeDashboardsPage (doc : JSON) (s : Slice FolderDashboardSearchResponse) :
    Slice FolderDashboardSearchResponse × Option Error :=
  let r := jsonSlice FolderDashboardSearchResponse.decoder FolderDashboardSearchResponse.zero
    "Go value of type []gapi.FolderDashboardSearchResponse" doc s
  (r.1, r.2.1)

/-- Three pages of users as the server sends them: the user 1 with a name and an email,
the user 2 with neither, and the empty page. -/
def userPages : List JSON :=
  [.arr [.obj [("id", .num 1), ("name", .str "ann"), ("email", .str "ann@example.org")]],
    .arr [.obj [("id", .num 2)]],
    .arr []]

/-- A server that answers with the pages of `userPages`, each decoded into the slice
`newUsers` as the earlier ones left it, and then fails. -/
def userPagesClient (unmarshalTime : String → Except Error Time) :
    Client (List UserSearch) :=
  Client.ofReplies (repliesInPlace (decodeUsersPage unmarshalTime) Slice.items userPages
    Slice.nil) (.error (.errorString "EOF"))

/-- The user 1 of `userPages`. -/
def userAnn : UserSearch :=
  { UserSearch.zero with ID := 1, Name := "ann", Email := "ann@example.org" }

/-- Two pages of dashboards as the server sends them: 1000 times the dashboard 1 with its
title, and the dashboard 2 without a title. -/
def dashboardPages : List JSON :=
  [.arr (List.replicate 1000 (.obj [("id", .num 1), ("title", .str "a")])),
    .arr [.obj [("id", .num 2)]]]

/-- A server that answers with the pages of `dashboardPages`, each decoded into the slice
`newDashboards` as the earlier ones left it, and then fails. -/
def dashboardPagesClient : Client (List FolderDashboardSearchResponse) :=
  Client.ofReplies (repliesInPlace decodeDashboardsPage Slice.items dashboardPages Slice.nil)
    (.error (.errorString "EOF"))

/-- The dashboard 1 of `dashboardPages`. -/
def dashboardOne : FolderDashboardSearchResponse :=
  { FolderDashboardSearchResponse.zero with ID := 1, Title := "a" }

/-- A client whose one call of `c.request` is answered by `dispatch` from a response with
status 200 and the given body, decoded with the given decoder into the destination
`dest`, which is what the operation hands over. -/
def Client.decoding (decoder : Decoder δ) (body : String) (dest : δ) : Client δ :=
  Client.ofReplies [] (dispatchReply (dispatch (jsonUnmarshal decoder) 200 body (some dest)) dest)

/-- The body of a dashboard whose top-level `folderId` differs from the one of its
`meta`. -/
def strayFolderBody : String :=
  "\x7b\"meta\":\x7b\"slug\":\"home\",\"folderId\":9\x7d,\"folderId\":5,\"message\":\"hi\"\x7d"

/-- The dashboard 2 as `DashboardsContext` returns it for `dashboardPages`: with the title
of the dashboard that was in its place before. -/
def dashboardTwoStale : FolderDashboardSearchResponse :=
  { FolderDashboardSearchResponse.zero with ID := 2, Title := "a" }

/-- The dashboard 2 as its own document writes it. -/
def dashboardTwo : FolderDashboardSearchResponse :=
  { FolderDashboardSearchResponse.zero with ID := 2 }

/-- The user 2 as `UsersContext` returns it for `userPages`: with the name and the email of
the user that was in its place before. -/
def userTwoStale : UserSearch :=
  { UserSearch.zero with ID := 2, Name := "ann", Email := "ann@example.org" }

/-- The user 2 as its own document writes it. -/
def userTwo : UserSearch :=
  { UserSearch.zero with ID := 2 }

/-- The dashboard that `strayFolderBody` decodes to, with `FolderID` set to the `folderId`
of its `meta`. -/
def strayFolderResult : Dashboard :=
  ⟨⟨false, "home", 9, ""⟩, [], 9, "", false, "hi"⟩

/-! # Verified properties -/

/-! ## The transport -/

theorem Client.request_client (c : Client δ) (ctx : Context) (method path : String)
    (query : Values) (body : Option Buffer) (dest : δ) :
    (c.request ctx method path query body dest).2.2 =
      c.logged [⟨ctx, method, path, query, body, true⟩] := by
  unfold Client.request
  split <;> rfl

theorem Client.requestNil_client (c : Client δ) (ctx : Context) (method path : String)
    (query : Values) (body : Option Buffer) :
    (c.requestNil ctx method path query body).2 =
      c.logged [⟨ctx, method, path, query, body, false⟩] := by
  unfold Client.requestNil
  split <;> rfl

/-! ## Pagination: `DashboardsContext` -/

theorem Client.logged_logged (c : Client δ) (xs ys : List Call) :
    (c.logged xs).logged ys = c.logged (xs ++ ys) := by
  simp [Client.logged, List.append_assoc]

theorem Client.logged_nil (c : Client δ) : c.logged [] = c := by
  simp [Client.logged]

theorem concatPages_succ_left {α : Type} (p : Nat → List α) (n : Nat) :
    concatPages p (n + 1) = p 0 ++ concatPages (fun i => p (i + 1)) n := by
  simp [concatPages, List.range_succ_eq_map, List.map_map, Function.comp_def]

theorem DashboardsContext.query_set (s v : String) :
    (DashboardsContext.query s).Set "page" v = DashboardsContext.query v := by
  simp [DashboardsContext.query, Values.Set]

/-- The loop of `DashboardsContext` on `k` full pages followed by a short one: started
after page `page`, it makes `k + 1` calls and returns all the items received. -/
theorem DashboardsContext.loop_full_pages {α : Type} (ctx : Context) (p : Nat → List α) :
    ∀ (k fuel page : Nat) (nd ds : List α) (q : Values) (c : Client (List α)),
      (∀ v, q.Set "page" v = DashboardsContext.query v) →
      (∀ i, i ≤ k → c.replies (c.trace.length + i) = .ok (p i)) →
      (∀ i, i < k → DashboardsContext.limit ≤ (p i).length) →
      (p k).length < DashboardsContext.limit →
      k < fuel →
      DashboardsContext.loop ctx fuel page nd ds q c =
        some (ds ++ concatPages p (k + 1), none,
          c.logged ((List.range (k + 1)).map fun i => DashboardsContext.call ctx (page + 1 + i))) := by
  intro k
  induction k generalizing p with
  | zero =>
    intro fuel page nd ds q c hq hr _ hs hf
    obtain ⟨fuel, rfl⟩ : ∃ f, fuel = f + 1 := ⟨fuel - 1, by omega⟩
    have h0 := hr 0 (Nat.le_refl 0)
    simp only [Nat.add_zero] at h0
    simp [DashboardsContext.loop, Client.request, h0, hq, hs, concatPages, Client.logged,
      DashboardsContext.call, List.range_succ, List.range_zero]
  | succ k ih =>
    intro fuel page nd ds q c hq hr hfull hs hf
    obtain ⟨fuel, rfl⟩ : ∃ f, fuel = f + 1 := ⟨fuel - 1, by omega⟩
    have h0 := hr 0 (Nat.zero_le _)
    simp only [Nat.add_zero] at h0
    have hfull0 := hfull 0 (Nat.succ_pos k)
    have hnot : ¬ (p 0).length < DashboardsContext.limit := by omega
    have step := ih (fun i => p (i + 1)) fuel (page + 1) (p 0) (ds ++ p 0)
      (DashboardsContext.query (toString (page + 1)))
      (c.logged [DashboardsContext.call ctx (page + 1)])
      (fun v => DashboardsContext.query_set _ v)
      (by
        intro i hi
        have := hr (i + 1) (by omega)
        simpa [Client.logged, Nat.add_assoc, Nat.add_comm 1 i] using this)
      (fun i hi => hfull (i + 1) (by omega))
      hs (by omega)
    simp only [DashboardsContext.loop, Client.request, h0, hq, hnot, if_false]
    have hc : ({ c with trace := c.trace ++
        [⟨ctx, "GET", "/api/search", DashboardsContext.query (toString (page + 1)), none, true⟩] } :
        Client (List α)) = c.logged [DashboardsContext.call ctx (page + 1)] := rfl
    rw [hc, step, Client.logged_logged, concatPages_succ_left p (k + 1)]
    simp [List.range_succ_eq_map (k + 1), List.map_map, Function.comp_def, Nat.add_assoc,
      Nat.add_comm 1, Nat.add_comm 2]

/-- The loop of `DashboardsContext` on `k` full pages followed by a failing call: it makes
`k + 1` calls and returns the error with no items. -/
theorem DashboardsContext.loop_error {α : Type} (ctx : Context) (e : Error) (p : Nat → List α) :
    ∀ (k fuel page : Nat) (nd ds : List α) (q : Values) (c : Client (List α)),
      (∀ v, q.Set "page" v = DashboardsContext.query v) →
      (∀ i, i < k → c.replies (c.trace.length + i) = .ok (p i)) →
      (∀ i, i < k → DashboardsContext.limit ≤ (p i).length) →
      c.replies (c.trace.length + k) = .error e →
      k < fuel →
      DashboardsContext.loop ctx fuel page nd ds q c =
        some ([], some e,
          c.logged ((List.range (k + 1)).map fun i => DashboardsContext.call ctx (page + 1 + i))) := by
  intro k
  induction k generalizing p with
  | zero =>
    intro fuel page nd ds q c hq _ _ he hf
    obtain ⟨fuel, rfl⟩ : ∃ f, fuel = f + 1 := ⟨fuel - 1, by omega⟩
    simp only [Nat.add_zero] at he
    simp [DashboardsContext.loop, Client.request, he, hq, Client.logged,
      DashboardsContext.call, List.range_succ, List.range_zero]
  | succ k ih =>
    intro fuel page nd ds q c hq hr hfull he hf
    obtain ⟨fuel, rfl⟩ : ∃ f, fuel = f + 1 := ⟨fuel - 1, by omega⟩
    have h0 := hr 0 (Nat.succ_pos k)
    simp only [Nat.add_zero] at h0
    have hfull0 := hfull 0 (Nat.succ_pos k)
    have hnot : ¬ (p 0).length < DashboardsContext.limit := by omega
    have step := ih (fun i => p (i + 1)) fuel (page + 1) (p 0) (ds ++ p 0)
      (DashboardsContext.query (toString (page + 1)))
      (c.logged [DashboardsContext.call ctx (page + 1)])
      (fun v => DashboardsContext.query_set _ v)
      (by
        intro i hi
        have := hr (i + 1) (by omega)
        simpa [Client.logged, Nat.add_assoc, Nat.add_comm 1 i] using this)
      (fun i hi => hfull (i + 1) (by omega))
      (by simpa [Client.logged, Nat.add_assoc, Nat.add_comm 1 k] using he)
      (by omega)
    simp only [DashboardsContext.loop, Client.request, h0, hq, hnot, if_false]
    have hc : ({ c with trace := c.trace ++
        [⟨ctx, "GET", "/api/search", DashboardsContext.query (toString (page + 1)), none, true⟩] } :
        Client (List α)) = c.logged [DashboardsContext.call ctx (page + 1)] := rfl
    rw [hc, step, Client.logged_logged]
    simp [List.range_succ_eq_map (k + 1), List.map_map, Function.comp_def, Nat.add_assoc,
      Nat.add_comm 1, Nat.add_comm 2]

theorem DashboardsContext.initial_query_set (v : String) :
    Values.Set (Values.Set (Values.Set [] "type" "dash-db") "limit"
      (toString DashboardsContext.limit)) "page" v = DashboardsContext.query v := by
  simp [DashboardsContext.query, Values.Set]

theorem jsonElements_replicate {α : Type} (item : Decoder α) (zero x : α) (doc : JSON)
    (hitem : item doc zero = (x, none, false)) :
    ∀ n : Nat, jsonElements item zero (List.replicate n doc) [] none =
      (List.replicate n x, none, false) := by
  intro n
  induction n with
  | zero => rfl
  | succ n ih =>
    simp [List.replicate_succ, jsonElements, hitem, keepFirst, ih]

theorem decodeDashboardsPage_first (n : Nat) :
    decodeDashboardsPage
        (.arr (List.replicate (n + 1) (.obj [("id", .num 1), ("title", .str "a")])))
        Slice.nil =
      (⟨List.replicate (n + 1) dashboardOne, n + 1⟩, none) := by
  have hfirst : FolderDashboardSearchResponse.decoder
      (.obj [("id", .num 1), ("title", .str "a")]) FolderDashboardSearchResponse.zero =
      (dashboardOne, none, false) := rfl
  have helems := jsonElements_replicate FolderDashboardSearchResponse.decoder
    FolderDashboardSearchResponse.zero dashboardOne _ hfirst (n + 1)
  simp only [List.replicate_succ] at helems ⊢
  simp only [decodeDashboardsPage, jsonSlice, Slice.nil, helems]
  simp

theorem decodeDashboardsPage_second (n : Nat) :
    decodeDashboardsPage (.arr [.obj [("id", .num 2)]])
        ⟨List.replicate (n + 1) dashboardOne, n + 1⟩ =
      (⟨dashboardTwoStale :: List.replicate n dashboardOne, 1⟩, none) := by
  have hsecond : FolderDashboardSearchResponse.decoder (.obj [("id", .num 2)]) dashboardOne =
      (dashboardTwoStale, none, false) := rfl
  simp [decodeDashboardsPage, jsonSlice, jsonElements, List.replicate_succ, hsecond,
    keepFirst]

/-- The run of `DashboardsContext` on a first page of `n + 1` times the dashboard 1 and a
second page of the dashboard 2 without a title, each decoded into the slice as the earlier
one left it. -/
theorem DashboardsContext.stale_pages_run (n : Nat) (hn : 1000 ≤ n + 1) :
    DashboardsContext
        (Client.ofReplies
          (repliesInPlace decodeDashboardsPage Slice.items
            [.arr (List.replicate (n + 1) (.obj [("id", .num 1), ("title", .str "a")])),
              .arr [.obj [("id", .num 2)]]] Slice.nil)
          (.error (.errorString "EOF")))
        Context.Background 2 =
      some (List.replicate (n + 1) dashboardOne ++ [dashboardTwoStale], none,
        (Client.ofReplies
          (repliesInPlace decodeDashboardsPage Slice.items
            [.arr (List.replicate (n + 1) (.obj [("id", .num 1), ("title", .str "a")])),
              .arr [.obj [("id", .num 2)]]] Slice.nil)
          (.error (.errorString "EOF"))).logged
          [DashboardsContext.call Context.Background 1,
            DashboardsContext.call Context.Background 2]) := by
  have hscript : repliesInPlace decodeDashboardsPage Slice.items
      [.arr (List.replicate (n + 1) (.obj [("id", .num 1), ("title", .str "a")])),
        .arr [.obj [("id", .num 2)]]] Slice.nil =
      [Except.ok (List.replicate (n + 1) dashboardOne), Except.ok [dashboardTwoStale]] := by
    simp [repliesInPlace, decodeDashboardsPage_first, decodeDashboardsPage_second,
      Slice.items]
  rw [hscript]
  have h := DashboardsContext.loop_full_pages Context.Background
    (fun i => if i = 0 then List.replicate (n + 1) dashboardOne else [dashboardTwoStale])
    1 2 0 [] [] _
    (Client.ofReplies
      [Except.ok (List.replicate (n + 1) dashboardOne), Except.ok [dashboardTwoStale]]
      (.error (.errorString "EOF")))
    DashboardsContext.initial_query_set
    (by
      intro i hi
      interval_cases i <;> rfl)
    (by
      intro i hi
      have hi0 : i = 0 := by omega
      subst hi0
      simp only [DashboardsContext.limit, if_true, List.length_replicate]
      exact hn)
    (by simp [DashboardsContext.limit])
    (by omega)
  simp only [DashboardsContext, h]
  simp [concatPages, List.range_succ]

/-- The run of `DashboardsContext` on the pages of `dashboardPages`. -/
theorem DashboardsContext.stale_run :
    DashboardsContext dashboardPagesClient Context.Background 2 =
      some (List.replicate 1000 dashboardOne ++ [dashboardTwoStale], none,
        dashboardPagesClient.logged
          [DashboardsContext.call Context.Background 1,
            DashboardsContext.call Context.Background 2]) :=
  DashboardsContext.stale_pages_run 999 (Nat.le_refl 1000)

/-- C1, the runs of `DashboardsContext`, the one that shows the defect included. If the
first `j` calls succeed and leave the pages `p 0`, ..., `p (j - 1)` in `newDashboards`, the
last of which is the first with fewer than 1000 items, then `DashboardsContext` makes
exactly `j` calls, for the pages 1, ..., `j` in this order, and returns with a nil error as
many items as these pages hold. But every page is decoded into the same slice, so an item
keeps the fields of the item that was in its place before, where its own document has none.
Against a server whose first page holds 1000 times the dashboard 1 with the title `a`, and
whose second page holds the dashboard 2 without a title, the item returned last is the
dashboard 2 with the title `a`; the second page decoded by itself is the dashboard 2
without a title. -/
theorem DashboardsContext_keeps_stale_fields {α : Type} (c : Client (List α))
    (ctx : Context) (p : Nat → List α) (j fuel : Nat)
    (hj : 0 < j)
    (hr : ∀ i, i < j → c.replies (c.trace.length + i) = .ok (p i))
    (hfull : ∀ i, i + 1 < j → ¬ (p i).length < 1000)
    (hshort : (p (j - 1)).length < 1000)
    (hfuel : j ≤ fuel) :
    (∃ items,
        DashboardsContext c ctx fuel =
          some (items, none,
            c.logged ((List.range j).map fun i => DashboardsContext.call ctx (i + 1))) ∧
        items.length = ((List.range j).map fun i => (p i).length).sum) ∧
      DashboardsContext dashboardPagesClient Context.Background 2 =
        some (List.replicate 1000 dashboardOne ++ [dashboardTwoStale], none,
          dashboardPagesClient.logged
            [DashboardsContext.call Context.Background 1,
              DashboardsContext.call Context.Background 2]) ∧
      dashboardTwoStale.Title = "a" ∧
      (decodeDashboardsPage (.arr [.obj [("id", .num 2)]]) Slice.nil).1.items =
        [dashboardTwo] ∧
      dashboardTwo.Title = "" := by
  refine ⟨?_, DashboardsContext.stale_run, rfl, rfl, rfl⟩
  obtain ⟨k, rfl⟩ : ∃ k, j = k + 1 := ⟨j - 1, by omega⟩
  have h := DashboardsContext.loop_full_pages ctx p k fuel 0 [] [] _ c
    DashboardsContext.initial_query_set
    (fun i hi => hr i (by omega))
    (fun i hi => by
      have := hfull i (by omega)
      simp only [DashboardsContext.limit]; omega)
    (by simpa [DashboardsContext.limit] using hshort)
    (by omega)
  refine ⟨concatPages p (k + 1), ?_, ?_⟩
  · simp only [DashboardsContext, h]
    simp [Nat.add_comm 1]
  · simp [concatPages, List.length_flatten, Function.comp_def]

theorem DashboardsContext_keeps_stale_fields_witness :
    ∃ items,
      DashboardsContext fullThenShortClient Context.Background 2 =
        some (items, none,
          fullThenShortClient.logged
            ((List.range 2).map fun i => DashboardsContext.call Context.Background (i + 1))) ∧
      items.length = ((List.range 2).map fun i => (fullThenShort i).length).sum :=
  (DashboardsContext_keeps_stale_fields fullThenShortClient Context.Background
    fullThenShort 2 2 (by decide)
    (by
      intro i hi
      interval_cases i <;> rfl)
    (by
      intro i hi
      have hi0 : i = 0 := by omega
      subst hi0
      show ¬ (List.replicate 1000 0).length < 1000
      rw [List.length_replicate]
      exact Nat.lt_irrefl 1000)
    (by simp [fullThenShort])
    (Nat.le_refl 2)).1

/-- C5: if the call for page `j` fails with error `e` (the earlier pages having been
received in full), `DashboardsContext` returns no items together with `e`, and exactly `j`
calls have been made. -/
theorem DashboardsContext_error_discards_pages {α : Type} (c : Client (List α))
    (ctx : Context) (p : Nat → List α) (e : Error) (j fuel : Nat)
    (hj : 0 < j)
    (hr : ∀ i, i + 1 < j → c.replies (c.trace.length + i) = .ok (p i))
    (hfull : ∀ i, i + 1 < j → ¬ (p i).length < 1000)
    (herr : c.replies (c.trace.length + (j - 1)) = .error e)
    (hfuel : j ≤ fuel) :
    DashboardsContext c ctx fuel =
      some ([], some e,
        c.logged ((List.range j).map fun i => DashboardsContext.call ctx (i + 1))) := by
  obtain ⟨k, rfl⟩ : ∃ k, j = k + 1 := ⟨j - 1, by omega⟩
  have h := DashboardsContext.loop_error ctx e p k fuel 0 [] [] _ c
    DashboardsContext.initial_query_set
    (fun i hi => hr i (by omega))
    (fun i hi => by
      have := hfull i (by omega)
      simp only [DashboardsContext.limit]; omega)
    (by simpa using herr)
    (by omega)
  simp only [DashboardsContext, h]
  simp [Nat.add_comm 1]

theorem DashboardsContext_error_discards_pages_witness :
    DashboardsContext fullThenErrorClient Context.Background 2 =
      some ([], some (.errorString "EOF"),
        fullThenErrorClient.logged
          ((List.range 2).map fun i => DashboardsContext.call Context.Background (i + 1))) :=
  DashboardsContext_error_discards_pages fullThenErrorClient Context.Background
    fullThenShort (.errorString "EOF") 2 2 (by decide)
    (by
      intro i hi
      have hi0 : i = 0 := by omega
      subst hi0
      rfl)
    (by
      intro i hi
      have hi0 : i = 0 := by omega
      subst hi0
      show ¬ (List.replicate 1000 0).length < 1000
      rw [List.length_replicate]
      exact Nat.lt_irrefl 1000)
    rfl
    (Nat.le_refl 2)

/-! ## Pagination: `UsersContext` -/

/-- The loop of `UsersContext` on `k` non-empty pages followed by an empty one: it makes
`k + 1` calls and returns the items received. -/
theorem UsersContext.loop_until_empty {α : Type} (ctx : Context) (p : Nat → List α) :
    ∀ (k fuel page : Nat) (nu us : List α) (c : Client (List α)),
      0 < page →
      (0 < nu.length ∨ page = 1) →
      (∀ i, i ≤ k → c.replies (c.trace.length + i) = .ok (p i)) →
      (∀ i, i < k → 0 < (p i).length) →
      p k = [] →
      k + 2 ≤ fuel →
      UsersContext.loop ctx fuel page nu us c =
        some (us ++ concatPages p k, none,
          c.logged ((List.range (k + 1)).map fun i => UsersContext.call ctx (page + i))) := by
  intro k
  induction k generalizing p with
  | zero =>
    intro fuel page nu us c hpage hstart hr _ hlast hf
    obtain ⟨fuel, rfl⟩ : ∃ f, fuel = f + 2 := ⟨fuel - 2, by omega⟩
    have h0 := hr 0 (Nat.le_refl 0)
    simp only [Nat.add_zero] at h0
    have hne : page ≠ 0 := by omega
    simp [UsersContext.loop, Client.request, h0, hstart, hlast, hne, concatPages,
      Client.logged, UsersContext.call, List.range_succ, List.range_zero, Values.Add]
  | succ k ih =>
    intro fuel page nu us c hpage hstart hr hfull hlast hf
    obtain ⟨fuel, rfl⟩ : ∃ f, fuel = f + 1 := ⟨fuel - 1, by omega⟩
    have h0 := hr 0 (Nat.zero_le _)
    simp only [Nat.add_zero] at h0
    have hfull0 := hfull 0 (Nat.succ_pos k)
    have step := ih (fun i => p (i + 1)) fuel (page + 1) (p 0) (us ++ p 0)
      (c.logged [UsersContext.call ctx page])
      (by omega) (Or.inl hfull0)
      (by
        intro i hi
        have := hr (i + 1) (by omega)
        simpa [Client.logged, Nat.add_assoc, Nat.add_comm 1 i] using this)
      (fun i hi => hfull (i + 1) (by omega))
      hlast (by omega)
    have hc : ({ c with trace := c.trace ++
        [⟨ctx, "GET", "/api/users", [("page", [toString page])], none, true⟩] } :
        Client (List α)) = c.logged [UsersContext.call ctx page] := rfl
    have hcond : (nu.length > 0 ∨ page = 1) := hstart
    simp only [UsersContext.loop, Client.request, h0, hcond, if_true, Values.Add]
    rw [hc, step, Client.logged_logged, concatPages_succ_left p k]
    simp [List.range_succ_eq_map (k + 1), List.map_map, Function.comp_def, Nat.add_assoc,
      Nat.add_comm 1]

/-- C2, as stated, fails: after a first page of one user (fewer than any page size above
one) `UsersContext` asks for page 2, and on pages of sizes 2, 2, 2, 1 it makes a fifth
call. -/
theorem UsersContext_short_page_does_not_stop :
    observe (UsersContext oneUserClient Context.Background 3) =
        some ([7], none,
          [UsersContext.call Context.Background 1, UsersContext.call Context.Background 2]) ∧
      observe (UsersContext sevenUsersClient Context.Background 6) =
        some ([1, 2, 3, 4, 5, 6, 7], none,
          (List.range 5).map fun i => UsersContext.call Context.Background (i + 1)) := by
  constructor <;> rfl

/-- C2, amended: `UsersContext` stops at the first empty page. When the first four calls
leave pages of the sizes `N, N, N, k` with `0 < N`, it makes exactly 4 calls and returns
`3N` users when `k = 0`; when `0 < k` and the fifth call leaves the empty page it makes
exactly 5 calls and returns `3N + k` users; and when the first page is empty it returns no
users after exactly one call. The error is nil throughout. -/
theorem UsersContext_four_pages {α : Type} (c : Client (List α)) (ctx : Context)
    (p1 p2 p3 p4 : List α) (N k fuel : Nat)
    (hN : 0 < N) (h1 : p1.length = N) (h2 : p2.length = N) (h3 : p3.length = N)
    (h4 : p4.length = k)
    (hr1 : c.replies c.trace.length = .ok p1)
    (hr2 : c.replies (c.trace.length + 1) = .ok p2)
    (hr3 : c.replies (c.trace.length + 2) = .ok p3)
    (hr4 : c.replies (c.trace.length + 3) = .ok p4)
    (hfuel : 6 ≤ fuel) :
    (k = 0 → ∃ users,
        UsersContext c ctx fuel =
          some (users, none,
            c.logged ((List.range 4).map fun i => UsersContext.call ctx (i + 1))) ∧
        users.length = 3 * N) ∧
      (0 < k → c.replies (c.trace.length + 4) = .ok [] → ∃ users,
        UsersContext c ctx fuel =
          some (users, none,
            c.logged ((List.range 5).map fun i => UsersContext.call ctx (i + 1))) ∧
        users.length = 3 * N + k) ∧
      (∀ c0 : Client (List α), c0.replies c0.trace.length = .ok [] →
        UsersContext c0 ctx fuel = some ([], none, c0.logged [UsersContext.call ctx 1])) := by
  refine ⟨?_, ?_, ?_⟩
  · intro hk
    have hp4 : p4 = [] := List.length_eq_zero.mp (by omega)
    have h := UsersContext.loop_until_empty ctx (fun i => [p1, p2, p3, p4].getD i []) 3 fuel 1 [] [] c
      (by decide) (Or.inr rfl)
      (by
        intro i hi
        interval_cases i <;> simp [hr1, hr2, hr3, hr4])
      (by
        intro i hi
        interval_cases i <;> simp <;> omega)
      (by simp [hp4]) (by omega)
    refine ⟨p1 ++ p2 ++ p3, ?_, ?_⟩
    · simp only [UsersContext, h]
      simp [concatPages, List.range_succ, Nat.add_comm 1]
    · simp only [List.length_append, h1, h2, h3]
      omega
  · intro hk hr5
    have h := UsersContext.loop_until_empty ctx (fun i => [p1, p2, p3, p4].getD i []) 4 fuel 1 [] [] c
      (by decide) (Or.inr rfl)
      (by
        intro i hi
        interval_cases i <;> simp [hr1, hr2, hr3, hr4, hr5])
      (by
        intro i hi
        interval_cases i <;> simp <;> omega)
      (by simp) (by omega)
    refine ⟨p1 ++ p2 ++ p3 ++ p4, ?_, ?_⟩
    · simp only [UsersContext, h]
      simp [concatPages, List.range_succ, Nat.add_comm 1]
    · simp only [List.length_append, h1, h2, h3, h4]
      omega
  · intro c0 hr
    have h := UsersContext.loop_until_empty ctx (fun _ => ([] : List α)) 0 fuel 1 [] [] c0
      (by decide) (Or.inr rfl)
      (by
        intro i hi
        have hi0 : i = 0 := by omega
        subst hi0
        simpa using hr)
      (by intro i hi; omega)
      rfl (by omega)
    simp only [UsersContext, h]
    simp [concatPages, List.range_succ]

theorem UsersContext_four_pages_witness :
    ∃ users,
      UsersContext sevenUsersClient Context.Background 6 =
        some (users, none,
          sevenUsersClient.logged
            ((List.range 5).map fun i => UsersContext.call Context.Background (i + 1))) ∧
      users.length = 3 * 2 + 1 :=
  (UsersContext_four_pages sevenUsersClient Context.Background [1, 2] [3, 4] [5, 6] [7]
    2 1 6 (by decide) rfl rfl rfl rfl rfl rfl rfl rfl (Nat.le_refl 6)).2.1 (by decide) rfl

/-- C4, the run that shows the defect: the first page holds user 7 and the call for page 2
fails with `EOF`; `UsersContext` returns the error together with the user of page 1, after
two calls. -/
theorem UsersContext_error_keeps_pages :
    observe (UsersContext oneUserThenErrorClient Context.Background 3) =
      some ([7], some (.errorString "EOF"),
        [UsersContext.call Context.Background 1, UsersContext.call Context.Background 2]) := by
  rfl

/-! ## Contexts -/

/-- C3, the runs that show the defect: called with a context other than the background
context, `DashboardContext`, `DashboardByUIDContext`, `DashboardsByIDsContext`,
`DeleteDashboardContext` and `DeleteDashboardByUIDContext` each make their call of
`c.request` with `context.Background()`. -/
theorem dashboard_operations_drop_context :
    (DashboardContext (Client.always (some Dashboard.zero)) (Context.WithCancel 1)
          "home").2.2.trace =
        [⟨Context.Background, "GET", "/api/dashboards/db/home", [], none, true⟩] ∧
      (DashboardByUIDContext (Client.always (some Dashboard.zero)) (Context.WithCancel 1)
          "abc").2.2.trace =
        [⟨Context.Background, "GET", "/api/dashboards/uid/abc", [], none, true⟩] ∧
      (DashboardsByIDsContext (fun _ => .ok "[1,2]") (Client.always ([] : List Nat))
          (Context.WithCancel 1) [1, 2]).2.2.trace =
        [⟨Context.Background, "GET", "/api/search",
          [("type", ["dash-db"]), ("dashboardIds", ["[1,2]"])], none, true⟩] ∧
      (DeleteDashboardContext (Client.always ()) (Context.WithCancel 1) "home").2.trace =
        [⟨Context.Background, "DELETE", "/api/dashboards/db/home", [], none, false⟩] ∧
      (DeleteDashboardByUIDContext (Client.always ()) (Context.WithCancel 1) "abc").2.trace =
        [⟨Context.Background, "DELETE", "/api/dashboards/uid/abc", [], none, false⟩] := by
  refine ⟨?_, ?_, ?_, ?_, ?_⟩ <;> rfl

/-! ## Folders -/

/-- C8: with more than one `uid` argument `NewFolderContext` returns the zero `Folder` and
the error "too many arguments. Expected 1 or 2" without calling `c.request`; with zero or
one `uid` it makes exactly one call, `POST /api/folders`. -/
theorem NewFolderContext_arity_check (c : Client Folder) (ctx : Context) (title : String)
    (uid : List String) :
    (1 < uid.length → ∀ jsonMarshal,
        NewFolderContext jsonMarshal c ctx title uid =
          (Folder.zero, some (.errorString "too many arguments. Expected 1 or 2"), c)) ∧
      (uid.length ≤ 1 → ∃ body,
        (NewFolderContext jsonMarshalFolderPayload c ctx title uid).2.2 =
          c.logged [⟨ctx, "POST", "/api/folders", [], some body, true⟩]) := by
  constructor
  · intro h jsonMarshal
    simp [NewFolderContext, h]
  · intro h
    have hnot : ¬ uid.length > 1 := by omega
    simp only [NewFolderContext, hnot, if_false, jsonMarshalFolderPayload,
      Client.request_client]
    exact ⟨_, rfl⟩

theorem NewFolderContext_arity_check_witness :
    NewFolderContext jsonMarshalFolderPayload (Client.always Folder.zero) Context.Background
        "ops" ["a", "b"] =
      (Folder.zero, some (.errorString "too many arguments. Expected 1 or 2"),
        Client.always Folder.zero) :=
  (NewFolderContext_arity_check (Client.always Folder.zero) Context.Background "ops"
    ["a", "b"]).1 (by decide) jsonMarshalFolderPayload

/-- C9, the run that shows the defect: called with two `newUID` arguments,
`UpdateFolderContext` returns a nil error and has made the call `PUT /api/folders/f1`, with
a body that carries neither of the two. -/
theorem UpdateFolderContext_two_newUIDs :
    (UpdateFolderContext jsonMarshalFolderPayload (Client.always ()) Context.Background
        "f1" "ops" ["a", "b"]).1 = none ∧
      (UpdateFolderContext jsonMarshalFolderPayload (Client.always ()) Context.Background
        "f1" "ops" ["a", "b"]).2.trace =
        [⟨Context.Background, "PUT", "/api/folders/f1", [],
          some (.ofData (.obj [("title", .str "ops"), ("overwrite", .bool true)])), false⟩] := by
  constructor <;> rfl

theorem jsonMarshalFolderPayload_members (title uid : String) (overwrite : Bool) :
    ∃ doc, jsonMarshalFolderPayload ⟨title, uid, overwrite⟩ = .ok doc ∧
      doc.get? "title" = some (.str title) ∧
      (doc.hasKey "uid" = true ↔ uid ≠ "") ∧
      (∀ v, doc.get? "uid" = some v → v = .str uid ∧ uid ≠ "") ∧
      (doc.hasKey "overwrite" = overwrite) ∧
      (∀ v, doc.get? "overwrite" = some v → v = .bool true) := by
  refine ⟨_, rfl, ?_⟩
  by_cases hu : uid = "" <;> cases overwrite <;>
    simp [JSON.get?, JSON.hasKey, hu, List.find?]

/-- C10: folder payloads follow omit-if-empty. The body that `NewFolderContext` sends (it
sends one when given at most one `uid`) has the member "title", has the member "uid" exactly
when one non-empty uid was given, and has no member "overwrite". The body that
`UpdateFolderContext` sends has "title", has "overwrite" with the value `true`, and has
"uid" exactly when one non-empty newUID was given. Whenever "uid" is present its value is a
non-empty string. -/
theorem folder_payloads_omit_empty (ctx : Context) (title : String) (uids : List String) :
    (∀ c : Client Folder, uids.length ≤ 1 → ∃ doc,
        (NewFolderContext jsonMarshalFolderPayload c ctx title uids).2.2 =
          c.logged [⟨ctx, "POST", "/api/folders", [], some (.ofData doc), true⟩] ∧
        doc.get? "title" = some (.str title) ∧
        (doc.hasKey "uid" = true ↔ ∃ u, uids = [u] ∧ u ≠ "") ∧
        (∀ v, doc.get? "uid" = some v → ∃ u, v = .str u ∧ u ≠ "") ∧
        doc.hasKey "overwrite" = false) ∧
      (∀ (c : Client Unit) (uid : String), ∃ doc,
        (UpdateFolderContext jsonMarshalFolderPayload c ctx uid title uids).2 =
          c.logged [⟨ctx, "PUT", "/api/folders/" ++ uid, [], some (.ofData doc), false⟩] ∧
        doc.get? "title" = some (.str title) ∧
        (doc.hasKey "uid" = true ↔ ∃ u, uids = [u] ∧ u ≠ "") ∧
        (∀ v, doc.get? "uid" = some v → ∃ u, v = .str u ∧ u ≠ "") ∧
        doc.get? "overwrite" = some (.bool true)) := by
  constructor
  · intro c hlen
    have hnot : ¬ uids.length > 1 := by omega
    rcases uids with _ | ⟨u, _ | ⟨v, rest⟩⟩
    · obtain ⟨doc, hdoc, ht, hu, hv, ho, _⟩ := jsonMarshalFolderPayload_members title "" false
      refine ⟨doc, ?_, ht, ?_, ?_, ho⟩
      · simp [NewFolderContext, hdoc, Client.request_client]
      · simpa using hu
      · intro v hv1
        exact absurd rfl (hv v hv1).2
    · obtain ⟨doc, hdoc, ht, hu, hv, ho, _⟩ := jsonMarshalFolderPayload_members title u false
      refine ⟨doc, ?_, ht, ?_, ?_, ho⟩
      · simp [NewFolderContext, hdoc, Client.request_client]
      · simpa using hu
      · intro v hv1
        exact ⟨u, hv v hv1⟩
    · simp at hlen
  · intro c uid
    rcases uids with _ | ⟨u, _ | ⟨v, rest⟩⟩
    · obtain ⟨doc, hdoc, ht, hu, hv, ho, hov⟩ := jsonMarshalFolderPayload_members title "" true
      refine ⟨doc, ?_, ht, ?_, ?_, ?_⟩
      · simp [UpdateFolderContext, hdoc, Client.requestNil_client]
      · simpa using hu
      · intro v hv1
        exact absurd rfl (hv v hv1).2
      · simp only [JSON.hasKey, Option.isSome_iff_exists] at ho
        obtain ⟨v, hv1⟩ := ho
        rw [hv1, hov v hv1]
    · obtain ⟨doc, hdoc, ht, hu, hv, ho, hov⟩ := jsonMarshalFolderPayload_members title u true
      refine ⟨doc, ?_, ht, ?_, ?_, ?_⟩
      · simp [UpdateFolderContext, hdoc, Client.requestNil_client]
      · simpa using hu
      · intro v hv1
        exact ⟨u, hv v hv1⟩
      · simp only [JSON.hasKey, Option.isSome_iff_exists] at ho
        obtain ⟨v, hv1⟩ := ho
        rw [hv1, hov v hv1]
    · obtain ⟨doc, hdoc, ht, hu, hv, ho, hov⟩ := jsonMarshalFolderPayload_members title "" true
      refine ⟨doc, ?_, ht, ?_, ?_, ?_⟩
      · simp [UpdateFolderContext, hdoc, Client.requestNil_client]
      · simpa using hu
      · intro v hv1
        exact absurd rfl (hv v hv1).2
      · simp only [JSON.hasKey, Option.isSome_iff_exists] at ho
        obtain ⟨v, hv1⟩ := ho
        rw [hv1, hov v hv1]

theorem folder_payloads_omit_empty_witness :
    ∃ doc,
      (NewFolderContext jsonMarshalFolderPayload (Client.always Folder.zero)
          Context.Background "ops" ["f1"]).2.2 =
        (Client.always Folder.zero).logged
          [⟨Context.Background, "POST", "/api/folders", [], some (.ofData doc), true⟩] ∧
      doc.get? "title" = some (.str "ops") ∧
      (doc.hasKey "uid" = true ↔ ∃ u, ["f1"] = [u] ∧ u ≠ "") ∧
      (∀ v, doc.get? "uid" = some v → ∃ u, v = .str u ∧ u ≠ "") ∧
      doc.hasKey "overwrite" = false :=
  (folder_payloads_omit_empty Context.Background "ops" ["f1"]).1 (Client.always Folder.zero)
    (by decide)

/-! ## Every operation -/

/-- `IsCloudPluginInstalledContext` makes no call of `c.request`, and sends at most one
request itself. -/
theorem IsCloudPluginInstalledContext_client (c : Client δ) (ctx : Context)
    (stackSlug pluginSlug : String) :
    (IsCloudPluginInstalledContext c ctx stackSlug pluginSlug).2.2.trace = c.trace ∧
      ((IsCloudPluginInstalledContext c ctx stackSlug pluginSlug).2.2.sent = c.sent ∨
        ∃ req, (IsCloudPluginInstalledContext c ctx stackSlug pluginSlug).2.2.sent =
          c.sent ++ [req]) := by
  rcases hnr : c.newRequestErr ⟨ctx, "GET",
    "/api/instances/" ++ stackSlug ++ "/plugins/" ++ pluginSlug, [], none, false⟩ with _ | err
  · rcases hdo : c.doReplies c.sent.length with err | resp
    · simp [IsCloudPluginInstalledContext, Client.newRequest, Client.Do, hnr, hdo]
    · by_cases h200 : resp.StatusCode = 200
      · simp [IsCloudPluginInstalledContext, Client.newRequest, Client.Do, hnr, hdo, h200]
      · by_cases h404 : resp.StatusCode = 404
        · simp [IsCloudPluginInstalledContext, Client.newRequest, Client.Do, hnr, hdo, h404]
        · rcases hb : resp.Body with err | body <;>
            simp [IsCloudPluginInstalledContext, Client.newRequest, Client.Do, hnr, hdo, h200,
              h404, hb]
  · simp [IsCloudPluginInstalledContext, Client.newRequest, hnr]

set_option maxHeartbeats 4000000 in
/-- What one invocation of an operation does to the client, case by case: when marshalling
the payload fails the client is left as it was and an error is returned; otherwise an
operation that goes through `c.request` logs at most one call, and exactly one once its
argument check has passed; `IsCloudPluginInstalledContext` logs no call of `c.request` and
sends at most one request itself. -/
theorem Operation.run_effect {π δ : Type} [Inhabited δ] (op : Operation π δ)
    (c : Client op.Dest) :
    (∀ e, op.marshalResult = some (.error e) →
        (op.run c).2 = c ∧ ∃ err, (op.run c).1 = some err ∧
          ((∀ jsonMarshal ctx title uid,
              op = .NewFolderContext jsonMarshal ctx title uid → uid.length ≤ 1) →
            err = e ∨ err.Unwrap = some e)) ∧
      ((∀ ctx stackSlug pluginSlug,
          op ≠ .IsCloudPluginInstalledContext ctx stackSlug pluginSlug) →
        ((op.run c).2 = c ∨ ∃ call, (op.run c).2 = c.logged [call]) ∧
        ((∀ jsonMarshal ctx title uid,
            op = .NewFolderContext jsonMarshal ctx title uid → uid.length ≤ 1) →
          (∀ e, op.marshalResult ≠ some (.error e)) →
          ∃ call, (op.run c).2 = c.logged [call])) ∧
      (∀ ctx stackSlug pluginSlug,
        op = .IsCloudPluginInstalledContext ctx stackSlug pluginSlug →
        (op.run c).2.trace = c.trace ∧
        ((op.run c).2.sent = c.sent ∨ ∃ req, (op.run c).2.sent = c.sent ++ [req])) := by
  cases op
  case CreateUserContext jsonMarshal ctx user =>
    rcases hrep : c.replies c.trace.length with e | v <;>
    rcases hjm : jsonMarshal user with e2 | data <;>
    simp [Operation.run, Operation.marshalResult, Client.request, Client.requestNil,
      Client.logged, Except.map, Gapi.CreateUserContext, hrep, hjm]
  case DeleteUserContext ctx id =>
    rcases hrep : c.replies c.trace.length with e | v <;>
    simp [Operation.run, Operation.marshalResult, Client.request, Client.requestNil,
      Client.logged, Except.map, Gapi.DeleteUserContext, hrep]
  case UpdateUserPasswordContext jsonMarshal ctx id password =>
    rcases hrep : c.replies c.trace.length with e | v <;>
    rcases hjm : jsonMarshal ([("password", password)]) with e2 | data <;>
    simp [Operation.run, Operation.marshalResult, Client.request, Client.requestNil,
      Client.logged, Except.map, Gapi.UpdateUserPasswordContext, hrep, hjm]
  case UpdateUserPermissionsContext jsonMarshal ctx id isAdmin =>
    rcases hrep : c.replies c.trace.length with e | v <;>
    rcases hjm : jsonMarshal ([("isGrafanaAdmin", isAdmin)]) with e2 | data <;>
    simp [Operation.run, Operation.marshalResult, Client.request, Client.requestNil,
      Client.logged, Except.map, Gapi.UpdateUserPermissionsContext, hrep, hjm]
  case PauseAllAlertsContext jsonMarshal ctx =>
    rcases hrep : c.replies c.trace.length with e | v <;>
    rcases hjm : jsonMarshal ({ Paused := true } : PauseAlertRequest) with e2 | data <;>
    simp [Operation.run, Operation.marshalResult, Client.request, Client.requestNil,
      Client.logged, Except.map, Gapi.PauseAllAlertsContext, hrep, hjm]
  case AlertRuleContext ctx uid =>
    rcases hrep : c.replies c.trace.length with e | v <;>
    simp [Operation.run, Operation.marshalResult, Client.request, Client.requestNil,
      Client.logged, Except.map, Gapi.AlertRuleContext, hrep]
  case AlertRuleGroupContext ctx folderUID name =>
    rcases hrep : c.replies c.trace.length with e | v <;>
    simp [Operation.run, Operation.marshalResult, Client.request, Client.requestNil,
      Client.logged, Except.map, Gapi.AlertRuleGroupContext, hrep]
  case SetAlertRuleGroupContext jsonMarshal ctx group =>
    rcases hrep : c.replies c.trace.length with e | v <;>
    rcases hjm : jsonMarshal (syncCalculatedRuleGroupFields group) with e2 | data <;>
    simp [Operation.run, Operation.marshalResult, Client.request, Client.requestNil,
      Client.logged, Except.map, Gapi.SetAlertRuleGroupContext, hrep, hjm]
  case NewAlertRuleContext jsonMarshal ctx ar =>
    rcases hrep : c.replies c.trace.length with e | v <;>
    rcases hjm : jsonMarshal (syncCalculatedRuleFields ar) with e2 | data <;>
    simp [Operation.run, Operation.marshalResult, Client.request, Client.requestNil,
      Client.logged, Except.map, Gapi.NewAlertRuleContext, hrep, hjm]
  case UpdateAlertRuleContext jsonMarshal ctx ar =>
    rcases hrep : c.replies c.trace.length with e | v <;>
    rcases hjm : jsonMarshal (syncCalculatedRuleFields ar) with e2 | data <;>
    simp [Operation.run, Operation.marshalResult, Client.request, Client.requestNil,
      Client.logged, Except.map, Gapi.UpdateAlertRuleContext, hrep, hjm]
  case DeleteAlertRuleContext ctx uid =>
    rcases hrep : c.replies c.trace.length with e | v <;>
    simp [Operation.run, Operation.marshalResult, Client.request, Client.requestNil,
      Client.logged, Except.map, Gapi.DeleteAlertRuleContext, hrep]
  case MessageTemplatesContext ctx =>
    rcases hrep : c.replies c.trace.length with e | v <;>
    simp [Operation.run, Operation.marshalResult, Client.request, Client.requestNil,
      Client.logged, Except.map, Gapi.MessageTemplatesContext, hrep]
  case MessageTemplateContext ctx name =>
    rcases hrep : c.replies c.trace.length with e | v <;>
    simp [Operation.run, Operation.marshalResult, Client.request, Client.requestNil,
      Client.logged, Except.map, Gapi.MessageTemplateContext, hrep]
  case SetMessageTemplateContext jsonMarshal ctx name content =>
    rcases hrep : c.replies c.trace.length with e | v <;>
    rcases hjm : jsonMarshal ({ Template := content } : TemplateRequest) with e2 | data <;>
    simp [Operation.run, Operation.marshalResult, Client.request, Client.requestNil,
      Client.logged, Except.map, Gapi.SetMessageTemplateContext, hrep, hjm]
  case DeleteMessageTemplateContext ctx name =>
    rcases hrep : c.replies c.trace.length with e | v <;>
    simp [Operation.run, Operation.marshalResult, Client.request, Client.requestNil,
      Client.logged, Except.map, Gapi.DeleteMessageTemplateContext, hrep]
  case MuteTimingsContext ctx =>
    rcases hrep : c.replies c.trace.length with e | v <;>
    simp [Operation.run, Operation.marshalResult, Client.request, Client.requestNil,
      Client.logged, Except.map, Gapi.MuteTimingsContext, hrep]
  case MuteTimingContext ctx name =>
    rcases hrep : c.replies c.trace.length with e | v <;>
    simp [Operation.run, Operation.marshalResult, Client.request, Client.requestNil,
      Client.logged, Except.map, Gapi.MuteTimingContext, hrep]
  case NewMuteTimingContext jsonMarshal ctx mt =>
    rcases hrep : c.replies c.trace.length with e | v <;>
    rcases hjm : jsonMarshal mt with e2 | data <;>
    simp [Operation.run, Operation.marshalResult, Client.request, Client.requestNil,
      Client.logged, Except.map, Gapi.NewMuteTimingContext, hrep, hjm]
  case UpdateMuteTimingContext jsonMarshal ctx mt =>
    rcases hrep : c.replies c.trace.length with e | v <;>
    rcases hjm : jsonMarshal mt with e2 | data <;>
    simp [Operation.run, Operation.marshalResult, Client.request, Client.requestNil,
      Client.logged, Except.map, Gapi.UpdateMuteTimingContext, hrep, hjm]
  case DeleteMuteTimingContext ctx name =>
    rcases hrep : c.replies c.trace.length with e | v <;>
    simp [Operation.run, Operation.marshalResult, Client.request, Client.requestNil,
      Client.logged, Except.map, Gapi.DeleteMuteTimingContext, hrep]
  case AlertNotificationsContext ctx =>
    rcases hrep : c.replies c.trace.length with e | v <;>
    simp [Operation.run, Operation.marshalResult, Client.request, Client.requestNil,
      Client.logged, Except.map, Gapi.AlertNotificationsContext, hrep]
  case AlertNotificationContext ctx id =>
    rcases hrep : c.replies c.trace.length with e | v <;>
    simp [Operation.run, Operation.marshalResult, Client.request, Client.requestNil,
      Client.logged, Except.map, Gapi.AlertNotificationContext, hrep]
  case NewAlertNotificationContext jsonMarshal ctx a =>
    rcases hrep : c.replies c.trace.length with e | v <;>
    rcases hjm : jsonMarshal a with e2 | data <;>
    simp [Operation.run, Operation.marshalResult, Client.request, Client.requestNil,
      Client.logged, Except.map, Gapi.NewAlertNotificationContext, hrep, hjm]
  case UpdateAlertNotificationContext jsonMarshal ctx a =>
    rcases hrep : c.replies c.trace.length with e | v <;>
    rcases hjm : jsonMarshal a with e2 | data <;>
    simp [Operation.run, Operation.marshalResult, Client.request, Client.requestNil,
      Client.logged, Except.map, Gapi.UpdateAlertNotificationContext, hrep, hjm]
  case DeleteAlertNotificationContext ctx id =>
    rcases hrep : c.replies c.trace.length with e | v <;>
    simp [Operation.run, Operation.marshalResult, Client.request, Client.requestNil,
      Client.logged, Except.map, Gapi.DeleteAlertNotificationContext, hrep]
  case AnnotationsContext ctx params =>
    rcases hrep : c.replies c.trace.length with e | v <;>
    simp [Operation.run, Operation.marshalResult, Client.request, Client.requestNil,
      Client.logged, Except.map, Gapi.AnnotationsContext, hrep]
  case NewAnnotationContext jsonMarshal ctx a =>
    rcases hrep : c.replies c.trace.length with e | v <;>
    rcases hjm : jsonMarshal a with e2 | data <;>
    simp [Operation.run, Operation.marshalResult, Client.request, Client.requestNil,
      Client.logged, Except.map, Gapi.NewAnnotationContext, hrep, hjm]
  case NewGraphiteAnnotationContext jsonMarshal ctx gfa =>
    rcases hrep : c.replies c.trace.length with e | v <;>
    rcases hjm : jsonMarshal gfa with e2 | data <;>
    simp [Operation.run, Operation.marshalResult, Client.request, Client.requestNil,
      Client.logged, Except.map, Gapi.NewGraphiteAnnotationContext, hrep, hjm]
  case UpdateAnnotationContext jsonMarshal ctx id a =>
    rcases hrep : c.replies c.trace.length with e | v <;>
    rcases hjm : jsonMarshal a with e2 | data <;>
    simp [Operation.run, Operation.marshalResult, Client.request, Client.requestNil,
      Client.logged, Except.map, Gapi.UpdateAnnotationContext, hrep, hjm]
  case PatchAnnotationContext jsonMarshal ctx id a =>
    rcases hrep : c.replies c.trace.length with e | v <;>
    rcases hjm : jsonMarshal a with e2 | data <;>
    simp [Operation.run, Operation.marshalResult, Client.request, Client.requestNil,
      Client.logged, Except.map, Gapi.PatchAnnotationContext, hrep, hjm]
  case DeleteAnnotationContext ctx id =>
    rcases hrep : c.replies c.trace.length with e | v <;>
    simp [Operation.run, Operation.marshalResult, Client.request, Client.requestNil,
      Client.logged, Except.map, Gapi.DeleteAnnotationContext, hrep]
  case DeleteAnnotationByRegionIDContext ctx id =>
    rcases hrep : c.replies c.trace.length with e | v <;>
    simp [Operation.run, Operation.marshalResult, Client.request, Client.requestNil,
      Client.logged, Except.map, Gapi.DeleteAnnotationByRegionIDContext, hrep]
  case CreateAPIKeyContext jsonMarshal ctx request =>
    rcases hrep : c.replies c.trace.length with e | v <;>
    rcases hjm : jsonMarshal request with e2 | data <;>
    simp [Operation.run, Operation.marshalResult, Client.request, Client.requestNil,
      Client.logged, Except.map, Gapi.CreateAPIKeyContext, hrep, hjm]
  case GetAPIKeysContext ctx includeExpired =>
    rcases hrep : c.replies c.trace.length with e | v <;>
    simp [Operation.run, Operation.marshalResult, Client.request, Client.requestNil,
      Client.logged, Except.map, Gapi.GetAPIKeysContext, hrep]
  case DeleteAPIKeyContext ctx id =>
    rcases hrep : c.replies c.trace.length with e | v <;>
    simp [Operation.run, Operation.marshalResult, Client.request, Client.requestNil,
      Client.logged, Except.map, Gapi.DeleteAPIKeyContext, hrep]
  case GetBuiltInRoleAssignmentsContext ctx =>
    rcases hrep : c.replies c.trace.length with e | v <;>
    simp [Operation.run, Operation.marshalResult, Client.request, Client.requestNil,
      Client.logged, Except.map, Gapi.GetBuiltInRoleAssignmentsContext, hrep]
  case NewBuiltInRoleAssignmentContext jsonMarshal ctx builtInRoleAssignment =>
    rcases hrep : c.replies c.trace.length with e | v <;>
    rcases hjm : jsonMarshal builtInRoleAssignment with e2 | data <;>
    simp [Operation.run, Operation.marshalResult, Client.request, Client.requestNil,
      Client.logged, Except.map, Gapi.NewBuiltInRoleAssignmentContext, hrep, hjm]
  case DeleteBuiltInRoleAssignmentContext jsonMarshal ctx builtInRole =>
    rcases hrep : c.replies c.trace.length with e | v <;>
    rcases hjm : jsonMarshal builtInRole with e2 | data <;>
    simp [Operation.run, Operation.marshalResult, Client.request, Client.requestNil,
      Client.logged, Except.map, Gapi.DeleteBuiltInRoleAssignmentContext, hrep, hjm]
  case CreateCloudAPIKeyContext jsonMarshal ctx org input =>
    rcases hrep : c.replies c.trace.length with e | v <;>
    rcases hjm : jsonMarshal input with e2 | data <;>
    simp [Operation.run, Operation.marshalResult, Client.request, Client.requestNil,
      Client.logged, Except.map, Gapi.CreateCloudAPIKeyContext, hrep, hjm]
  case ListCloudAPIKeysContext ctx org =>
    rcases hrep : c.replies c.trace.length with e | v <;>
    simp [Operation.run, Operation.marshalResult, Client.request, Client.requestNil,
      Client.logged, Except.map, Gapi.ListCloudAPIKeysContext, hrep]
  case DeleteCloudAPIKeyContext ctx org keyName =>
    rcases hrep : c.replies c.trace.length with e | v <;>
    simp [Operation.run, Operation.marshalResult, Client.request, Client.requestNil,
      Client.logged, Except.map, Gapi.DeleteCloudAPIKeyContext, hrep]
  case InstallCloudPluginContext jsonMarshal ctx stackSlug pluginSlug pluginVersion =>
    rcases hrep : c.replies c.trace.length with e | v <;>
    rcases hjm : jsonMarshal ({ Plugin := pluginSlug, Version := pluginVersion } : InstallPluginRequest) with e2 | data <;>
    simp [Operation.run, Operation.marshalResult, Client.request, Client.requestNil,
      Client.logged, Except.map, Gapi.InstallCloudPluginContext, hrep, hjm]
  case UninstallCloudPluginContext ctx stackSlug pluginSlug =>
    rcases hrep : c.replies c.trace.length with e | v <;>
    simp [Operation.run, Operation.marshalResult, Client.request, Client.requestNil,
      Client.logged, Except.map, Gapi.UninstallCloudPluginContext, hrep]
  case IsCloudPluginInstalledContext ctx stackSlug pluginSlug =>
    refine ⟨by simp [Operation.marshalResult], by simp, fun _ _ _ _ => ?_⟩
    exact IsCloudPluginInstalledContext_client c ctx stackSlug pluginSlug
  case GetCloudPluginInstallationContext ctx stackSlug pluginSlug =>
    rcases hrep : c.replies c.trace.length with e | v <;>
    simp [Operation.run, Operation.marshalResult, Client.request, Client.requestNil,
      Client.logged, Except.map, Gapi.GetCloudPluginInstallationContext, hrep]
  case PluginBySlugContext ctx slug =>
    rcases hrep : c.replies c.trace.length with e | v <;>
    simp [Operation.run, Operation.marshalResult, Client.request, Client.requestNil,
      Client.logged, Except.map, Gapi.PluginBySlugContext, hrep]
  case PluginByIDContext ctx pluginID =>
    rcases hrep : c.replies c.trace.length with e | v <;>
    simp [Operation.run, Operation.marshalResult, Client.request, Client.requestNil,
      Client.logged, Except.map, Gapi.PluginByIDContext, hrep]
  case SaveDashboardContext jsonMarshal ctx model overwrite =>
    rcases hrep : c.replies c.trace.length with e | v <;>
    rcases hjm : jsonMarshal ({ dashboard := model, overwrite := overwrite } : SaveDashboardWrapper π) with e2 | data <;>
    simp [Operation.run, Operation.marshalResult, Client.request, Client.requestNil,
      Client.logged, Except.map, Gapi.SaveDashboardContext, hrep, hjm]
  case NewDashboardContext jsonMarshal ctx dashboard =>
    rcases hrep : c.replies c.trace.length with e | v <;>
    rcases hjm : jsonMarshal dashboard with e2 | data <;>
    simp [Operation.run, Operation.marshalResult, Client.request, Client.requestNil,
      Client.logged, Except.map, Gapi.NewDashboardContext, hrep, hjm]
  case DashboardContext ctx slug =>
    rcases hrep : c.replies c.trace.length with e | (_ | v) <;>
    simp [Operation.run, Operation.marshalResult, Client.request, Client.requestNil,
      Client.logged, Except.map, Gapi.DashboardContext, Gapi.dashboard, Gapi.dashboardContext,
      hrep]
  case DashboardByUIDContext ctx uid =>
    rcases hrep : c.replies c.trace.length with e | (_ | v) <;>
    simp [Operation.run, Operation.marshalResult, Client.request, Client.requestNil,
      Client.logged, Except.map, Gapi.DashboardByUIDContext, Gapi.dashboard,
      Gapi.dashboardContext, hrep]
  case DashboardsByIDsContext jsonMarshal ctx ids =>
    rcases hrep : c.replies c.trace.length with e | v <;>
    rcases hjm : jsonMarshal ids with e2 | data <;>
    simp [Operation.run, Operation.marshalResult, Client.request, Client.requestNil,
      Client.logged, Except.map, Gapi.DashboardsByIDsContext, Gapi.FolderDashboardSearch,
      Gapi.FolderDashboardSearchContext, hrep, hjm]
  case DeleteDashboardContext ctx slug =>
    rcases hrep : c.replies c.trace.length with e | v <;>
    simp [Operation.run, Operation.marshalResult, Client.request, Client.requestNil,
      Client.logged, Except.map, Gapi.DeleteDashboardContext, Gapi.deleteDashboard,
      Gapi.deleteDashboardContext, hrep]
  case DeleteDashboardByUIDContext ctx uid =>
    rcases hrep : c.replies c.trace.length with e | v <;>
    simp [Operation.run, Operation.marshalResult, Client.request, Client.requestNil,
      Client.logged, Except.map, Gapi.DeleteDashboardByUIDContext, Gapi.deleteDashboard,
      Gapi.deleteDashboardContext, hrep]
  case EnableDatasourcePermissionsContext ctx id =>
    rcases hrep : c.replies c.trace.length with e | v <;>
    simp [Operation.run, Operation.marshalResult, Client.request, Client.requestNil,
      Client.logged, Except.map, Gapi.EnableDatasourcePermissionsContext, hrep]
  case DisableDatasourcePermissionsContext ctx id =>
    rcases hrep : c.replies c.trace.length with e | v <;>
    simp [Operation.run, Operation.marshalResult, Client.request, Client.requestNil,
      Client.logged, Except.map, Gapi.DisableDatasourcePermissionsContext, hrep]
  case DatasourcePermissionsContext ctx id =>
    rcases hrep : c.replies c.trace.length with e | v <;>
    simp [Operation.run, Operation.marshalResult, Client.request, Client.requestNil,
      Client.logged, Except.map, Gapi.DatasourcePermissionsContext, hrep]
  case AddDatasourcePermissionContext jsonMarshal ctx id item =>
    rcases hrep : c.replies c.trace.length with e | v <;>
    rcases hjm : jsonMarshal item with e2 | data <;>
    simp [Operation.run, Operation.marshalResult, Client.request, Client.requestNil,
      Client.logged, Except.map, Error.Unwrap, Gapi.AddDatasourcePermissionContext, hrep, hjm]
  case RemoveDatasourcePermissionContext ctx id permissionID =>
    rcases hrep : c.replies c.trace.length with e | v <;>
    simp [Operation.run, Operation.marshalResult, Client.request, Client.requestNil,
      Client.logged, Except.map, Gapi.RemoveDatasourcePermissionContext, hrep]
  case FoldersContext ctx =>
    rcases hrep : c.replies c.trace.length with e | v <;>
    simp [Operation.run, Operation.marshalResult, Client.request, Client.requestNil,
      Client.logged, Except.map, Gapi.FoldersContext, hrep]
  case FolderContext ctx id =>
    rcases hrep : c.replies c.trace.length with e | v <;>
    simp [Operation.run, Operation.marshalResult, Client.request, Client.requestNil,
      Client.logged, Except.map, Gapi.FolderContext, hrep]
  case FolderByUIDContext ctx uid =>
    rcases hrep : c.replies c.trace.length with e | v <;>
    simp [Operation.run, Operation.marshalResult, Client.request, Client.requestNil,
      Client.logged, Except.map, Gapi.FolderByUIDContext, hrep]
  case NewFolderContext jsonMarshal ctx title uid =>
    rcases hrep : c.replies c.trace.length with e | v <;>
    rcases uid with _ | ⟨u, _ | ⟨u2, rest⟩⟩
    · rcases hjm : jsonMarshal ⟨title, "", false⟩ with e2 | data <;>
      simp [Operation.run, Operation.marshalResult, Client.request, Client.logged, Except.map,
        Gapi.NewFolderContext, hrep, hjm]
    · rcases hjm : jsonMarshal ⟨title, u, false⟩ with e2 | data <;>
      simp [Operation.run, Operation.marshalResult, Client.request, Client.logged, Except.map,
        Gapi.NewFolderContext, hrep, hjm]
    · rcases hjm : jsonMarshal ⟨title, "", false⟩ with e2 | data <;>
      simp [Operation.run, Operation.marshalResult, Client.request, Client.logged, Except.map,
        Gapi.NewFolderContext, hrep, hjm]
    · rcases hjm : jsonMarshal ⟨title, "", false⟩ with e2 | data <;>
      simp [Operation.run, Operation.marshalResult, Client.request, Client.logged, Except.map,
        Gapi.NewFolderContext, hrep, hjm]
    · rcases hjm : jsonMarshal ⟨title, u, false⟩ with e2 | data <;>
      simp [Operation.run, Operation.marshalResult, Client.request, Client.logged, Except.map,
        Gapi.NewFolderContext, hrep, hjm]
    · rcases hjm : jsonMarshal ⟨title, "", false⟩ with e2 | data <;>
      simp [Operation.run, Operation.marshalResult, Client.request, Client.logged, Except.map,
        Gapi.NewFolderContext, hrep, hjm]
  case UpdateFolderContext jsonMarshal ctx uid title newUID =>
    rcases hrep : c.replies c.trace.length with e | v <;>
    rcases newUID with _ | ⟨u, _ | ⟨u2, rest⟩⟩
    · rcases hjm : jsonMarshal ⟨title, "", true⟩ with e2 | data <;>
      simp [Operation.run, Operation.marshalResult, Client.requestNil, Client.logged,
        Except.map, Gapi.UpdateFolderContext, hrep, hjm]
    · rcases hjm : jsonMarshal ⟨title, u, true⟩ with e2 | data <;>
      simp [Operation.run, Operation.marshalResult, Client.requestNil, Client.logged,
        Except.map, Gapi.UpdateFolderContext, hrep, hjm]
    · rcases hjm : jsonMarshal ⟨title, "", true⟩ with e2 | data <;>
      simp [Operation.run, Operation.marshalResult, Client.requestNil, Client.logged,
        Except.map, Gapi.UpdateFolderContext, hrep, hjm]
    · rcases hjm : jsonMarshal ⟨title, "", true⟩ with e2 | data <;>
      simp [Operation.run, Operation.marshalResult, Client.requestNil, Client.logged,
        Except.map, Gapi.UpdateFolderContext, hrep, hjm]
    · rcases hjm : jsonMarshal ⟨title, u, true⟩ with e2 | data <;>
      simp [Operation.run, Operation.marshalResult, Client.requestNil, Client.logged,
        Except.map, Gapi.UpdateFolderContext, hrep, hjm]
    · rcases hjm : jsonMarshal ⟨title, "", true⟩ with e2 | data <;>
      simp [Operation.run, Operation.marshalResult, Client.requestNil, Client.logged,
        Except.map, Gapi.UpdateFolderContext, hrep, hjm]
  case DeleteFolderContext ctx id =>
    rcases hrep : c.replies c.trace.length with e | v <;>
    simp [Operation.run, Operation.marshalResult, Client.request, Client.requestNil,
      Client.logged, Except.map, Gapi.DeleteFolderContext, hrep]
  case FolderDashboardSearchContext ctx params =>
    rcases hrep : c.replies c.trace.length with e | v <;>
    simp [Operation.run, Operation.marshalResult, Client.request, Client.requestNil,
      Client.logged, Except.map, Gapi.FolderDashboardSearchContext, hrep]
  case HealthContext ctx =>
    rcases hrep : c.replies c.trace.length with e | v <;>
    simp [Operation.run, Operation.marshalResult, Client.request, Client.requestNil,
      Client.logged, Except.map, Gapi.HealthContext, hrep]
  case OrgPreferencesContext ctx =>
    rcases hrep : c.replies c.trace.length with e | v <;>
    simp [Operation.run, Operation.marshalResult, Client.request, Client.requestNil,
      Client.logged, Except.map, Gapi.OrgPreferencesContext, hrep]
  case UpdateOrgPreferencesContext jsonMarshal ctx p =>
    rcases hrep : c.replies c.trace.length with e | v <;>
    rcases hjm : jsonMarshal p with e2 | data <;>
    simp [Operation.run, Operation.marshalResult, Client.request, Client.requestNil,
      Client.logged, Except.map, Gapi.UpdateOrgPreferencesContext, hrep, hjm]
  case UpdateAllOrgPreferencesContext jsonMarshal ctx p =>
    rcases hrep : c.replies c.trace.length with e | v <;>
    rcases hjm : jsonMarshal p with e2 | data <;>
    simp [Operation.run, Operation.marshalResult, Client.request, Client.requestNil,
      Client.logged, Except.map, Gapi.UpdateAllOrgPreferencesContext, hrep, hjm]
  case OrgUsersCurrentContext ctx =>
    rcases hrep : c.replies c.trace.length with e | v <;>
    simp [Operation.run, Operation.marshalResult, Client.request, Client.requestNil,
      Client.logged, Except.map, Gapi.OrgUsersCurrentContext, hrep]
  case OrgUsersContext ctx orgID =>
    rcases hrep : c.replies c.trace.length with e | v <;>
    simp [Operation.run, Operation.marshalResult, Client.request, Client.requestNil,
      Client.logged, Except.map, Gapi.OrgUsersContext, hrep]
  case AddOrgUserContext jsonMarshal ctx orgID user role =>
    rcases hrep : c.replies c.trace.length with e | v <;>
    rcases hjm : jsonMarshal ([("loginOrEmail", user), ("role", role)]) with e2 | data <;>
    simp [Operation.run, Operation.marshalResult, Client.request, Client.requestNil,
      Client.logged, Except.map, Gapi.AddOrgUserContext, hrep, hjm]
  case UpdateOrgUserContext jsonMarshal ctx orgID userID role =>
    rcases hrep : c.replies c.trace.length with e | v <;>
    rcases hjm : jsonMarshal ([("role", role)]) with e2 | data <;>
    simp [Operation.run, Operation.marshalResult, Client.request, Client.requestNil,
      Client.logged, Except.map, Gapi.UpdateOrgUserContext, hrep, hjm]
  case RemoveOrgUserContext ctx orgID userID =>
    rcases hrep : c.replies c.trace.length with e | v <;>
    simp [Operation.run, Operation.marshalResult, Client.request, Client.requestNil,
      Client.logged, Except.map, Gapi.RemoveOrgUserContext, hrep]
  case OrgsContext ctx =>
    rcases hrep : c.replies c.trace.length with e | v <;>
    simp [Operation.run, Operation.marshalResult, Client.request, Client.requestNil,
      Client.logged, Except.map, Gapi.OrgsContext, hrep]
  case OrgByNameContext ctx name =>
    rcases hrep : c.replies c.trace.length with e | v <;>
    simp [Operation.run, Operation.marshalResult, Client.request, Client.requestNil,
      Client.logged, Except.map, Gapi.OrgByNameContext, hrep]
  case OrgContext ctx id =>
    rcases hrep : c.replies c.trace.length with e | v <;>
    simp [Operation.run, Operation.marshalResult, Client.request, Client.requestNil,
      Client.logged, Except.map, Gapi.OrgContext, hrep]
  case NewOrgContext jsonMarshal ctx name =>
    rcases hrep : c.replies c.trace.length with e | v <;>
    rcases hjm : jsonMarshal ([("name", name)]) with e2 | data <;>
    simp [Operation.run, Operation.marshalResult, Client.request, Client.requestNil,
      Client.logged, Except.map, Gapi.NewOrgContext, hrep, hjm]
  case UpdateOrgContext jsonMarshal ctx id name =>
    rcases hrep : c.replies c.trace.length with e | v <;>
    rcases hjm : jsonMarshal ([("name", name)]) with e2 | data <;>
    simp [Operation.run, Operation.marshalResult, Client.request, Client.requestNil,
      Client.logged, Except.map, Gapi.UpdateOrgContext, hrep, hjm]
  case DeleteOrgContext ctx id =>
    rcases hrep : c.replies c.trace.length with e | v <;>
    simp [Operation.run, Operation.marshalResult, Client.request, Client.requestNil,
      Client.logged, Except.map, Gapi.DeleteOrgContext, hrep]
  case PlaylistContext ctx idOrUID =>
    rcases hrep : c.replies c.trace.length with e | v <;>
    simp [Operation.run, Operation.marshalResult, Client.request, Client.requestNil,
      Client.logged, Except.map, Gapi.PlaylistContext, hrep]
  case NewPlaylistContext jsonMarshal ctx playlist =>
    rcases hrep : c.replies c.trace.length with e | v <;>
    rcases hjm : jsonMarshal playlist with e2 | data <;>
    simp [Operation.run, Operation.marshalResult, Client.request, Client.requestNil,
      Client.logged, Except.map, Gapi.NewPlaylistContext, hrep, hjm]
  case UpdatePlaylistContext jsonMarshal ctx playlist =>
    rcases hrep : c.replies c.trace.length with e | v <;>
    rcases hjm : jsonMarshal playlist with e2 | data <;>
    simp [Operation.run, Operation.marshalResult, Client.request, Client.requestNil,
      Client.logged, Except.map, Gapi.UpdatePlaylistContext, hrep, hjm]
  case DeletePlaylistContext ctx idOrUID =>
    rcases hrep : c.replies c.trace.length with e | v <;>
    simp [Operation.run, Operation.marshalResult, Client.request, Client.requestNil,
      Client.logged, Except.map, Gapi.DeletePlaylistContext, hrep]
  case ReportContext ctx id =>
    rcases hrep : c.replies c.trace.length with e | v <;>
    simp [Operation.run, Operation.marshalResult, Client.request, Client.requestNil,
      Client.logged, Except.map, Gapi.ReportContext, hrep]
  case NewReportContext jsonMarshal ctx report =>
    rcases hrep : c.replies c.trace.length with e | v <;>
    rcases hjm : jsonMarshal report with e2 | data <;>
    simp [Operation.run, Operation.marshalResult, Client.request, Client.requestNil,
      Client.logged, Except.map, Gapi.NewReportContext, hrep, hjm]
  case UpdateReportContext jsonMarshal ctx report =>
    rcases hrep : c.replies c.trace.length with e | v <;>
    rcases hjm : jsonMarshal report with e2 | data <;>
    simp [Operation.run, Operation.marshalResult, Client.request, Client.requestNil,
      Client.logged, Except.map, Gapi.UpdateReportContext, hrep, hjm]
  case DeleteReportContext ctx id =>
    rcases hrep : c.replies c.trace.length with e | v <;>
    simp [Operation.run, Operation.marshalResult, Client.request, Client.requestNil,
      Client.logged, Except.map, Gapi.DeleteReportContext, hrep]
  case GetRoleContext ctx uid =>
    rcases hrep : c.replies c.trace.length with e | v <;>
    simp [Operation.run, Operation.marshalResult, Client.request, Client.requestNil,
      Client.logged, Except.map, Gapi.GetRoleContext, hrep]
  case NewRoleContext jsonMarshal ctx role =>
    rcases hrep : c.replies c.trace.length with e | v <;>
    rcases hjm : jsonMarshal role with e2 | data <;>
    simp [Operation.run, Operation.marshalResult, Client.request, Client.requestNil,
      Client.logged, Except.map, Gapi.NewRoleContext, hrep, hjm]
  case UpdateRoleContext jsonMarshal ctx role =>
    rcases hrep : c.replies c.trace.length with e | v <;>
    rcases hjm : jsonMarshal role with e2 | data <;>
    simp [Operation.run, Operation.marshalResult, Client.request, Client.requestNil,
      Client.logged, Except.map, Gapi.UpdateRoleContext, hrep, hjm]
  case DeleteRoleContext ctx uid global =>
    rcases hrep : c.replies c.trace.length with e | v <;>
    simp [Operation.run, Operation.marshalResult, Client.request, Client.requestNil,
      Client.logged, Except.map, Gapi.DeleteRoleContext, hrep]
  case GetRoleAssignmentsContext ctx uid =>
    rcases hrep : c.replies c.trace.length with e | v <;>
    simp [Operation.run, Operation.marshalResult, Client.request, Client.requestNil,
      Client.logged, Except.map, Gapi.GetRoleAssignmentsContext, hrep]
  case UpdateRoleAssignmentsContext jsonMarshal ctx ra =>
    rcases hrep : c.replies c.trace.length with e | v <;>
    rcases hjm : jsonMarshal ra with e2 | data <;>
    simp [Operation.run, Operation.marshalResult, Client.request, Client.requestNil,
      Client.logged, Except.map, Gapi.UpdateRoleAssignmentsContext, hrep, hjm]
  case NewSnapshotContext jsonMarshal ctx snapshot =>
    rcases hrep : c.replies c.trace.length with e | v <;>
    rcases hjm : jsonMarshal snapshot with e2 | data <;>
    simp [Operation.run, Operation.marshalResult, Client.request, Client.requestNil,
      Client.logged, Except.map, Gapi.NewSnapshotContext, hrep, hjm]
  case TeamGroupsContext ctx id =>
    rcases hrep : c.replies c.trace.length with e | v <;>
    simp [Operation.run, Operation.marshalResult, Client.request, Client.requestNil,
      Client.logged, Except.map, Gapi.TeamGroupsContext, hrep]
  case NewTeamGroupContext jsonMarshal ctx id groupID =>
    rcases hrep : c.replies c.trace.length with e | v <;>
    rcases hjm : jsonMarshal ([("groupId", groupID)]) with e2 | data <;>
    simp [Operation.run, Operation.marshalResult, Client.request, Client.requestNil,
      Client.logged, Except.map, Gapi.NewTeamGroupContext, hrep, hjm]
  case DeleteTeamGroupContext ctx id groupID =>
    rcases hrep : c.replies c.trace.length with e | v <;>
    simp [Operation.run, Operation.marshalResult, Client.request, Client.requestNil,
      Client.logged, Except.map, Gapi.DeleteTeamGroupContext, hrep]
  case UserContext ctx id =>
    rcases hrep : c.replies c.trace.length with e | v <;>
    simp [Operation.run, Operation.marshalResult, Client.request, Client.requestNil,
      Client.logged, Except.map, Gapi.UserContext, hrep]
  case UserByEmailContext ctx email =>
    rcases hrep : c.replies c.trace.length with e | v <;>
    simp [Operation.run, Operation.marshalResult, Client.request, Client.requestNil,
      Client.logged, Except.map, Gapi.UserByEmailContext, hrep]
  case UserUpdateContext jsonMarshal ctx u =>
    rcases hrep : c.replies c.trace.length with e | v <;>
    rcases hjm : jsonMarshal u with e2 | data <;>
    simp [Operation.run, Operation.marshalResult, Client.request, Client.requestNil,
      Client.logged, Except.map, Gapi.UserUpdateContext, hrep, hjm]

/-- C6: serialization errors fail fast. For every operation, if `json.Marshal` fails on its
payload then the operation returns an error and leaves the client as it was: no call of
`c.request` is made and no request is sent. The error returned is the marshalling error or
wraps it (for `NewFolderContext`, when its argument check has passed). -/
theorem marshal_error_fails_fast {π δ : Type} [Inhabited δ] (op : Operation π δ)
    (c : Client op.Dest) (e : Error) (h : op.marshalResult = some (.error e)) :
    (op.run c).2 = c ∧ (op.run c).2.trace = c.trace ∧
      ∃ err, (op.run c).1 = some err ∧
        ((∀ jsonMarshal ctx title uid,
            op = .NewFolderContext jsonMarshal ctx title uid → uid.length ≤ 1) →
          err = e ∨ err.Unwrap = some e) := by
  obtain ⟨hc, herr⟩ := (Operation.run_effect op c).1 e h
  exact ⟨hc, by rw [hc], herr⟩

theorem marshal_error_fails_fast_witness :
    (Operation.run
        (Operation.SaveDashboardContext (fun _ => .error (.errorString "unsupported type"))
          Context.Background () true : Operation Unit Unit) (Client.always ())).2 =
        Client.always () ∧
      (Operation.run
        (Operation.SaveDashboardContext (fun _ => .error (.errorString "unsupported type"))
          Context.Background () true : Operation Unit Unit) (Client.always ())).1 =
        some (.errorString "unsupported type") :=
  ⟨(marshal_error_fails_fast
      (Operation.SaveDashboardContext (fun _ => .error (.errorString "unsupported type"))
        Context.Background () true : Operation Unit Unit) (Client.always ())
      (.errorString "unsupported type") rfl).1, rfl⟩

/-- C7, as stated, fails: `IsCloudPluginInstalledContext` checks no argument and marshals no
payload, yet it makes no call of `c.request`; it sends its request itself. -/
theorem IsCloudPluginInstalledContext_bypasses_request :
    Operation.marshalResult
        (Operation.IsCloudPluginInstalledContext Context.Background "stack" "plugin" :
          Operation Unit Unit) = none ∧
      (IsCloudPluginInstalledContext (Client.always ()) Context.Background "stack"
        "plugin").2.2.trace = [] ∧
      (IsCloudPluginInstalledContext (Client.always ()) Context.Background "stack"
        "plugin").2.2.sent =
        [⟨Context.Background, "GET", "/api/instances/stack/plugins/plugin", [], none, false⟩] := by
  refine ⟨rfl, rfl, rfl⟩

/-- C7, amended: every operation other than the two paginated ones and
`IsCloudPluginInstalledContext` makes at most one call of `c.request` per invocation,
whatever the replies of the server, and exactly one when its argument check passes and its
payload marshals; `IsCloudPluginInstalledContext` makes no call of `c.request` and sends at
most one request itself. -/
theorem operations_dispatch_at_most_once {π δ : Type} [Inhabited δ] (op : Operation π δ)
    (c : Client op.Dest) :
    ((∀ ctx stackSlug pluginSlug,
          op ≠ .IsCloudPluginInstalledContext ctx stackSlug pluginSlug) →
        ((op.run c).2.trace = c.trace ∨ ∃ call, (op.run c).2.trace = c.trace ++ [call]) ∧
        ((∀ jsonMarshal ctx title uid,
            op = .NewFolderContext jsonMarshal ctx title uid → uid.length ≤ 1) →
          (∀ e, op.marshalResult ≠ some (.error e)) →
          ∃ call, (op.run c).2.trace = c.trace ++ [call])) ∧
      (∀ ctx stackSlug pluginSlug,
        op = .IsCloudPluginInstalledContext ctx stackSlug pluginSlug →
        (op.run c).2.trace = c.trace ∧
        ((op.run c).2.sent = c.sent ∨ ∃ req, (op.run c).2.sent = c.sent ++ [req])) := by
  obtain ⟨_, hreq, hdirect⟩ := Operation.run_effect op c
  refine ⟨fun hop => ?_, hdirect⟩
  obtain ⟨hmost, hone⟩ := hreq hop
  constructor
  · rcases hmost with h | ⟨call, h⟩
    · exact Or.inl (by rw [h])
    · exact Or.inr ⟨call, by rw [h]; rfl⟩
  · intro hargs hmarshal
    obtain ⟨call, h⟩ := hone hargs hmarshal
    exact ⟨call, by rw [h]; rfl⟩

theorem operations_dispatch_at_most_once_witness :
    ∃ call,
      (Operation.run
        (Operation.NewOrgContext (fun _ => .ok .null) Context.Background "ops" :
          Operation Unit Unit) (Client.always ⟨7⟩)).2.trace = [] ++ [call] :=
  ((operations_dispatch_at_most_once
      (Operation.NewOrgContext (fun _ => .ok .null) Context.Background "ops" :
        Operation Unit Unit) (Client.always ⟨7⟩)).1
    (fun _ _ _ h => Operation.noConfusion h)).2
    (fun _ _ _ _ h => Operation.noConfusion h)
    (fun e h => by cases h)

/-! ## Alert rules -/

/-- C14: `syncCalculatedRuleFields` prefers a `For` given by the caller. A rule with a
non-empty `For` is left unchanged; for a rule with an empty `For` the result has
`For = timeDurationToRuleDuration ForDuration` and every other field as before. So the body
sent by `NewAlertRuleContext` and `UpdateAlertRuleContext`, which `json.Marshal` writes with
the member "for" holding the field `For`, carries the caller's `For` when it is given and
the converted `ForDuration` otherwise. -/
theorem syncCalculatedRuleFields_prefers_For (rule : AlertRule)
    (jsonMarshal : AlertRule → Except Error JSON)
    (htag : ∀ r doc, jsonMarshal r = .ok doc → doc.get? "for" = some (.str r.For)) :
    (rule.For ≠ "" → syncCalculatedRuleFields rule = rule) ∧
      (rule.For = "" →
        (syncCalculatedRuleFields rule).For = timeDurationToRuleDuration rule.ForDuration) ∧
      ((syncCalculatedRuleFields rule).Annotations = rule.Annotations ∧
        (syncCalculatedRuleFields rule).Condition = rule.Condition ∧
        (syncCalculatedRuleFields rule).Data = rule.Data ∧
        (syncCalculatedRuleFields rule).ExecErrState = rule.ExecErrState ∧
        (syncCalculatedRuleFields rule).FolderUID = rule.FolderUID ∧
        (syncCalculatedRuleFields rule).ID = rule.ID ∧
        (syncCalculatedRuleFields rule).Labels = rule.Labels ∧
        (syncCalculatedRuleFields rule).NoDataState = rule.NoDataState ∧
        (syncCalculatedRuleFields rule).OrgID = rule.OrgID ∧
        (syncCalculatedRuleFields rule).RuleGroup = rule.RuleGroup ∧
        (syncCalculatedRuleFields rule).Title = rule.Title ∧
        (syncCalculatedRuleFields rule).UID = rule.UID ∧
        (syncCalculatedRuleFields rule).Updated = rule.Updated ∧
        (syncCalculatedRuleFields rule).ForDuration = rule.ForDuration ∧
        (syncCalculatedRuleFields rule).Provenance = rule.Provenance) ∧
      (∀ doc, jsonMarshal (syncCalculatedRuleFields rule) = .ok doc →
        (∀ (c : Client AlertRule) (ctx : Context),
          (NewAlertRuleContext jsonMarshal c ctx rule).2.2 =
            c.logged [⟨ctx, "POST", "/api/v1/provisioning/alert-rules", [],
              some (.ofData doc), true⟩]) ∧
        (∀ (c : Client Unit) (ctx : Context),
          (UpdateAlertRuleContext jsonMarshal c ctx rule).2 =
            c.logged [⟨ctx, "PUT", "/api/v1/provisioning/alert-rules/" ++ rule.UID, [],
              some (.ofData doc), false⟩]) ∧
        doc.get? "for" =
          some (.str (if rule.For ≠ "" then rule.For
            else timeDurationToRuleDuration rule.ForDuration))) := by
  refine ⟨?_, ?_, ?_, ?_⟩
  · intro h
    simp [syncCalculatedRuleFields, h]
  · intro h
    simp [syncCalculatedRuleFields, h]
  · by_cases h : rule.For = "" <;> simp [syncCalculatedRuleFields, h]
  · intro doc hjm
    refine ⟨?_, ?_, ?_⟩
    · intro c ctx
      simp only [NewAlertRuleContext, hjm]
      split <;> rename_i h <;>
        rw [← Client.request_client c ctx "POST" "/api/v1/provisioning/alert-rules" []
          (some (.ofData doc)) AlertRule.zero, h]
    · intro c ctx
      have huid : (syncCalculatedRuleFields rule).UID = rule.UID := by
        by_cases h : rule.For = "" <;> simp [syncCalculatedRuleFields, h]
      simp only [UpdateAlertRuleContext, hjm, huid, Client.requestNil_client]
    · rw [htag _ _ hjm]
      by_cases h : rule.For = "" <;> simp [syncCalculatedRuleFields, h]

theorem syncCalculatedRuleFields_prefers_For_witness :
    syncCalculatedRuleFields fiveMinuteRule = fiveMinuteRule ∧
      ∀ doc, jsonMarshalForField (syncCalculatedRuleFields fiveMinuteRule) = .ok doc →
        doc.get? "for" = some (.str "5m") :=
  ⟨(syncCalculatedRuleFields_prefers_For fiveMinuteRule jsonMarshalForField
      (by
        intro r doc h
        cases h
        rfl)).1 (by decide),
    fun doc h =>
      ((syncCalculatedRuleFields_prefers_For fiveMinuteRule jsonMarshalForField
        (by
          intro r doc h
          cases h
          rfl)).2.2.2 doc h).2.2⟩

/-! ## Playlists -/

/-- C15: `Playlist.QueryID` is the UID whenever the UID is non-empty, and otherwise the
decimal rendering of the ID; `UpdatePlaylistContext` makes its call at the path
"/api/playlists/" followed by that `QueryID`. -/
theorem Playlist_QueryID_addresses {δ : Type} (playlist : Playlist) :
    (playlist.UID ≠ "" → playlist.QueryID = playlist.UID) ∧
      (playlist.UID = "" → playlist.QueryID = toString playlist.ID) ∧
      (∀ (jsonMarshal : Playlist → Except Error JSON) (c : Client δ) (ctx : Context)
          (data : JSON), jsonMarshal playlist = .ok data →
        (UpdatePlaylistContext jsonMarshal c ctx playlist).2 =
          c.logged [⟨ctx, "PUT", "/api/playlists/" ++ playlist.QueryID, [],
            some (.ofData data), false⟩]) := by
  refine ⟨?_, ?_, ?_⟩
  · intro h
    simp [Playlist.QueryID, h]
  · intro h
    simp [Playlist.QueryID, h]
  · intro jsonMarshal c ctx data h
    simp only [UpdatePlaylistContext, h, Client.requestNil_client]

theorem Playlist_QueryID_addresses_witness :
    (⟨7, "", "tour", "5m", []⟩ : Playlist).QueryID = "7" ∧
      (⟨7, "abc", "tour", "5m", []⟩ : Playlist).QueryID = "abc" :=
  ⟨(Playlist_QueryID_addresses (δ := Unit) ⟨7, "", "tour", "5m", []⟩).2.1 rfl,
    (Playlist_QueryID_addresses (δ := Unit) ⟨7, "abc", "tour", "5m", []⟩).1 (by decide)⟩

/-! ## Cloud plugins -/

theorem IsCloudPluginInstalledContext_completed (c : Client δ) (ctx : Context)
    (stackSlug pluginSlug : String) (resp : HTTPResponse)
    (hreq : c.newRequestErr ⟨ctx, "GET",
      "/api/instances/" ++ stackSlug ++ "/plugins/" ++ pluginSlug, [], none, false⟩ = none)
    (hdo : c.doReplies c.sent.length = .ok resp) :
    (resp.StatusCode = 200 →
        (IsCloudPluginInstalledContext c ctx stackSlug pluginSlug).1 = true ∧
        (IsCloudPluginInstalledContext c ctx stackSlug pluginSlug).2.1 = none) ∧
      (resp.StatusCode = 404 →
        (IsCloudPluginInstalledContext c ctx stackSlug pluginSlug).1 = false ∧
        (IsCloudPluginInstalledContext c ctx stackSlug pluginSlug).2.1 = none) ∧
      (resp.StatusCode ≠ 200 → resp.StatusCode ≠ 404 →
        (IsCloudPluginInstalledContext c ctx stackSlug pluginSlug).1 = false ∧
        ((∀ b, resp.Body = .ok b →
            (IsCloudPluginInstalledContext c ctx stackSlug pluginSlug).2.1 =
              some (.errorString
                ("status: " ++ toString resp.StatusCode ++ ", body: " ++ b))) ∧
          (∀ e, resp.Body = .error e →
            (IsCloudPluginInstalledContext c ctx stackSlug pluginSlug).2.1 = some e))) := by
  refine ⟨?_, ?_, ?_⟩
  · intro h
    simp [IsCloudPluginInstalledContext, Client.newRequest, Client.Do, hreq, hdo, h]
  · intro h
    simp [IsCloudPluginInstalledContext, Client.newRequest, Client.Do, hreq, hdo, h]
  · intro h200 h404
    rcases hb : resp.Body with e | b <;>
      simp [IsCloudPluginInstalledContext, Client.newRequest, Client.Do, hreq, hdo, h200,
        h404, hb]

/-- C16: how `IsCloudPluginInstalledContext` maps the status of a completed exchange. It
returns `(true, nil)` exactly for status 200 and `(false, nil)` exactly for status 404; for
every other status it returns `false` and, the body `b` having been read, the error
"status: <s>, body: <b>". When building the request fails, or sending it fails, it returns
`false` and that error. -/
theorem IsCloudPluginInstalledContext_status_mapping (c : Client δ) (ctx : Context)
    (stackSlug pluginSlug : String) :
    (∀ resp,
        c.newRequestErr ⟨ctx, "GET",
          "/api/instances/" ++ stackSlug ++ "/plugins/" ++ pluginSlug, [], none, false⟩ =
            none →
        c.doReplies c.sent.length = .ok resp →
        (((IsCloudPluginInstalledContext c ctx stackSlug pluginSlug).1 = true ∧
            (IsCloudPluginInstalledContext c ctx stackSlug pluginSlug).2.1 = none) ↔
          resp.StatusCode = 200) ∧
        (((IsCloudPluginInstalledContext c ctx stackSlug pluginSlug).1 = false ∧
            (IsCloudPluginInstalledContext c ctx stackSlug pluginSlug).2.1 = none) ↔
          resp.StatusCode = 404) ∧
        (resp.StatusCode ≠ 200 → resp.StatusCode ≠ 404 → ∀ b, resp.Body = .ok b →
          (IsCloudPluginInstalledContext c ctx stackSlug pluginSlug).1 = false ∧
          (IsCloudPluginInstalledContext c ctx stackSlug pluginSlug).2.1 =
            some (.errorString ("status: " ++ toString resp.StatusCode ++ ", body: " ++ b)))) ∧
      (∀ e,
        c.newRequestErr ⟨ctx, "GET",
          "/api/instances/" ++ stackSlug ++ "/plugins/" ++ pluginSlug, [], none, false⟩ =
            some e →
        IsCloudPluginInstalledContext c ctx stackSlug pluginSlug = (false, some e, c)) ∧
      (∀ e,
        c.newRequestErr ⟨ctx, "GET",
          "/api/instances/" ++ stackSlug ++ "/plugins/" ++ pluginSlug, [], none, false⟩ =
            none →
        c.doReplies c.sent.length = .error e →
        (IsCloudPluginInstalledContext c ctx stackSlug pluginSlug).1 = false ∧
        (IsCloudPluginInstalledContext c ctx stackSlug pluginSlug).2.1 = some e) := by
  refine ⟨?_, ?_, ?_⟩
  · intro resp hreq hdo
    obtain ⟨h200, h404, hother⟩ :=
      IsCloudPluginInstalledContext_completed c ctx stackSlug pluginSlug resp hreq hdo
    refine ⟨⟨?_, h200⟩, ⟨?_, h404⟩, ?_⟩
    · intro ⟨h1, _⟩
      by_contra hs
      by_cases hs4 : resp.StatusCode = 404
      · rw [(h404 hs4).1] at h1
        cases h1
      · rw [(hother hs hs4).1] at h1
        cases h1
    · intro ⟨h1, h2⟩
      by_contra hs4
      by_cases hs : resp.StatusCode = 200
      · rw [(h200 hs).1] at h1
        cases h1
      · rcases hb : resp.Body with e | b
        · rw [(hother hs hs4).2.2 e hb] at h2
          cases h2
        · rw [(hother hs hs4).2.1 b hb] at h2
          cases h2
    · intro hs hs4 b hb
      exact ⟨(hother hs hs4).1, (hother hs hs4).2.1 b hb⟩
  · intro e hreq
    simp [IsCloudPluginInstalledContext, Client.newRequest, hreq]
  · intro e hreq hdo
    simp [IsCloudPluginInstalledContext, Client.newRequest, Client.Do, hreq, hdo]

theorem IsCloudPluginInstalledContext_status_mapping_witness :
    (IsCloudPluginInstalledContext (Client.answering ⟨500, .ok "boom"⟩) Context.Background
        "stack" "plugin").1 = false ∧
      (IsCloudPluginInstalledContext (Client.answering ⟨500, .ok "boom"⟩) Context.Background
        "stack" "plugin").2.1 = some (.errorString "status: 500, body: boom") :=
  ((IsCloudPluginInstalledContext_status_mapping (Client.answering ⟨500, .ok "boom"⟩)
    Context.Background "stack" "plugin").1 ⟨500, .ok "boom"⟩ rfl rfl).2.2
    (by decide) (by decide) "boom" rfl

/-- C17, as stated, fails: on status 204, which lies in 200-299, an error is returned, and
on status 404, which lies outside, no error is returned. -/
theorem IsCloudPluginInstalledContext_204_and_404 :
    (IsCloudPluginInstalledContext (Client.answering ⟨204, .ok ""⟩) Context.Background
        "stack" "plugin").2.1 = some (.errorString "status: 204, body: ") ∧
      (IsCloudPluginInstalledContext (Client.answering ⟨404, .ok "not found"⟩)
        Context.Background "stack" "plugin").1 = false ∧
      (IsCloudPluginInstalledContext (Client.answering ⟨404, .ok "not found"⟩)
        Context.Background "stack" "plugin").2.1 = none := by
  refine ⟨?_, ?_, ?_⟩ <;> rfl

/-- C17, amended: for `IsCloudPluginInstalledContext` only status 200 is success. On a
completed exchange no error is returned exactly when the status is 200 or 404, `true` is
returned exactly when it is 200, and every other status, inside 200-299 or outside,
produces the error carrying the status code and the body read. -/
theorem IsCloudPluginInstalledContext_only_200_succeeds (c : Client δ) (ctx : Context)
    (stackSlug pluginSlug : String) (resp : HTTPResponse)
    (hreq : c.newRequestErr ⟨ctx, "GET",
      "/api/instances/" ++ stackSlug ++ "/plugins/" ++ pluginSlug, [], none, false⟩ = none)
    (hdo : c.doReplies c.sent.length = .ok resp) :
    ((IsCloudPluginInstalledContext c ctx stackSlug pluginSlug).2.1 = none ↔
        resp.StatusCode = 200 ∨ resp.StatusCode = 404) ∧
      ((IsCloudPluginInstalledContext c ctx stackSlug pluginSlug).1 = true ↔
        resp.StatusCode = 200) ∧
      (resp.StatusCode ≠ 200 → resp.StatusCode ≠ 404 → ∀ b, resp.Body = .ok b →
        (IsCloudPluginInstalledContext c ctx stackSlug pluginSlug).2.1 =
          some (.errorString ("status: " ++ toString resp.StatusCode ++ ", body: " ++ b))) := by
  obtain ⟨h200, h404, hother⟩ :=
    IsCloudPluginInstalledContext_completed c ctx stackSlug pluginSlug resp hreq hdo
  refine ⟨⟨?_, ?_⟩, ⟨?_, fun h => (h200 h).1⟩, fun hs hs4 b hb => (hother hs hs4).2.1 b hb⟩
  · intro h
    by_contra hne
    have hs : resp.StatusCode ≠ 200 := fun h' => hne (Or.inl h')
    have hs4 : resp.StatusCode ≠ 404 := fun h' => hne (Or.inr h')
    rcases hb : resp.Body with e | b
    · rw [(hother hs hs4).2.2 e hb] at h
      cases h
    · rw [(hother hs hs4).2.1 b hb] at h
      cases h
  · rintro (h | h)
    · exact (h200 h).2
    · exact (h404 h).2
  · intro h
    by_contra hs
    by_cases hs4 : resp.StatusCode = 404
    · rw [(h404 hs4).1] at h
      cases h
    · rw [(hother hs hs4).1] at h
      cases h

theorem IsCloudPluginInstalledContext_only_200_succeeds_witness :
    (IsCloudPluginInstalledContext (Client.answering ⟨201, .ok "created"⟩) Context.Background
        "stack" "plugin").2.1 = some (.errorString "status: 201, body: created") :=
  (IsCloudPluginInstalledContext_only_200_succeeds (Client.answering ⟨201, .ok "created"⟩)
    Context.Background "stack" "plugin" ⟨201, .ok "created"⟩ rfl rfl).2.2
    (by decide) (by decide) "created" rfl

/-- C18, the run that shows the defect: the server answers with the plugin `clockPlugin`;
`PluginBySlugContext` returns it, `PluginByIDContext` returns the zero `Plugin`. Whatever
the server answers, `PluginByIDContext` returns nil or the zero `Plugin`. -/
theorem PluginByIDContext_returns_zero_plugin :
    (PluginBySlugContext (Client.always clockPlugin) Context.Background "7").1 =
        some clockPlugin ∧
      (PluginByIDContext (Client.always clockPlugin) Context.Background 7).1 =
        some Plugin.zero ∧
      (PluginByIDContext (Client.always clockPlugin) Context.Background 7).2.1 = none ∧
      (PluginByIDContext (Client.always clockPlugin) Context.Background 7).2.2.trace =
        (PluginBySlugContext (Client.always clockPlugin) Context.Background "7").2.2.trace ∧
      ∀ (c : Client Plugin) (ctx : Context) (pluginID : Int),
        (PluginByIDContext c ctx pluginID).1 = none ∨
          (PluginByIDContext c ctx pluginID).1 = some Plugin.zero := by
  refine ⟨rfl, rfl, rfl, rfl, ?_⟩
  intro c ctx pluginID
  simp only [PluginByIDContext]
  split
  · exact Or.inl rfl
  · exact Or.inr rfl

/-! ## Users -/

theorem JSON.hasKey_obj_of_mem (members : List (String × JSON)) (key : String) (v : JSON)
    (h : (key, v) ∈ members) : (JSON.obj members).hasKey key = true := by
  simp only [JSON.hasKey, JSON.get?, Option.isSome_map']
  rw [List.find?_isSome]
  exact ⟨(key, v), h, by simp⟩

/-- C11, the run that shows the defect: for the all-zero `User`, whose `UpdatedAt` and
`CreatedAt` are the zero time, the body that `CreateUserContext` and `UserUpdateContext`
send has the members "updatedAt" and "createdAt"; and whenever a `User` marshals, the
document has both members. -/
theorem User_zero_times_are_sent :
    jsonMarshalUser (fun _ => .ok zeroTimeJSON) User.zero =
        .ok (.obj [("updatedAt", zeroTimeJSON), ("createdAt", zeroTimeJSON)]) ∧
      (CreateUserContext (jsonMarshalUser fun _ => .ok zeroTimeJSON) (Client.always ⟨1⟩)
          Context.Background User.zero).2.2.trace =
        [⟨Context.Background, "POST", "/api/admin/users", [],
          some (.ofData (.obj [("updatedAt", zeroTimeJSON), ("createdAt", zeroTimeJSON)])),
          true⟩] ∧
      (UserUpdateContext (jsonMarshalUser fun _ => .ok zeroTimeJSON) (Client.always ())
          Context.Background User.zero).2.trace =
        [⟨Context.Background, "PUT", "/api/users/0", [],
          some (.ofData (.obj [("updatedAt", zeroTimeJSON), ("createdAt", zeroTimeJSON)])),
          false⟩] ∧
      ∀ (marshalTime : Time → Except Error JSON) (u : User) (doc : JSON),
        jsonMarshalUser marshalTime u = .ok doc →
          doc.hasKey "updatedAt" = true ∧ doc.hasKey "createdAt" = true := by
  refine ⟨rfl, rfl, rfl, ?_⟩
  intro marshalTime u doc h
  unfold jsonMarshalUser at h
  split at h
  · cases h
  · cases h
  · rename_i updatedAt createdAt _ _
    cases h
    constructor
    · exact JSON.hasKey_obj_of_mem _ "updatedAt" updatedAt (by simp)
    · exact JSON.hasKey_obj_of_mem _ "createdAt" createdAt (by simp)

/-! ## Rule durations -/

theorem timeDurationToRuleDuration.f_exact (r : String) (ms : Int) (unit : String)
    (mult : Int) (hms : 0 ≤ ms) (hmult : 0 < mult) :
    timeDurationToRuleDuration.f (r, ms) unit mult true =
      if ms % mult = 0 then (r ++ durationComponent (ms / mult) unit, 0) else (r, ms) := by
  have hdiv : ms.tdiv mult = ms / mult := Int.tdiv_eq_ediv hms (Int.le_of_lt hmult)
  have hmod : ms.tmod mult = ms % mult := Int.tmod_eq_emod hms (Int.le_of_lt hmult)
  simp only [timeDurationToRuleDuration.f, hdiv, hmod, Bool.true_and]
  by_cases h : ms % mult = 0
  · have hsub : ms - ms / mult * mult = 0 := by
      have := Int.emod_add_ediv ms mult
      rw [h] at this
      rw [Int.mul_comm]
      omega
    by_cases hv : 0 < ms / mult
    · simp [h, durationComponent, hv, hsub, String.append_assoc]
    · have hms0 : ms = 0 := by
        have := Int.emod_add_ediv ms mult
        have hq : 0 ≤ ms / mult := Int.ediv_nonneg hms (Int.le_of_lt hmult)
        have hq0 : ms / mult = 0 := by omega
        rw [h, hq0] at this
        simpa using this.symm
      simp [h, durationComponent, hv, hms0]
  · simp [h]

theorem timeDurationToRuleDuration.f_plain (r : String) (ms : Int) (unit : String)
    (mult : Int) (hms : 0 ≤ ms) (hmult : 0 < mult) :
    timeDurationToRuleDuration.f (r, ms) unit mult false =
      (r ++ durationComponent (ms / mult) unit, ms % mult) := by
  have hdiv : ms.tdiv mult = ms / mult := Int.tdiv_eq_ediv hms (Int.le_of_lt hmult)
  simp only [timeDurationToRuleDuration.f, hdiv, Bool.false_and]
  have hdef : ms % mult = ms - ms / mult * mult := by
    rw [Int.emod_def, Int.mul_comm]
  by_cases hv : 0 < ms / mult
  · simp [durationComponent, hv, hdef, String.append_assoc]
  · have hq : 0 ≤ ms / mult := Int.ediv_nonneg hms (Int.le_of_lt hmult)
    have hq0 : ms / mult = 0 := by omega
    simp [durationComponent, hq0, hdef]

theorem timeDurationToRuleDuration_unfold (d : Int) :
    timeDurationToRuleDuration d =
      if d.tdiv 1000000 = 0 then "0s"
      else
        (timeDurationToRuleDuration.f
          (timeDurationToRuleDuration.f
            (timeDurationToRuleDuration.f
              (timeDurationToRuleDuration.f
                (timeDurationToRuleDuration.f
                  (timeDurationToRuleDuration.f
                    (timeDurationToRuleDuration.f ("", d.tdiv 1000000) "y" 31536000000 true)
                    "w" 604800000 true)
                  "d" 86400000 false)
                "h" 3600000 false)
              "m" 60000 false)
            "s" 1000 false)
          "ms" 1 false).1 := by
  rfl

/-- The five steps for days, hours, minutes, seconds and milliseconds, started with the
text `r` and `ms` milliseconds left. -/
theorem timeDurationToRuleDuration.plain_steps (r : String) (ms : Int) (hms : 0 ≤ ms) :
    (timeDurationToRuleDuration.f
      (timeDurationToRuleDuration.f
        (timeDurationToRuleDuration.f
          (timeDurationToRuleDuration.f
            (timeDurationToRuleDuration.f (r, ms) "d" 86400000 false)
            "h" 3600000 false)
          "m" 60000 false)
        "s" 1000 false)
      "ms" 1 false).1 =
      r ++ (durationComponent (ms / 86400000) "d" ++
        (durationComponent (ms % 86400000 / 3600000) "h" ++
          (durationComponent (ms % 3600000 / 60000) "m" ++
            (durationComponent (ms % 60000 / 1000) "s" ++
              durationComponent (ms % 1000) "ms")))) := by
  have h1 : 0 ≤ ms % 86400000 := Int.emod_nonneg _ (by decide)
  have h2 : 0 ≤ ms % 86400000 % 3600000 := Int.emod_nonneg _ (by decide)
  have h3 : 0 ≤ ms % 86400000 % 3600000 % 60000 := Int.emod_nonneg _ (by decide)
  have h4 : 0 ≤ ms % 86400000 % 3600000 % 60000 % 1000 := Int.emod_nonneg _ (by decide)
  rw [timeDurationToRuleDuration.f_plain r ms "d" 86400000 hms (by decide),
    timeDurationToRuleDuration.f_plain _ _ "h" 3600000 h1 (by decide),
    timeDurationToRuleDuration.f_plain _ _ "m" 60000 h2 (by decide),
    timeDurationToRuleDuration.f_plain _ _ "s" 1000 h3 (by decide),
    timeDurationToRuleDuration.f_plain _ _ "ms" 1 h4 (by decide)]
  have e1 : ms % 86400000 % 3600000 = ms % 3600000 := by omega
  have e2 : ms % 3600000 % 60000 = ms % 60000 := by omega
  have e3 : ms % 60000 % 1000 = ms % 1000 := by omega
  simp only [e1, e2, e3, Int.ediv_one, String.append_assoc]

/-- C13: years and weeks are formatted only when the remainder is zero. For a duration of
`ms > 0` whole milliseconds the result is "<ms/365d>y" when `ms` is a multiple of 365 days;
otherwise "<ms/7d>w" when `ms` is a multiple of 7 days; otherwise it is the concatenation
of the non-zero components among days, hours (below 24), minutes (below 60), seconds
(below 60) and milliseconds (below 1000), with no years and no weeks. -/
theorem timeDurationToRuleDuration_years_and_weeks (d : Int) (hpos : 0 < d.tdiv 1000000) :
    (d.tdiv 1000000 % 31536000000 = 0 →
        timeDurationToRuleDuration d = toString (d.tdiv 1000000 / 31536000000) ++ "y") ∧
      (d.tdiv 1000000 % 31536000000 ≠ 0 → d.tdiv 1000000 % 604800000 = 0 →
        timeDurationToRuleDuration d = toString (d.tdiv 1000000 / 604800000) ++ "w") ∧
      (d.tdiv 1000000 % 31536000000 ≠ 0 → d.tdiv 1000000 % 604800000 ≠ 0 →
        timeDurationToRuleDuration d =
          durationComponent (d.tdiv 1000000 / 86400000) "d" ++
            (durationComponent (d.tdiv 1000000 % 86400000 / 3600000) "h" ++
              (durationComponent (d.tdiv 1000000 % 3600000 / 60000) "m" ++
                (durationComponent (d.tdiv 1000000 % 60000 / 1000) "s" ++
                  durationComponent (d.tdiv 1000000 % 1000) "ms"))) ∧
        d.tdiv 1000000 % 86400000 / 3600000 < 24 ∧
        d.tdiv 1000000 % 3600000 / 60000 < 60 ∧
        d.tdiv 1000000 % 60000 / 1000 < 60 ∧
        d.tdiv 1000000 % 1000 < 1000) := by
  rw [timeDurationToRuleDuration_unfold]
  generalize d.tdiv 1000000 = ms at hpos ⊢
  have hne : ms ≠ 0 := by omega
  have hms : 0 ≤ ms := by omega
  simp only [hne, if_false]
  rw [timeDurationToRuleDuration.f_exact "" ms "y" 31536000000 hms (by decide)]
  refine ⟨?_, ?_, ?_⟩
  · intro hy
    have hq : 0 < ms / 31536000000 := by omega
    simp only [hy, if_true]
    rw [timeDurationToRuleDuration.f_exact _ 0 "w" 604800000 (Int.le_refl 0) (by decide)]
    simp only [Int.zero_emod, if_true]
    rw [timeDurationToRuleDuration.plain_steps _ 0 (Int.le_refl 0)]
    simp [durationComponent, hq]
  · intro hy hw
    have hq : 0 < ms / 604800000 := by omega
    simp only [hy, if_false]
    rw [timeDurationToRuleDuration.f_exact "" ms "w" 604800000 hms (by decide)]
    simp only [hw, if_true]
    rw [timeDurationToRuleDuration.plain_steps _ 0 (Int.le_refl 0)]
    simp [durationComponent, hq]
  · intro hy hw
    simp only [hy, if_false]
    rw [timeDurationToRuleDuration.f_exact "" ms "w" 604800000 hms (by decide)]
    simp only [hw, if_false]
    rw [timeDurationToRuleDuration.plain_steps "" ms hms]
    refine ⟨by simp, by omega, by omega, by omega, by omega⟩

theorem timeDurationToRuleDuration_years_and_weeks_witness :
    timeDurationToRuleDuration (90 * 86400000000000) =
      durationComponent 90 "d" ++ (durationComponent 0 "h" ++ (durationComponent 0 "m" ++
        (durationComponent 0 "s" ++ durationComponent 0 "ms"))) ∧
      timeDurationToRuleDuration (90 * 86400000000000) = "90d" :=
  ⟨((timeDurationToRuleDuration_years_and_weeks (90 * 86400000000000) (by decide)).2.2
      (by decide) (by decide)).1, by decide⟩

theorem Nat.toDigitsCore_head_ne_zero :
    ∀ (fuel n : Nat) (ds : List Char), 0 < n → n ≤ fuel →
      ∃ c cs, Nat.toDigitsCore 10 fuel n ds = c :: cs ∧ c ≠ '0' := by
  intro fuel
  induction fuel with
  | zero =>
    intro n ds hn hle
    omega
  | succ fuel ih =>
    intro n ds hn hle
    simp only [Nat.toDigitsCore]
    by_cases h : n / 10 = 0
    · simp only [h, if_true]
      refine ⟨_, _, rfl, ?_⟩
      have hlt : n < 10 := by omega
      interval_cases n <;> decide
    · simp only [h, if_false]
      exact ih (n / 10) _ (by omega) (by omega)

theorem Int.toString_head_ne_zero (v : Int) (hv : 0 < v) :
    ∃ c cs, (toString v).data = c :: cs ∧ c ≠ '0' := by
  obtain ⟨n, rfl⟩ : ∃ n : Nat, v = Int.ofNat n := ⟨v.toNat, by
    simp only [Int.ofNat_eq_coe]
    omega⟩
  have hn : 0 < n := by
    simp only [Int.ofNat_eq_coe] at hv
    omega
  exact Nat.toDigitsCore_head_ne_zero (n + 1) n [] hn (Nat.le_succ n)

theorem renderTokens_ne_zero_seconds (ts : List (Int × String)) (hne : ts ≠ [])
    (hpos : ∀ t ∈ ts, 0 < t.1) : renderTokens ts ≠ "0s" := by
  rcases ts with _ | ⟨⟨v, unit⟩, rest⟩
  · exact absurd rfl hne
  · obtain ⟨c, cs, hdata, hc⟩ := Int.toString_head_ne_zero v (hpos (v, unit) (by simp))
    intro h
    have hd := congrArg String.data h
    simp only [renderTokens, String.data_append, hdata, List.cons_append] at hd
    have : c = '0' := (List.cons.inj hd).1
    exact hc this

theorem renderTokens_filter_cons (v : Int) (unit : String) (ts : List (Int × String)) :
    renderTokens (List.filter (fun t => decide (0 < t.1)) ((v, unit) :: ts)) =
      durationComponent v unit ++
        renderTokens (List.filter (fun t => decide (0 < t.1)) ts) := by
  by_cases h : 0 < v
  · simp [List.filter_cons, h, renderTokens, durationComponent, String.append_assoc]
  · simp [List.filter_cons, h, durationComponent]

theorem sum_filter_positive (l : List (Int × String)) (h : ∀ t ∈ l, 0 ≤ t.1) :
    ((l.filter fun t => decide (0 < t.1)).map fun t => t.1 * unitLength t.2).sum =
      (l.map fun t => t.1 * unitLength t.2).sum := by
  induction l with
  | nil => rfl
  | cons t l ih =>
    have ht := h t (by simp)
    have ih' := ih (fun x hx => h x (by simp [hx]))
    by_cases hp : 0 < t.1
    · simp [List.filter_cons, hp, ih']
    · have h0 : t.1 = 0 := by omega
      simp [List.filter_cons, hp, ih', h0]

/-- C12: `timeDurationToRuleDuration` preserves the value at millisecond precision. For
`d ≥ 0` and `ms` the whole milliseconds of `d`, the result is a non-empty concatenation of
tokens `<number><unit>` whose units are taken, in this order and at most once each, from
y, w, d, h, m, s, ms, and whose numbers times the lengths of their units add up to `ms`; the
result is "0s" exactly when `ms = 0`, so for every `d` below one millisecond. -/
theorem timeDurationToRuleDuration_value_preserving (d : Int) (hd : 0 ≤ d) :
    ∃ ts : List (Int × String),
      timeDurationToRuleDuration d = renderTokens ts ∧ ts ≠ [] ∧
      (∀ t ∈ ts, 0 ≤ t.1) ∧
      (ts.map Prod.snd).Sublist ["y", "w", "d", "h", "m", "s", "ms"] ∧
      (ts.map fun t => t.1 * unitLength t.2).sum = d.tdiv 1000000 ∧
      (timeDurationToRuleDuration d = "0s" ↔ d.tdiv 1000000 = 0) ∧
      (d < 1000000 → timeDurationToRuleDuration d = "0s") := by
  have hms : 0 ≤ d.tdiv 1000000 := by
    rw [Int.tdiv_eq_ediv hd (by decide)]
    omega
  have hsmall : d < 1000000 → d.tdiv 1000000 = 0 := by
    intro h
    rw [Int.tdiv_eq_ediv hd (by decide)]
    omega
  by_cases h0 : d.tdiv 1000000 = 0
  · have hres : timeDurationToRuleDuration d = "0s" := by
      rw [timeDurationToRuleDuration_unfold]
      simp [h0]
    refine ⟨[(0, "s")], ?_, by simp, by simp, by decide, ?_, ?_, fun _ => hres⟩
    · rw [hres]
      decide
    · simp [h0]
    · simp [hres, h0]
  · have hpos : 0 < d.tdiv 1000000 := by omega
    obtain ⟨hy, hw, hrest⟩ := timeDurationToRuleDuration_years_and_weeks d hpos
    have hsmall' : d < 1000000 → timeDurationToRuleDuration d = "0s" :=
      fun h => absurd (hsmall h) h0
    generalize d.tdiv 1000000 = ms at hms h0 hpos hy hw hrest
    by_cases hY : ms % 31536000000 = 0
    · have hq : 0 < ms / 31536000000 := by omega
      have hne := renderTokens_ne_zero_seconds [(ms / 31536000000, "y")] (by simp)
        (by simpa using hq)
      have hres : timeDurationToRuleDuration d = renderTokens [(ms / 31536000000, "y")] := by
        rw [hy hY]
        simp [renderTokens]
      refine ⟨[(ms / 31536000000, "y")], hres, by simp, ?_,
        (show List.Sublist ["y"] _ by decide), ?_, ?_, hsmall'⟩
      · simpa using Int.le_of_lt hq
      · simp only [List.map_cons, List.map_nil, List.sum_cons, List.sum_nil, unitLength]
        simp only [if_true]
        omega
      · rw [hres]
        exact ⟨fun h => absurd h hne, fun h => absurd h h0⟩
    · by_cases hW : ms % 604800000 = 0
      · have hq : 0 < ms / 604800000 := by omega
        have hne := renderTokens_ne_zero_seconds [(ms / 604800000, "w")] (by simp)
          (by simpa using hq)
        have hres : timeDurationToRuleDuration d = renderTokens [(ms / 604800000, "w")] := by
          rw [hw hY hW]
          simp [renderTokens]
        refine ⟨[(ms / 604800000, "w")], hres, by simp, ?_,
          (show List.Sublist ["w"] _ by decide), ?_, ?_, hsmall'⟩
        · simpa using Int.le_of_lt hq
        · simp [unitLength]
          omega
        · rw [hres]
          exact ⟨fun h => absurd h hne, fun h => absurd h h0⟩
      · have hall : ∀ t ∈ [(ms / 86400000, "d"), (ms % 86400000 / 3600000, "h"),
            (ms % 3600000 / 60000, "m"), (ms % 60000 / 1000, "s"), (ms % 1000, "ms")],
            (0 : Int) ≤ t.1 := by
          intro t ht
          simp only [List.mem_cons, List.mem_singleton, List.not_mem_nil, or_false] at ht
          rcases ht with rfl | rfl | rfl | rfl | rfl <;> simp only <;> omega
        have hsum := sum_filter_positive _ hall
        have htotal : (List.map (fun t : Int × String => t.1 * unitLength t.2)
            [(ms / 86400000, "d"), (ms % 86400000 / 3600000, "h"),
              (ms % 3600000 / 60000, "m"), (ms % 60000 / 1000, "s"),
              (ms % 1000, "ms")]).sum = ms := by
          simp [unitLength]
          omega
        have hres : timeDurationToRuleDuration d =
            renderTokens (List.filter (fun t => decide (0 < t.1))
              [(ms / 86400000, "d"), (ms % 86400000 / 3600000, "h"),
                (ms % 3600000 / 60000, "m"), (ms % 60000 / 1000, "s"),
                (ms % 1000, "ms")]) := by
          rw [(hrest hY hW).1]
          simp only [renderTokens_filter_cons, List.filter_nil, renderTokens,
            String.append_empty]
        have hnonempty : List.filter (fun t : Int × String => decide (0 < t.1))
            [(ms / 86400000, "d"), (ms % 86400000 / 3600000, "h"),
              (ms % 3600000 / 60000, "m"), (ms % 60000 / 1000, "s"),
              (ms % 1000, "ms")] ≠ [] := by
          intro hnil
          rw [hnil, htotal] at hsum
          simp at hsum
          omega
        have hpos' : ∀ t ∈ List.filter (fun t : Int × String => decide (0 < t.1))
            [(ms / 86400000, "d"), (ms % 86400000 / 3600000, "h"),
              (ms % 3600000 / 60000, "m"), (ms % 60000 / 1000, "s"),
              (ms % 1000, "ms")], 0 < t.1 := by
          intro t ht
          simpa using (List.mem_filter.mp ht).2
        refine ⟨_, hres, hnonempty, fun t ht => Int.le_of_lt (hpos' t ht), ?_, ?_, ?_,
          hsmall'⟩
        · exact ((List.filter_sublist _).map Prod.snd).trans
            (show List.Sublist ["d", "h", "m", "s", "ms"] _ by decide)
        · rw [hsum, htotal]
        · rw [hres]
          exact ⟨fun h => absurd h (renderTokens_ne_zero_seconds _ hnonempty hpos'),
            fun h => absurd h h0⟩

theorem timeDurationToRuleDuration_value_preserving_witness :
    ∃ ts : List (Int × String),
      timeDurationToRuleDuration 3723004000000 = renderTokens ts ∧ ts ≠ [] ∧
      (∀ t ∈ ts, 0 ≤ t.1) ∧
      (ts.map Prod.snd).Sublist ["y", "w", "d", "h", "m", "s", "ms"] ∧
      (ts.map fun t => t.1 * unitLength t.2).sum = Int.tdiv 3723004000000 1000000 ∧
      (timeDurationToRuleDuration 3723004000000 = "0s" ↔
        Int.tdiv 3723004000000 1000000 = 0) ∧
      ((3723004000000 : Int) < 1000000 → timeDurationToRuleDuration 3723004000000 = "0s") :=
  timeDurationToRuleDuration_value_preserving 3723004000000 (by decide)

/-! ## Paths -/

theorem startsWithApi_append (s t : String) (h : startsWithApi s = true) :
    startsWithApi (s ++ t) = true := by
  unfold startsWithApi at *
  rw [List.isPrefixOf_iff_prefix] at *
  rw [String.data_append]
  exact h.trans (List.prefix_append _ _)

theorem startsWithApi_renderPath (s : String) (ps : List PathPart)
    (h : startsWithApi s = true) : startsWithApi (renderPath (.lit s :: ps)) = true :=
  startsWithApi_append _ _ h

theorem Operation.pathTemplate_startsWithApi {π δ : Type} (op : Operation π δ) :
    startsWithApi (renderPath op.pathTemplate) = true := by
  cases op <;> exact startsWithApi_renderPath _ _ (by decide)

theorem countChar_append (ch : Char) (s t : String) :
    countChar ch (s ++ t) = countChar ch s + countChar ch t := by
  simp [countChar, String.data_append, List.count_append]

theorem Nat.toDigitsCore_chars (ch : Char) (hch : ch = '/' ∨ ch = '?' ∨ ch = '#') :
    ∀ (fuel n : Nat) (ds : List Char), ch ∉ ds → ch ∉ Nat.toDigitsCore 10 fuel n ds := by
  intro fuel
  induction fuel with
  | zero =>
    intro n ds hds
    simpa [Nat.toDigitsCore] using hds
  | succ fuel ih =>
    intro n ds hds
    have hdigit : ch ≠ Nat.digitChar (n % 10) := by
      have hlt : n % 10 < 10 := Nat.mod_lt _ (by decide)
      generalize n % 10 = k at hlt
      rcases hch with rfl | rfl | rfl <;> interval_cases k <;> decide
    have hcons : ch ∉ Nat.digitChar (n % 10) :: ds := by
      simp [hdigit, hds]
    simp only [Nat.toDigitsCore]
    split
    · exact hcons
    · exact ih _ _ hcons

theorem countChar_toString_int (ch : Char) (hch : ch = '/' ∨ ch = '?' ∨ ch = '#') (n : Int) :
    countChar ch (toString n) = 0 := by
  have hnat : ∀ m : Nat, ch ∉ (Nat.repr m).data := fun m =>
    Nat.toDigitsCore_chars ch hch (m + 1) m [] (List.not_mem_nil ch)
  unfold countChar
  rw [List.count_eq_zero]
  cases n with
  | ofNat m => exact hnat m
  | negSucc m =>
    show ch ∉ ("-" ++ Nat.repr (m + 1)).data
    rw [String.data_append, List.mem_append]
    rintro (h | h)
    · rcases hch with rfl | rfl | rfl <;> revert h <;> decide
    · exact hnat _ h

theorem countChar_renderPath (ch : Char) (hch : ch = '/' ∨ ch = '?' ∨ ch = '#') :
    ∀ ps : List PathPart,
      countChar ch (renderPath ps) = templateCount ch ps + identCount ch ps := by
  intro ps
  induction ps with
  | nil => rfl
  | cons p ps ih =>
    cases p with
    | lit s =>
      simp only [renderPath, PathPart.render, countChar_append, templateCount, identCount, ih]
      omega
    | ident s =>
      simp only [renderPath, PathPart.render, countChar_append, templateCount, identCount, ih]
      omega
    | number n =>
      simp only [renderPath, PathPart.render, countChar_append, templateCount, identCount, ih,
        countChar_toString_int ch hch n]
      omega

theorem Operation.pathTemplate_no_query_or_fragment {π δ : Type} (op : Operation π δ) :
    templateCount '?' op.pathTemplate = 0 ∧ templateCount '#' op.pathTemplate = 0 := by
  cases op <;> try exact ⟨rfl, rfl⟩
  rename_i jsonMarshal ctx playlist
  by_cases h : playlist.UID = "" <;>
    simp [Operation.pathTemplate, Playlist.QueryIDPart, templateCount, h] <;> decide

theorem syncCalculatedRuleFields_UID (rule : AlertRule) :
    (syncCalculatedRuleFields rule).UID = rule.UID := by
  unfold syncCalculatedRuleFields
  split <;> rfl

theorem syncCalculatedRuleGroupFields_FolderUID (group : RuleGroup) :
    (syncCalculatedRuleGroupFields group).FolderUID = group.FolderUID := rfl

theorem syncCalculatedRuleGroupFields_Title (group : RuleGroup) :
    (syncCalculatedRuleGroupFields group).Title = group.Title := rfl

theorem IsCloudPluginInstalledContext_paths (c : Client δ) (ctx : Context)
    (stackSlug pluginSlug : String) :
    ((IsCloudPluginInstalledContext c ctx stackSlug pluginSlug).2.2.trace = c.trace ∨
        ∃ call, (IsCloudPluginInstalledContext c ctx stackSlug pluginSlug).2.2.trace =
            c.trace ++ [call] ∧
          call.path = renderPath [.lit "/api/instances/", .ident stackSlug, .lit "/plugins/",
            .ident pluginSlug]) ∧
      ((IsCloudPluginInstalledContext c ctx stackSlug pluginSlug).2.2.sent = c.sent ∨
        ∃ call, (IsCloudPluginInstalledContext c ctx stackSlug pluginSlug).2.2.sent =
            c.sent ++ [call] ∧
          call.path = renderPath [.lit "/api/instances/", .ident stackSlug, .lit "/plugins/",
            .ident pluginSlug]) := by
  rcases hnr : c.newRequestErr ⟨ctx, "GET",
    "/api/instances/" ++ (stackSlug ++ ("/plugins/" ++ pluginSlug)), [], none, false⟩
    with _ | err
  · rcases hdo : c.doReplies c.sent.length with err | resp
    · simp [IsCloudPluginInstalledContext, Client.newRequest, Client.Do, hnr, hdo, renderPath,
        PathPart.render, String.append_assoc]
    · by_cases h200 : resp.StatusCode = 200
      · simp [IsCloudPluginInstalledContext, Client.newRequest, Client.Do, hnr, hdo, h200,
          renderPath, PathPart.render, String.append_assoc]
      · by_cases h404 : resp.StatusCode = 404
        · simp [IsCloudPluginInstalledContext, Client.newRequest, Client.Do, hnr, hdo, h404,
            renderPath, PathPart.render, String.append_assoc]
        · rcases hb : resp.Body with err | body <;>
            simp [IsCloudPluginInstalledContext, Client.newRequest, Client.Do, hnr, hdo, h200,
              h404, hb, renderPath, PathPart.render, String.append_assoc]
  · simp [IsCloudPluginInstalledContext, Client.newRequest, hnr, String.append_assoc]

set_option maxHeartbeats 4000000 in
/-- The path of the call that an operation makes is its path template with the arguments
put in as they are: an invocation logs no call of `c.request` or one whose path is the
rendered template, and sends no request itself or one whose path is the rendered
template. -/
theorem Operation.run_paths {π δ : Type} [Inhabited δ] (op : Operation π δ)
    (c : Client op.Dest) :
    ((op.run c).2.trace = c.trace ∨
        ∃ call, (op.run c).2.trace = c.trace ++ [call] ∧
          call.path = renderPath op.pathTemplate) ∧
      ((op.run c).2.sent = c.sent ∨
        ∃ call, (op.run c).2.sent = c.sent ++ [call] ∧
          call.path = renderPath op.pathTemplate) := by
  cases op
  case CreateUserContext jsonMarshal ctx user =>
    rcases hrep : c.replies c.trace.length with e | v <;>
    rcases hjm : jsonMarshal user with e2 | data <;>
    simp [Operation.run, Operation.pathTemplate, renderPath, PathPart.render, String.append_assoc,
      Client.request, Client.requestNil, Gapi.CreateUserContext, hrep, hjm]
  case DeleteUserContext ctx id =>
    rcases hrep : c.replies c.trace.length with e | v <;>
    simp [Operation.run, Operation.pathTemplate, renderPath, PathPart.render, String.append_assoc,
      Client.request, Client.requestNil, Gapi.DeleteUserContext, hrep]
  case UpdateUserPasswordContext jsonMarshal ctx id password =>
    rcases hrep : c.replies c.trace.length with e | v <;>
    rcases hjm : jsonMarshal ([("password", password)]) with e2 | data <;>
    simp [Operation.run, Operation.pathTemplate, renderPath, PathPart.render, String.append_assoc,
      Client.request, Client.requestNil, Gapi.UpdateUserPasswordContext, hrep, hjm]
  case UpdateUserPermissionsContext jsonMarshal ctx id isAdmin =>
    rcases hrep : c.replies c.trace.length with e | v <;>
    rcases hjm : jsonMarshal ([("isGrafanaAdmin", isAdmin)]) with e2 | data <;>
    simp [Operation.run, Operation.pathTemplate, renderPath, PathPart.render, String.append_assoc,
      Client.request, Client.requestNil, Gapi.UpdateUserPermissionsContext, hrep, hjm]
  case PauseAllAlertsContext jsonMarshal ctx =>
    rcases hrep : c.replies c.trace.length with e | v <;>
    rcases hjm : jsonMarshal ({ Paused := true } : PauseAlertRequest) with e2 | data <;>
    simp [Operation.run, Operation.pathTemplate, renderPath, PathPart.render, String.append_assoc,
      Client.request, Client.requestNil, Gapi.PauseAllAlertsContext, hrep, hjm]
  case AlertRuleContext ctx uid =>
    rcases hrep : c.replies c.trace.length with e | v <;>
    simp [Operation.run, Operation.pathTemplate, renderPath, PathPart.render, String.append_assoc,
      Client.request, Client.requestNil, Gapi.AlertRuleContext, hrep]
  case AlertRuleGroupContext ctx folderUID name =>
    rcases hrep : c.replies c.trace.length with e | v <;>
    simp [Operation.run, Operation.pathTemplate, renderPath, PathPart.render, String.append_assoc,
      Client.request, Client.requestNil, Gapi.AlertRuleGroupContext, hrep]
  case SetAlertRuleGroupContext jsonMarshal ctx group =>
    rcases hrep : c.replies c.trace.length with e | v <;>
    rcases hjm : jsonMarshal (syncCalculatedRuleGroupFields group) with e2 | data <;>
    simp [Operation.run, Operation.pathTemplate, renderPath, PathPart.render, String.append_assoc,
      Client.request, Client.requestNil, Gapi.SetAlertRuleGroupContext,
      syncCalculatedRuleGroupFields_FolderUID, syncCalculatedRuleGroupFields_Title, hrep, hjm]
  case NewAlertRuleContext jsonMarshal ctx ar =>
    rcases hrep : c.replies c.trace.length with e | v <;>
    rcases hjm : jsonMarshal (syncCalculatedRuleFields ar) with e2 | data <;>
    simp [Operation.run, Operation.pathTemplate, renderPath, PathPart.render, String.append_assoc,
      Client.request, Client.requestNil, Gapi.NewAlertRuleContext, hrep, hjm]
  case UpdateAlertRuleContext jsonMarshal ctx ar =>
    rcases hrep : c.replies c.trace.length with e | v <;>
    rcases hjm : jsonMarshal (syncCalculatedRuleFields ar) with e2 | data <;>
    simp [Operation.run, Operation.pathTemplate, renderPath, PathPart.render, String.append_assoc,
      Client.request, Client.requestNil, Gapi.UpdateAlertRuleContext,
      syncCalculatedRuleFields_UID, hrep, hjm]
  case DeleteAlertRuleContext ctx uid =>
    rcases hrep : c.replies c.trace.length with e | v <;>
    simp [Operation.run, Operation.pathTemplate, renderPath, PathPart.render, String.append_assoc,
      Client.request, Client.requestNil, Gapi.DeleteAlertRuleContext, hrep]
  case MessageTemplatesContext ctx =>
    rcases hrep : c.replies c.trace.length with e | v <;>
    simp [Operation.run, Operation.pathTemplate, renderPath, PathPart.render, String.append_assoc,
      Client.request, Client.requestNil, Gapi.MessageTemplatesContext, hrep]
  case MessageTemplateContext ctx name =>
    rcases hrep : c.replies c.trace.length with e | v <;>
    simp [Operation.run, Operation.pathTemplate, renderPath, PathPart.render, String.append_assoc,
      Client.request, Client.requestNil, Gapi.MessageTemplateContext, hrep]
  case SetMessageTemplateContext jsonMarshal ctx name content =>
    rcases hrep : c.replies c.trace.length with e | v <;>
    rcases hjm : jsonMarshal ({ Template := content } : TemplateRequest) with e2 | data <;>
    simp [Operation.run, Operation.pathTemplate, renderPath, PathPart.render, String.append_assoc,
      Client.request, Client.requestNil, Gapi.SetMessageTemplateContext, hrep, hjm]
  case DeleteMessageTemplateContext ctx name =>
    rcases hrep : c.replies c.trace.length with e | v <;>
    simp [Operation.run, Operation.pathTemplate, renderPath, PathPart.render, String.append_assoc,
      Client.request, Client.requestNil, Gapi.DeleteMessageTemplateContext, hrep]
  case MuteTimingsContext ctx =>
    rcases hrep : c.replies c.trace.length with e | v <;>
    simp [Operation.run, Operation.pathTemplate, renderPath, PathPart.render, String.append_assoc,
      Client.request, Client.requestNil, Gapi.MuteTimingsContext, hrep]
  case MuteTimingContext ctx name =>
    rcases hrep : c.replies c.trace.length with e | v <;>
    simp [Operation.run, Operation.pathTemplate, renderPath, PathPart.render, String.append_assoc,
      Client.request, Client.requestNil, Gapi.MuteTimingContext, hrep]
  case NewMuteTimingContext jsonMarshal ctx mt =>
    rcases hrep : c.replies c.trace.length with e | v <;>
    rcases hjm : jsonMarshal mt with e2 | data <;>
    simp [Operation.run, Operation.pathTemplate, renderPath, PathPart.render, String.append_assoc,
      Client.request, Client.requestNil, Gapi.NewMuteTimingContext, hrep, hjm]
  case UpdateMuteTimingContext jsonMarshal ctx mt =>
    rcases hrep : c.replies c.trace.length with e | v <;>
    rcases hjm : jsonMarshal mt with e2 | data <;>
    simp [Operation.run, Operation.pathTemplate, renderPath, PathPart.render, String.append_assoc,
      Client.request, Client.requestNil, Gapi.UpdateMuteTimingContext, hrep, hjm]
  case DeleteMuteTimingContext ctx name =>
    rcases hrep : c.replies c.trace.length with e | v <;>
    simp [Operation.run, Operation.pathTemplate, renderPath, PathPart.render, String.append_assoc,
      Client.request, Client.requestNil, Gapi.DeleteMuteTimingContext, hrep]
  case AlertNotificationsContext ctx =>
    rcases hrep : c.replies c.trace.length with e | v <;>
    simp [Operation.run, Operation.pathTemplate, renderPath, PathPart.render, String.append_assoc,
      Client.request, Client.requestNil, Gapi.AlertNotificationsContext, hrep]
  case AlertNotificationContext ctx id =>
    rcases hrep : c.replies c.trace.length with e | v <;>
    simp [Operation.run, Operation.pathTemplate, renderPath, PathPart.render, String.append_assoc,
      Client.request, Client.requestNil, Gapi.AlertNotificationContext, hrep]
  case NewAlertNotificationContext jsonMarshal ctx a =>
    rcases hrep : c.replies c.trace.length with e | v <;>
    rcases hjm : jsonMarshal a with e2 | data <;>
    simp [Operation.run, Operation.pathTemplate, renderPath, PathPart.render, String.append_assoc,
      Client.request, Client.requestNil, Gapi.NewAlertNotificationContext, hrep, hjm]
  case UpdateAlertNotificationContext jsonMarshal ctx a =>
    rcases hrep : c.replies c.trace.length with e | v <;>
    rcases hjm : jsonMarshal a with e2 | data <;>
    simp [Operation.run, Operation.pathTemplate, renderPath, PathPart.render, String.append_assoc,
      Client.request, Client.requestNil, Gapi.UpdateAlertNotificationContext, hrep, hjm]
  case DeleteAlertNotificationContext ctx id =>
    rcases hrep : c.replies c.trace.length with e | v <;>
    simp [Operation.run, Operation.pathTemplate, renderPath, PathPart.render, String.append_assoc,
      Client.request, Client.requestNil, Gapi.DeleteAlertNotificationContext, hrep]
  case AnnotationsContext ctx params =>
    rcases hrep : c.replies c.trace.length with e | v <;>
    simp [Operation.run, Operation.pathTemplate, renderPath, PathPart.render, String.append_assoc,
      Client.request, Client.requestNil, Gapi.AnnotationsContext, hrep]
  case NewAnnotationContext jsonMarshal ctx a =>
    rcases hrep : c.replies c.trace.length with e | v <;>
    rcases hjm : jsonMarshal a with e2 | data <;>
    simp [Operation.run, Operation.pathTemplate, renderPath, PathPart.render, String.append_assoc,
      Client.request, Client.requestNil, Gapi.NewAnnotationContext, hrep, hjm]
  case NewGraphiteAnnotationContext jsonMarshal ctx gfa =>
    rcases hrep : c.replies c.trace.length with e | v <;>
    rcases hjm : jsonMarshal gfa with e2 | data <;>
    simp [Operation.run, Operation.pathTemplate, renderPath, PathPart.render, String.append_assoc,
      Client.request, Client.requestNil, Gapi.NewGraphiteAnnotationContext, hrep, hjm]
  case UpdateAnnotationContext jsonMarshal ctx id a =>
    rcases hrep : c.replies c.trace.length with e | v <;>
    rcases hjm : jsonMarshal a with e2 | data <;>
    simp [Operation.run, Operation.pathTemplate, renderPath, PathPart.render, String.append_assoc,
      Client.request, Client.requestNil, Gapi.UpdateAnnotationContext, hrep, hjm]
  case PatchAnnotationContext jsonMarshal ctx id a =>
    rcases hrep : c.replies c.trace.length with e | v <;>
    rcases hjm : jsonMarshal a with e2 | data <;>
    simp [Operation.run, Operation.pathTemplate, renderPath, PathPart.render, String.append_assoc,
      Client.request, Client.requestNil, Gapi.PatchAnnotationContext, hrep, hjm]
  case DeleteAnnotationContext ctx id =>
    rcases hrep : c.replies c.trace.length with e | v <;>
    simp [Operation.run, Operation.pathTemplate, renderPath, PathPart.render, String.append_assoc,
      Client.request, Client.requestNil, Gapi.DeleteAnnotationContext, hrep]
  case DeleteAnnotationByRegionIDContext ctx id =>
    rcases hrep : c.replies c.trace.length with e | v <;>
    simp [Operation.run, Operation.pathTemplate, renderPath, PathPart.render, String.append_assoc,
      Client.request, Client.requestNil, Gapi.DeleteAnnotationByRegionIDContext, hrep]
  case CreateAPIKeyContext jsonMarshal ctx request =>
    rcases hrep : c.replies c.trace.length with e | v <;>
    rcases hjm : jsonMarshal request with e2 | data <;>
    simp [Operation.run, Operation.pathTemplate, renderPath, PathPart.render, String.append_assoc,
      Client.request, Client.requestNil, Gapi.CreateAPIKeyContext, hrep, hjm]
  case GetAPIKeysContext ctx includeExpired =>
    rcases hrep : c.replies c.trace.length with e | v <;>
    simp [Operation.run, Operation.pathTemplate, renderPath, PathPart.render, String.append_assoc,
      Client.request, Client.requestNil, Gapi.GetAPIKeysContext, hrep]
  case DeleteAPIKeyContext ctx id =>
    rcases hrep : c.replies c.trace.length with e | v <;>
    simp [Operation.run, Operation.pathTemplate, renderPath, PathPart.render, String.append_assoc,
      Client.request, Client.requestNil, Gapi.DeleteAPIKeyContext, hrep]
  case GetBuiltInRoleAssignmentsContext ctx =>
    rcases hrep : c.replies c.trace.length with e | v <;>
    simp [Operation.run, Operation.pathTemplate, renderPath, PathPart.render, String.append_assoc,
      Client.request, Client.requestNil, Gapi.GetBuiltInRoleAssignmentsContext, baseURL, hrep]
  case NewBuiltInRoleAssignmentContext jsonMarshal ctx builtInRoleAssignment =>
    rcases hrep : c.replies c.trace.length with e | v <;>
    rcases hjm : jsonMarshal builtInRoleAssignment with e2 | data <;>
    simp [Operation.run, Operation.pathTemplate, renderPath, PathPart.render, String.append_assoc,
      Client.request, Client.requestNil, Gapi.NewBuiltInRoleAssignmentContext, baseURL, hrep,
      hjm]
  case DeleteBuiltInRoleAssignmentContext jsonMarshal ctx builtInRole =>
    rcases hrep : c.replies c.trace.length with e | v <;>
    rcases hjm : jsonMarshal builtInRole with e2 | data <;>
    simp [Operation.run, Operation.pathTemplate, renderPath, PathPart.render, String.append_assoc,
      Client.request, Client.requestNil, Gapi.DeleteBuiltInRoleAssignmentContext, baseURL, hrep,
      hjm]
  case CreateCloudAPIKeyContext jsonMarshal ctx org input =>
    rcases hrep : c.replies c.trace.length with e | v <;>
    rcases hjm : jsonMarshal input with e2 | data <;>
    simp [Operation.run, Operation.pathTemplate, renderPath, PathPart.render, String.append_assoc,
      Client.request, Client.requestNil, Gapi.CreateCloudAPIKeyContext, hrep, hjm]
  case ListCloudAPIKeysContext ctx org =>
    rcases hrep : c.replies c.trace.length with e | v <;>
    simp [Operation.run, Operation.pathTemplate, renderPath, PathPart.render, String.append_assoc,
      Client.request, Client.requestNil, Gapi.ListCloudAPIKeysContext, hrep]
  case DeleteCloudAPIKeyContext ctx org keyName =>
    rcases hrep : c.replies c.trace.length with e | v <;>
    simp [Operation.run, Operation.pathTemplate, renderPath, PathPart.render, String.append_assoc,
      Client.request, Client.requestNil, Gapi.DeleteCloudAPIKeyContext, hrep]
  case InstallCloudPluginContext jsonMarshal ctx stackSlug pluginSlug pluginVersion =>
    rcases hrep : c.replies c.trace.length with e | v <;>
    rcases hjm : jsonMarshal ({ Plugin := pluginSlug, Version := pluginVersion } : InstallPluginRequest) with e2 | data <;>
    simp [Operation.run, Operation.pathTemplate, renderPath, PathPart.render, String.append_assoc,
      Client.request, Client.requestNil, Gapi.InstallCloudPluginContext, hrep, hjm]
  case UninstallCloudPluginContext ctx stackSlug pluginSlug =>
    rcases hrep : c.replies c.trace.length with e | v <;>
    simp [Operation.run, Operation.pathTemplate, renderPath, PathPart.render, String.append_assoc,
      Client.request, Client.requestNil, Gapi.UninstallCloudPluginContext, hrep]
  case IsCloudPluginInstalledContext ctx stackSlug pluginSlug =>
    exact IsCloudPluginInstalledContext_paths c ctx stackSlug pluginSlug
  case GetCloudPluginInstallationContext ctx stackSlug pluginSlug =>
    rcases hrep : c.replies c.trace.length with e | v <;>
    simp [Operation.run, Operation.pathTemplate, renderPath, PathPart.render, String.append_assoc,
      Client.request, Client.requestNil, Gapi.GetCloudPluginInstallationContext, hrep]
  case PluginBySlugContext ctx slug =>
    rcases hrep : c.replies c.trace.length with e | v <;>
    simp [Operation.run, Operation.pathTemplate, renderPath, PathPart.render, String.append_assoc,
      Client.request, Client.requestNil, Gapi.PluginBySlugContext, hrep]
  case PluginByIDContext ctx pluginID =>
    rcases hrep : c.replies c.trace.length with e | v <;>
    simp [Operation.run, Operation.pathTemplate, renderPath, PathPart.render, String.append_assoc,
      Client.request, Client.requestNil, Gapi.PluginByIDContext, hrep]
  case SaveDashboardContext jsonMarshal ctx model overwrite =>
    rcases hrep : c.replies c.trace.length with e | v <;>
    rcases hjm : jsonMarshal ({ dashboard := model, overwrite := overwrite } : SaveDashboardWrapper π) with e2 | data <;>
    simp [Operation.run, Operation.pathTemplate, renderPath, PathPart.render, String.append_assoc,
      Client.request, Client.requestNil, Gapi.SaveDashboardContext, hrep, hjm]
  case NewDashboardContext jsonMarshal ctx dashboard =>
    rcases hrep : c.replies c.trace.length with e | v <;>
    rcases hjm : jsonMarshal dashboard with e2 | data <;>
    simp [Operation.run, Operation.pathTemplate, renderPath, PathPart.render, String.append_assoc,
      Client.request, Client.requestNil, Gapi.NewDashboardContext, hrep, hjm]
  case DashboardContext ctx slug =>
    rcases hrep : c.replies c.trace.length with e | (_ | v) <;>
    simp [Operation.run, Operation.pathTemplate, renderPath, PathPart.render, String.append_assoc,
      Client.request, Client.requestNil, Gapi.DashboardContext, Gapi.dashboard,
      Gapi.dashboardContext, hrep]
  case DashboardByUIDContext ctx uid =>
    rcases hrep : c.replies c.trace.length with e | (_ | v) <;>
    simp [Operation.run, Operation.pathTemplate, renderPath, PathPart.render, String.append_assoc,
      Client.request, Client.requestNil, Gapi.DashboardByUIDContext, Gapi.dashboard,
      Gapi.dashboardContext, hrep]
  case DashboardsByIDsContext jsonMarshal ctx ids =>
    rcases hrep : c.replies c.trace.length with e | v <;>
    rcases hjm : jsonMarshal ids with e2 | data <;>
    simp [Operation.run, Operation.pathTemplate, renderPath, PathPart.render, String.append_assoc,
      Client.request, Client.requestNil, Gapi.DashboardsByIDsContext, Gapi.FolderDashboardSearch,
      Gapi.FolderDashboardSearchContext, hrep, hjm]
  case DeleteDashboardContext ctx slug =>
    rcases hrep : c.replies c.trace.length with e | v <;>
    simp [Operation.run, Operation.pathTemplate, renderPath, PathPart.render, String.append_assoc,
      Client.request, Client.requestNil, Gapi.DeleteDashboardContext, Gapi.deleteDashboard,
      Gapi.deleteDashboardContext, hrep]
  case DeleteDashboardByUIDContext ctx uid =>
    rcases hrep : c.replies c.trace.length with e | v <;>
    simp [Operation.run, Operation.pathTemplate, renderPath, PathPart.render, String.append_assoc,
      Client.request, Client.requestNil, Gapi.DeleteDashboardByUIDContext, Gapi.deleteDashboard,
      Gapi.deleteDashboardContext, hrep]
  case EnableDatasourcePermissionsContext ctx id =>
    rcases hrep : c.replies c.trace.length with e | v <;>
    simp [Operation.run, Operation.pathTemplate, renderPath, PathPart.render, String.append_assoc,
      Client.request, Client.requestNil, Gapi.EnableDatasourcePermissionsContext, hrep]
  case DisableDatasourcePermissionsContext ctx id =>
    rcases hrep : c.replies c.trace.length with e | v <;>
    simp [Operation.run, Operation.pathTemplate, renderPath, PathPart.render, String.append_assoc,
      Client.request, Client.requestNil, Gapi.DisableDatasourcePermissionsContext, hrep]
  case DatasourcePermissionsContext ctx id =>
    rcases hrep : c.replies c.trace.length with e | v <;>
    simp [Operation.run, Operation.pathTemplate, renderPath, PathPart.render, String.append_assoc,
      Client.request, Client.requestNil, Gapi.DatasourcePermissionsContext, hrep]
  case AddDatasourcePermissionContext jsonMarshal ctx id item =>
    rcases hrep : c.replies c.trace.length with e | v <;>
    rcases hjm : jsonMarshal item with e2 | data <;>
    simp [Operation.run, Operation.pathTemplate, renderPath, PathPart.render, String.append_assoc,
      Client.request, Client.requestNil, Gapi.AddDatasourcePermissionContext, hrep, hjm]
  case RemoveDatasourcePermissionContext ctx id permissionID =>
    rcases hrep : c.replies c.trace.length with e | v <;>
    simp [Operation.run, Operation.pathTemplate, renderPath, PathPart.render, String.append_assoc,
      Client.request, Client.requestNil, Gapi.RemoveDatasourcePermissionContext, hrep]
  case FoldersContext ctx =>
    rcases hrep : c.replies c.trace.length with e | v <;>
    simp [Operation.run, Operation.pathTemplate, renderPath, PathPart.render, String.append_assoc,
      Client.request, Client.requestNil, Gapi.FoldersContext, hrep]
  case FolderContext ctx id =>
    rcases hrep : c.replies c.trace.length with e | v <;>
    simp [Operation.run, Operation.pathTemplate, renderPath, PathPart.render, String.append_assoc,
      Client.request, Client.requestNil, Gapi.FolderContext, hrep]
  case FolderByUIDContext ctx uid =>
    rcases hrep : c.replies c.trace.length with e | v <;>
    simp [Operation.run, Operation.pathTemplate, renderPath, PathPart.render, String.append_assoc,
      Client.request, Client.requestNil, Gapi.FolderByUIDContext, hrep]
  case NewFolderContext jsonMarshal ctx title uid =>
    rcases hrep : c.replies c.trace.length with e | v <;>
    rcases uid with _ | ⟨u, _ | ⟨u2, rest⟩⟩
    · rcases hjm : jsonMarshal ⟨title, "", false⟩ with e2 | data <;>
      simp [Operation.run, Operation.pathTemplate, renderPath, PathPart.render,
        String.append_assoc, Client.request, Client.requestNil, Gapi.NewFolderContext, hrep, hjm]
    · rcases hjm : jsonMarshal ⟨title, u, false⟩ with e2 | data <;>
      simp [Operation.run, Operation.pathTemplate, renderPath, PathPart.render,
        String.append_assoc, Client.request, Client.requestNil, Gapi.NewFolderContext, hrep, hjm]
    · simp [Operation.run, Operation.pathTemplate, renderPath, PathPart.render,
      String.append_assoc, Client.request, Client.requestNil, Gapi.NewFolderContext, hrep]
    · rcases hjm : jsonMarshal ⟨title, "", false⟩ with e2 | data <;>
      simp [Operation.run, Operation.pathTemplate, renderPath, PathPart.render,
        String.append_assoc, Client.request, Client.requestNil, Gapi.NewFolderContext, hrep, hjm]
    · rcases hjm : jsonMarshal ⟨title, u, false⟩ with e2 | data <;>
      simp [Operation.run, Operation.pathTemplate, renderPath, PathPart.render,
        String.append_assoc, Client.request, Client.requestNil, Gapi.NewFolderContext, hrep, hjm]
    · simp [Operation.run, Operation.pathTemplate, renderPath, PathPart.render,
      String.append_assoc, Client.request, Client.requestNil, Gapi.NewFolderContext, hrep]
  case UpdateFolderContext jsonMarshal ctx uid title newUID =>
    rcases hrep : c.replies c.trace.length with e | v <;>
    rcases newUID with _ | ⟨u, _ | ⟨u2, rest⟩⟩
    · rcases hjm : jsonMarshal ⟨title, "", true⟩ with e2 | data <;>
      simp [Operation.run, Operation.pathTemplate, renderPath, PathPart.render,
        String.append_assoc, Client.request, Client.requestNil, Gapi.UpdateFolderContext, hrep,
        hjm]
    · rcases hjm : jsonMarshal ⟨title, u, true⟩ with e2 | data <;>
      simp [Operation.run, Operation.pathTemplate, renderPath, PathPart.render,
        String.append_assoc, Client.request, Client.requestNil, Gapi.UpdateFolderContext, hrep,
        hjm]
    · rcases hjm : jsonMarshal ⟨title, "", true⟩ with e2 | data <;>
      simp [Operation.run, Operation.pathTemplate, renderPath, PathPart.render,
        String.append_assoc, Client.request, Client.requestNil, Gapi.UpdateFolderContext, hrep,
        hjm]
    · rcases hjm : jsonMarshal ⟨title, "", true⟩ with e2 | data <;>
      simp [Operation.run, Operation.pathTemplate, renderPath, PathPart.render,
        String.append_assoc, Client.request, Client.requestNil, Gapi.UpdateFolderContext, hrep,
        hjm]
    · rcases hjm : jsonMarshal ⟨title, u, true⟩ with e2 | data <;>
      simp [Operation.run, Operation.pathTemplate, renderPath, PathPart.render,
        String.append_assoc, Client.request, Client.requestNil, Gapi.UpdateFolderContext, hrep,
        hjm]
    · rcases hjm : jsonMarshal ⟨title, "", true⟩ with e2 | data <;>
      simp [Operation.run, Operation.pathTemplate, renderPath, PathPart.render,
        String.append_assoc, Client.request, Client.requestNil, Gapi.UpdateFolderContext, hrep,
        hjm]
  case DeleteFolderContext ctx id =>
    rcases hrep : c.replies c.trace.length with e | v <;>
    simp [Operation.run, Operation.pathTemplate, renderPath, PathPart.render, String.append_assoc,
      Client.request, Client.requestNil, Gapi.DeleteFolderContext, hrep]
  case FolderDashboardSearchContext ctx params =>
    rcases hrep : c.replies c.trace.length with e | v <;>
    simp [Operation.run, Operation.pathTemplate, renderPath, PathPart.render, String.append_assoc,
      Client.request, Client.requestNil, Gapi.FolderDashboardSearchContext, hrep]
  case HealthContext ctx =>
    rcases hrep : c.replies c.trace.length with e | v <;>
    simp [Operation.run, Operation.pathTemplate, renderPath, PathPart.render, String.append_assoc,
      Client.request, Client.requestNil, Gapi.HealthContext, hrep]
  case OrgPreferencesContext ctx =>
    rcases hrep : c.replies c.trace.length with e | v <;>
    simp [Operation.run, Operation.pathTemplate, renderPath, PathPart.render, String.append_assoc,
      Client.request, Client.requestNil, Gapi.OrgPreferencesContext, hrep]
  case UpdateOrgPreferencesContext jsonMarshal ctx p =>
    rcases hrep : c.replies c.trace.length with e | v <;>
    rcases hjm : jsonMarshal p with e2 | data <;>
    simp [Operation.run, Operation.pathTemplate, renderPath, PathPart.render, String.append_assoc,
      Client.request, Client.requestNil, Gapi.UpdateOrgPreferencesContext, hrep, hjm]
  case UpdateAllOrgPreferencesContext jsonMarshal ctx p =>
    rcases hrep : c.replies c.trace.length with e | v <;>
    rcases hjm : jsonMarshal p with e2 | data <;>
    simp [Operation.run, Operation.pathTemplate, renderPath, PathPart.render, String.append_assoc,
      Client.request, Client.requestNil, Gapi.UpdateAllOrgPreferencesContext, hrep, hjm]
  case OrgUsersCurrentContext ctx =>
    rcases hrep : c.replies c.trace.length with e | v <;>
    simp [Operation.run, Operation.pathTemplate, renderPath, PathPart.render, String.append_assoc,
      Client.request, Client.requestNil, Gapi.OrgUsersCurrentContext, hrep]
  case OrgUsersContext ctx orgID =>
    rcases hrep : c.replies c.trace.length with e | v <;>
    simp [Operation.run, Operation.pathTemplate, renderPath, PathPart.render, String.append_assoc,
      Client.request, Client.requestNil, Gapi.OrgUsersContext, hrep]
  case AddOrgUserContext jsonMarshal ctx orgID user role =>
    rcases hrep : c.replies c.trace.length with e | v <;>
    rcases hjm : jsonMarshal ([("loginOrEmail", user), ("role", role)]) with e2 | data <;>
    simp [Operation.run, Operation.pathTemplate, renderPath, PathPart.render, String.append_assoc,
      Client.request, Client.requestNil, Gapi.AddOrgUserContext, hrep, hjm]
  case UpdateOrgUserContext jsonMarshal ctx orgID userID role =>
    rcases hrep : c.replies c.trace.length with e | v <;>
    rcases hjm : jsonMarshal ([("role", role)]) with e2 | data <;>
    simp [Operation.run, Operation.pathTemplate, renderPath, PathPart.render, String.append_assoc,
      Client.request, Client.requestNil, Gapi.UpdateOrgUserContext, hrep, hjm]
  case RemoveOrgUserContext ctx orgID userID =>
    rcases hrep : c.replies c.trace.length with e | v <;>
    simp [Operation.run, Operation.pathTemplate, renderPath, PathPart.render, String.append_assoc,
      Client.request, Client.requestNil, Gapi.RemoveOrgUserContext, hrep]
  case OrgsContext ctx =>
    rcases hrep : c.replies c.trace.length with e | v <;>
    simp [Operation.run, Operation.pathTemplate, renderPath, PathPart.render, String.append_assoc,
      Client.request, Client.requestNil, Gapi.OrgsContext, hrep]
  case OrgByNameContext ctx name =>
    rcases hrep : c.replies c.trace.length with e | v <;>
    simp [Operation.run, Operation.pathTemplate, renderPath, PathPart.render, String.append_assoc,
      Client.request, Client.requestNil, Gapi.OrgByNameContext, hrep]
  case OrgContext ctx id =>
    rcases hrep : c.replies c.trace.length with e | v <;>
    simp [Operation.run, Operation.pathTemplate, renderPath, PathPart.render, String.append_assoc,
      Client.request, Client.requestNil, Gapi.OrgContext, hrep]
  case NewOrgContext jsonMarshal ctx name =>
    rcases hrep : c.replies c.trace.length with e | v <;>
    rcases hjm : jsonMarshal ([("name", name)]) with e2 | data <;>
    simp [Operation.run, Operation.pathTemplate, renderPath, PathPart.render, String.append_assoc,
      Client.request, Client.requestNil, Gapi.NewOrgContext, hrep, hjm]
  case UpdateOrgContext jsonMarshal ctx id name =>
    rcases hrep : c.replies c.trace.length with e | v <;>
    rcases hjm : jsonMarshal ([("name", name)]) with e2 | data <;>
    simp [Operation.run, Operation.pathTemplate, renderPath, PathPart.render, String.append_assoc,
      Client.request, Client.requestNil, Gapi.UpdateOrgContext, hrep, hjm]
  case DeleteOrgContext ctx id =>
    rcases hrep : c.replies c.trace.length with e | v <;>
    simp [Operation.run, Operation.pathTemplate, renderPath, PathPart.render, String.append_assoc,
      Client.request, Client.requestNil, Gapi.DeleteOrgContext, hrep]
  case PlaylistContext ctx idOrUID =>
    rcases hrep : c.replies c.trace.length with e | v <;>
    simp [Operation.run, Operation.pathTemplate, renderPath, PathPart.render, String.append_assoc,
      Client.request, Client.requestNil, Gapi.PlaylistContext, hrep]
  case NewPlaylistContext jsonMarshal ctx playlist =>
    rcases hrep : c.replies c.trace.length with e | v <;>
    rcases hjm : jsonMarshal playlist with e2 | data <;>
    simp [Operation.run, Operation.pathTemplate, renderPath, PathPart.render, String.append_assoc,
      Client.request, Client.requestNil, Gapi.NewPlaylistContext, hrep, hjm]
  case UpdatePlaylistContext jsonMarshal ctx playlist =>
    rcases hrep : c.replies c.trace.length with e | v <;>
    rcases hjm : jsonMarshal playlist with e2 | data <;>
    by_cases huid : playlist.UID = "" <;>
    simp [Operation.run, Operation.pathTemplate, renderPath, PathPart.render, String.append_assoc,
      Client.request, Client.requestNil, Gapi.UpdatePlaylistContext, Playlist.QueryIDPart,
      Playlist.QueryID, hrep, hjm, huid]
  case DeletePlaylistContext ctx idOrUID =>
    rcases hrep : c.replies c.trace.length with e | v <;>
    simp [Operation.run, Operation.pathTemplate, renderPath, PathPart.render, String.append_assoc,
      Client.request, Client.requestNil, Gapi.DeletePlaylistContext, hrep]
  case ReportContext ctx id =>
    rcases hrep : c.replies c.trace.length with e | v <;>
    simp [Operation.run, Operation.pathTemplate, renderPath, PathPart.render, String.append_assoc,
      Client.request, Client.requestNil, Gapi.ReportContext, hrep]
  case NewReportContext jsonMarshal ctx report =>
    rcases hrep : c.replies c.trace.length with e | v <;>
    rcases hjm : jsonMarshal report with e2 | data <;>
    simp [Operation.run, Operation.pathTemplate, renderPath, PathPart.render, String.append_assoc,
      Client.request, Client.requestNil, Gapi.NewReportContext, hrep, hjm]
  case UpdateReportContext jsonMarshal ctx report =>
    rcases hrep : c.replies c.trace.length with e | v <;>
    rcases hjm : jsonMarshal report with e2 | data <;>
    simp [Operation.run, Operation.pathTemplate, renderPath, PathPart.render, String.append_assoc,
      Client.request, Client.requestNil, Gapi.UpdateReportContext, hrep, hjm]
  case DeleteReportContext ctx id =>
    rcases hrep : c.replies c.trace.length with e | v <;>
    simp [Operation.run, Operation.pathTemplate, renderPath, PathPart.render, String.append_assoc,
      Client.request, Client.requestNil, Gapi.DeleteReportContext, hrep]
  case GetRoleContext ctx uid =>
    rcases hrep : c.replies c.trace.length with e | v <;>
    simp [Operation.run, Operation.pathTemplate, renderPath, PathPart.render, String.append_assoc,
      Client.request, Client.requestNil, Gapi.GetRoleContext, buildURL, hrep]
  case NewRoleContext jsonMarshal ctx role =>
    rcases hrep : c.replies c.trace.length with e | v <;>
    rcases hjm : jsonMarshal role with e2 | data <;>
    simp [Operation.run, Operation.pathTemplate, renderPath, PathPart.render, String.append_assoc,
      Client.request, Client.requestNil, Gapi.NewRoleContext, hrep, hjm]
  case UpdateRoleContext jsonMarshal ctx role =>
    rcases hrep : c.replies c.trace.length with e | v <;>
    rcases hjm : jsonMarshal role with e2 | data <;>
    simp [Operation.run, Operation.pathTemplate, renderPath, PathPart.render, String.append_assoc,
      Client.request, Client.requestNil, Gapi.UpdateRoleContext, buildURL, hrep, hjm]
  case DeleteRoleContext ctx uid global =>
    rcases hrep : c.replies c.trace.length with e | v <;>
    simp [Operation.run, Operation.pathTemplate, renderPath, PathPart.render, String.append_assoc,
      Client.request, Client.requestNil, Gapi.DeleteRoleContext, buildURL, hrep]
  case GetRoleAssignmentsContext ctx uid =>
    rcases hrep : c.replies c.trace.length with e | v <;>
    simp [Operation.run, Operation.pathTemplate, renderPath, PathPart.render, String.append_assoc,
      Client.request, Client.requestNil, Gapi.GetRoleAssignmentsContext, hrep]
  case UpdateRoleAssignmentsContext jsonMarshal ctx ra =>
    rcases hrep : c.replies c.trace.length with e | v <;>
    rcases hjm : jsonMarshal ra with e2 | data <;>
    simp [Operation.run, Operation.pathTemplate, renderPath, PathPart.render, String.append_assoc,
      Client.request, Client.requestNil, Gapi.UpdateRoleAssignmentsContext, hrep, hjm]
  case NewSnapshotContext jsonMarshal ctx snapshot =>
    rcases hrep : c.replies c.trace.length with e | v <;>
    rcases hjm : jsonMarshal snapshot with e2 | data <;>
    simp [Operation.run, Operation.pathTemplate, renderPath, PathPart.render, String.append_assoc,
      Client.request, Client.requestNil, Gapi.NewSnapshotContext, hrep, hjm]
  case TeamGroupsContext ctx id =>
    rcases hrep : c.replies c.trace.length with e | v <;>
    simp [Operation.run, Operation.pathTemplate, renderPath, PathPart.render, String.append_assoc,
      Client.request, Client.requestNil, Gapi.TeamGroupsContext, hrep]
  case NewTeamGroupContext jsonMarshal ctx id groupID =>
    rcases hrep : c.replies c.trace.length with e | v <;>
    rcases hjm : jsonMarshal ([("groupId", groupID)]) with e2 | data <;>
    simp [Operation.run, Operation.pathTemplate, renderPath, PathPart.render, String.append_assoc,
      Client.request, Client.requestNil, Gapi.NewTeamGroupContext, hrep, hjm]
  case DeleteTeamGroupContext ctx id groupID =>
    rcases hrep : c.replies c.trace.length with e | v <;>
    simp [Operation.run, Operation.pathTemplate, renderPath, PathPart.render, String.append_assoc,
      Client.request, Client.requestNil, Gapi.DeleteTeamGroupContext, hrep]
  case UserContext ctx id =>
    rcases hrep : c.replies c.trace.length with e | v <;>
    simp [Operation.run, Operation.pathTemplate, renderPath, PathPart.render, String.append_assoc,
      Client.request, Client.requestNil, Gapi.UserContext, hrep]
  case UserByEmailContext ctx email =>
    rcases hrep : c.replies c.trace.length with e | v <;>
    simp [Operation.run, Operation.pathTemplate, renderPath, PathPart.render, String.append_assoc,
      Client.request, Client.requestNil, Gapi.UserByEmailContext, hrep]
  case UserUpdateContext jsonMarshal ctx u =>
    rcases hrep : c.replies c.trace.length with e | v <;>
    rcases hjm : jsonMarshal u with e2 | data <;>
    simp [Operation.run, Operation.pathTemplate, renderPath, PathPart.render, String.append_assoc,
      Client.request, Client.requestNil, Gapi.UserUpdateContext, hrep, hjm]

theorem DashboardsContext.loop_search_paths {α : Type} (ctx : Context) (good : Call → Prop)
    (hgood : ∀ call : Call, call.path = "/api/search" → good call) :
    ∀ (fuel page : Nat) (nd ds : List α) (q : Values) (c : Client (List α))
      (r : List α × Option Error × Client (List α)),
      (∀ call ∈ c.trace, good call) →
      DashboardsContext.loop ctx fuel page nd ds q c = some r →
      ∀ call ∈ r.2.2.trace, good call := by
  intro fuel
  induction fuel with
  | zero =>
    intro page nd ds q c r hc h
    simp [DashboardsContext.loop] at h
  | succ fuel ih =>
    intro page nd ds q c r hc h
    have hc' : ∀ call ∈ c.trace ++
        [(⟨ctx, "GET", "/api/search", q.Set "page" (toString (page + 1)), none, true⟩ : Call)],
        good call := by
      intro call hmem
      rcases List.mem_append.1 hmem with h1 | h1
      · exact hc call h1
      · rw [List.mem_singleton] at h1
        exact hgood call (by rw [h1])
    rcases hrep : c.replies c.trace.length with e | v
    · simp only [DashboardsContext.loop, Client.request, hrep, Option.some.injEq] at h
      subst h
      exact hc'
    · simp only [DashboardsContext.loop, Client.request, hrep] at h
      split at h
      · simp only [Option.some.injEq] at h
        subst h
        exact hc'
      · exact ih _ _ _ _ _ _ hc' h

theorem UsersContext.loop_users_paths {α : Type} (ctx : Context) (good : Call → Prop)
    (hgood : ∀ call : Call, call.path = "/api/users" → good call) :
    ∀ (fuel page : Nat) (nu us : List α) (c : Client (List α))
      (r : List α × Option Error × Client (List α)),
      (∀ call ∈ c.trace, good call) →
      UsersContext.loop ctx fuel page nu us c = some r →
      ∀ call ∈ r.2.2.trace, good call := by
  intro fuel
  induction fuel with
  | zero =>
    intro page nu us c r hc h
    simp [UsersContext.loop] at h
  | succ fuel ih =>
    intro page nu us c r hc h
    have hc' : ∀ call ∈ c.trace ++
        [(⟨ctx, "GET", "/api/users", Values.Add [] "page" (toString page), none, true⟩ : Call)],
        good call := by
      intro call hmem
      rcases List.mem_append.1 hmem with h1 | h1
      · exact hc call h1
      · rw [List.mem_singleton] at h1
        exact hgood call (by rw [h1])
    simp only [UsersContext.loop] at h
    split at h
    · rcases hrep : c.replies c.trace.length with e | v
      · simp only [Client.request, hrep, Option.some.injEq] at h
        subst h
        exact hc'
      · simp only [Client.request, hrep] at h
        exact ih _ _ _ _ _ hc' h
    · simp only [Option.some.injEq] at h
      subst h
      exact hc

/-- C19, as written, fails: a separator inside an identifier reaches the path. With the name
`a/b`, `OrgByNameContext` hands `c.request` the path `/api/orgs/name/a/b`, which has five
`/` where the template has four; with the name `a?b#c` the path contains a `?` and a `#`.
The same holds of `DeleteCloudAPIKeyContext` and `AlertRuleGroupContext`. -/
theorem OrgByNameContext_separators_in_name :
    (OrgByNameContext (Client.always ⟨0, ""⟩) Context.Background "a/b").2.2.trace.map
        Call.path = ["/api/orgs/name/a/b"] ∧
      countChar '/' "/api/orgs/name/a/b" = 5 ∧
      templateCount '/'
        (Operation.OrgByNameContext Context.Background "a/b" :
          Operation Unit Unit).pathTemplate = 4 ∧
      (OrgByNameContext (Client.always ⟨0, ""⟩) Context.Background "a?b#c").2.2.trace.map
        Call.path = ["/api/orgs/name/a?b#c"] ∧
      countChar '?' "/api/orgs/name/a?b#c" = 1 ∧
      countChar '#' "/api/orgs/name/a?b#c" = 1 ∧
      (DeleteCloudAPIKeyContext (Client.always ()) Context.Background "org/x"
        "key/y").2.trace.map Call.path = ["/api/orgs/org/x/api-keys/key/y"] ∧
      countChar '/' "/api/orgs/org/x/api-keys/key/y" = 7 ∧
      templateCount '/'
        (Operation.DeleteCloudAPIKeyContext Context.Background "org/x" "key/y" :
          Operation Unit Unit).pathTemplate = 5 ∧
      (AlertRuleGroupContext (Client.always RuleGroup.zero) Context.Background "f/1"
        "g").2.2.trace.map Call.path = ["/api/v1/provisioning/folder/f/1/rule-groups/g"] ∧
      countChar '/' "/api/v1/provisioning/folder/f/1/rule-groups/g" = 8 ∧
      templateCount '/'
        (Operation.AlertRuleGroupContext Context.Background "f/1" "g" :
          Operation Unit Unit).pathTemplate = 7 := by
  refine ⟨rfl, by decide, by decide, rfl, by decide, by decide, rfl, by decide, by decide,
    rfl, by decide, by decide⟩

/-- C19, amended: identifiers are put into the path as they are, without escaping. For
every operation and all argument values, the path of the call made is the template with the
arguments put in; for each of `/`, `?` and `#`, the path holds the occurrences of the
template's own text plus those inside the strings supplied by the caller, numbers adding
none; and no template has a `?` or a `#` of its own. Hence the path has the separators of
the template, and no `?` or `#`, exactly when the strings supplied by the caller hold none
of these characters. -/
theorem paths_hold_identifiers_verbatim {π δ : Type} [Inhabited δ] (op : Operation π δ)
    (c : Client op.Dest) (ch : Char) (hch : ch = '/' ∨ ch = '?' ∨ ch = '#') :
    ((op.run c).2.trace = c.trace ∨
        ∃ call, (op.run c).2.trace = c.trace ++ [call] ∧
          call.path = renderPath op.pathTemplate ∧
          countChar ch call.path =
            templateCount ch op.pathTemplate + identCount ch op.pathTemplate) ∧
      ((op.run c).2.sent = c.sent ∨
        ∃ call, (op.run c).2.sent = c.sent ++ [call] ∧
          call.path = renderPath op.pathTemplate ∧
          countChar ch call.path =
            templateCount ch op.pathTemplate + identCount ch op.pathTemplate) ∧
      templateCount '?' op.pathTemplate = 0 ∧
      templateCount '#' op.pathTemplate = 0 ∧
      (countChar ch (renderPath op.pathTemplate) = templateCount ch op.pathTemplate ↔
        identCount ch op.pathTemplate = 0) := by
  have hcount := countChar_renderPath ch hch op.pathTemplate
  obtain ⟨htrace, hsent⟩ := Operation.run_paths op c
  obtain ⟨hq, hf⟩ := Operation.pathTemplate_no_query_or_fragment op
  refine ⟨?_, ?_, hq, hf, ?_⟩
  · rcases htrace with h | ⟨call, h, hp⟩
    · exact Or.inl h
    · exact Or.inr ⟨call, h, hp, by rw [hp, hcount]⟩
  · rcases hsent with h | ⟨call, h, hp⟩
    · exact Or.inl h
    · exact Or.inr ⟨call, h, hp, by rw [hp, hcount]⟩
  · rw [hcount]
    omega

theorem paths_hold_identifiers_verbatim_witness :
    ((Operation.run
          (Operation.OrgByNameContext Context.Background "a/b" : Operation Unit Unit)
          (Client.always ⟨0, ""⟩)).2.trace = [] ∨
        ∃ call,
          (Operation.run
            (Operation.OrgByNameContext Context.Background "a/b" : Operation Unit Unit)
            (Client.always ⟨0, ""⟩)).2.trace = [] ++ [call] ∧
          call.path = "/api/orgs/name/a/b" ∧ countChar '/' call.path = 4 + 1) :=
  (paths_hold_identifiers_verbatim
    (Operation.OrgByNameContext Context.Background "a/b" : Operation Unit Unit)
    (Client.always ⟨0, ""⟩) '/' (Or.inl rfl)).1

/-- C20: every path handed to the transport begins with `/api/`. For every operation and
all argument values, the call of `c.request` that an invocation logs, and the request that
it sends itself, has a path beginning with `/api/`; and every call logged by a run of
`DashboardsContext` or of `UsersContext` has a path beginning with `/api/`. -/
theorem paths_begin_with_api {π δ α : Type} [Inhabited δ] (op : Operation π δ)
    (c : Client op.Dest) (cl : Client (List α)) (ctx : Context) (fuel : Nat) :
    ((op.run c).2.trace = c.trace ∨
        ∃ call, (op.run c).2.trace = c.trace ++ [call] ∧ startsWithApi call.path = true) ∧
      ((op.run c).2.sent = c.sent ∨
        ∃ call, (op.run c).2.sent = c.sent ++ [call] ∧ startsWithApi call.path = true) ∧
      (∀ r, DashboardsContext cl ctx fuel = some r →
        ∀ call ∈ r.2.2.trace, call ∈ cl.trace ∨ startsWithApi call.path = true) ∧
      (∀ r, UsersContext cl ctx fuel = some r →
        ∀ call ∈ r.2.2.trace, call ∈ cl.trace ∨ startsWithApi call.path = true) := by
  have hapi := Operation.pathTemplate_startsWithApi op
  obtain ⟨htrace, hsent⟩ := Operation.run_paths op c
  refine ⟨?_, ?_, ?_, ?_⟩
  · rcases htrace with h | ⟨call, h, hp⟩
    · exact Or.inl h
    · exact Or.inr ⟨call, h, by rw [hp]; exact hapi⟩
  · rcases hsent with h | ⟨call, h, hp⟩
    · exact Or.inl h
    · exact Or.inr ⟨call, h, by rw [hp]; exact hapi⟩
  · intro r h
    exact DashboardsContext.loop_search_paths ctx
      (fun call => call ∈ cl.trace ∨ startsWithApi call.path = true)
      (fun call hp => Or.inr (by rw [hp]; decide)) fuel 0 [] [] _ cl r
      (fun call hmem => Or.inl hmem) h
  · intro r h
    exact UsersContext.loop_users_paths ctx
      (fun call => call ∈ cl.trace ∨ startsWithApi call.path = true)
      (fun call hp => Or.inr (by rw [hp]; decide)) fuel 1 [] [] cl r
      (fun call hmem => Or.inl hmem) h

theorem paths_begin_with_api_witness :
    ∀ r, DashboardsContext (Client.always ([] : List Unit)) Context.Background 1 = some r →
      ∀ call ∈ r.2.2.trace,
        call ∈ (Client.always ([] : List Unit)).trace ∨ startsWithApi call.path = true :=
  (paths_begin_with_api
    (Operation.OrgByNameContext Context.Background "grafana" : Operation Unit Unit)
    (Client.always ⟨0, ""⟩) (Client.always ([] : List Unit)) Context.Background 1).2.2.1

/-! ## Single operations against the transport -/

/-- C21: `DeleteOrgContext` makes exactly one call of `c.request`, with the method
`DELETE`, the path `/api/orgs/` followed by the id in base 10, no query, no body and no
destination, under the context it was given, and returns exactly the error of that call,
nil when the call succeeds. So with id 42, when `dispatch` answers the call from a response
with status 404 and the body `{"message":"not found"}`, the caller receives the API error
with status 404 and that body, whose text contains `not found`. -/
theorem DeleteOrgContext_returns_dispatch_error (c : Client δ) (ctx : Context) (id : Int) :
    (DeleteOrgContext c ctx id).2 =
        c.logged [⟨ctx, "DELETE", "/api/orgs/" ++ toString id, [], none, false⟩] ∧
      (∀ e, c.replies c.trace.length = .error e → (DeleteOrgContext c ctx id).1 = some e) ∧
      (∀ v, c.replies c.trace.length = .ok v → (DeleteOrgContext c ctx id).1 = none) ∧
      (∀ decode : String → Unit → Unit × Option Error,
        DeleteOrgContext
            (Client.ofReplies [] (dispatchReply (dispatch decode 404 notFoundBody none) ()))
            ctx 42 =
          (some (DispatchError.api 404 notFoundBody).toError,
            (Client.ofReplies []
              (dispatchReply (dispatch decode 404 notFoundBody none) ())).logged
              [⟨ctx, "DELETE", "/api/orgs/42", [], none, false⟩]) ∧
        (DispatchError.api 404 notFoundBody).toError.text =
          "status: 404, body: \x7b\"message\":\"" ++ "not found" ++ "\"\x7d") := by
  refine ⟨Client.requestNil_client _ _ _ _ _ _, ?_, ?_, ?_⟩
  · intro e he
    simp [DeleteOrgContext, Client.requestNil, he]
  · intro v hv
    simp [DeleteOrgContext, Client.requestNil, hv]
  · intro decode
    exact ⟨rfl, by decide⟩

theorem DeleteOrgContext_returns_dispatch_error_witness :
    (DeleteOrgContext (Client.ofReplies [] (.error (.errorString "EOF")) : Client Unit)
      Context.Background 42).1 = some (.errorString "EOF") :=
  (DeleteOrgContext_returns_dispatch_error
    (Client.ofReplies [] (.error (.errorString "EOF")) : Client Unit) Context.Background
    42).2.1 (.errorString "EOF") rfl

/-- C22: `HealthContext` makes exactly one call of `c.request`, with the method `GET`, the
path `/api/health`, no query, no body and a destination; when the call succeeds it returns
what the call has left in the destination, with a nil error, and when the call fails it
returns the error. The destination it hands over is the zero `HealthResponse`: when
`dispatch` answers the call from a response with status 200 and decodes the body into it,
the result is what `json.Unmarshal` makes of the zero value, for every body that decodes.
For the body `{"version":"10.0.0"}` this is `Version = "10.0.0"` with `Commit` and
`Database` empty, and no error. -/
theorem HealthContext_returns_decoded_value (c : Client HealthResponse) (ctx : Context) :
    (HealthContext c ctx).2.2 = c.logged [⟨ctx, "GET", "/api/health", [], none, true⟩] ∧
      (∀ v, c.replies c.trace.length = .ok v →
        (HealthContext c ctx).1 = v ∧ (HealthContext c ctx).2.1 = none) ∧
      (∀ e, c.replies c.trace.length = .error e → (HealthContext c ctx).2.1 = some e) ∧
      (∀ body : String,
        (jsonUnmarshal HealthResponse.decoder body ⟨"", "", ""⟩).2 = none →
        (HealthContext (Client.decoding HealthResponse.decoder body ⟨"", "", ""⟩) ctx).1 =
            (jsonUnmarshal HealthResponse.decoder body ⟨"", "", ""⟩).1 ∧
          (HealthContext (Client.decoding HealthResponse.decoder body ⟨"", "", ""⟩) ctx).2.1 =
            none) ∧
      (HealthContext (Client.decoding HealthResponse.decoder versionBody ⟨"", "", ""⟩) ctx).1 =
        ⟨"", "", "10.0.0"⟩ ∧
      (HealthContext (Client.decoding HealthResponse.decoder versionBody ⟨"", "", ""⟩)
        ctx).2.1 = none := by
  refine ⟨Client.request_client _ _ _ _ _ _ _, ?_, ?_, ?_, rfl, rfl⟩
  · intro v hv
    simp [HealthContext, Client.request, hv]
  · intro e he
    simp [HealthContext, Client.request, he]
  · intro body hbody
    rcases hdec : jsonUnmarshal HealthResponse.decoder body ⟨"", "", ""⟩ with ⟨v, err⟩
    rw [hdec] at hbody
    simp only at hbody
    subst hbody
    simp [HealthContext, Client.request, Client.decoding, Client.ofReplies, dispatchReply,
      dispatch, hdec]

theorem HealthContext_returns_decoded_value_witness :
    (HealthContext (Client.decoding HealthResponse.decoder versionBody ⟨"", "", ""⟩)
        Context.Background).1 = ⟨"", "", "10.0.0"⟩ ∧
      (HealthContext (Client.decoding HealthResponse.decoder versionBody ⟨"", "", ""⟩)
        Context.Background).2.1 = none :=
  (HealthContext_returns_decoded_value
    (Client.decoding HealthResponse.decoder versionBody ⟨"", "", ""⟩)
    Context.Background).2.1 ⟨"", "", "10.0.0"⟩ rfl

/-- C23: for every status code outside 200–299, `dispatch` returns the API error that
carries this status code and the raw body, and hands the destination back as it was before
the call; the decoder plays no part in the outcome. -/
theorem dispatch_error_status_keeps_destination
    (decode : String → δ → δ × Option Error) (status : Int) (body : String)
    (dest : Option δ) (hstatus : status < 200 ∨ 299 < status) :
    dispatch decode status body dest = (dest, some (.api status body)) ∧
      (∀ other : String → δ → δ × Option Error,
        dispatch other status body dest = dispatch decode status body dest) := by
  have hnot : ¬ (200 ≤ status ∧ status ≤ 299) := by omega
  constructor
  · simp [dispatch, hnot]
  · intro other
    simp [dispatch, hnot]

theorem dispatch_error_status_keeps_destination_witness :
    dispatch decodeVersion 404 notFoundBody (some ⟨"a", "b", "c"⟩) =
      (some ⟨"a", "b", "c"⟩, some (.api 404 notFoundBody)) :=
  (dispatch_error_status_keeps_destination decodeVersion 404 notFoundBody
    (some ⟨"a", "b", "c"⟩) (Or.inr (by decide))).1

/-! ## Pagination: the continuation rule of `DashboardsContext` -/

theorem DashboardsContext.loop_trace_prefix {α : Type} (ctx : Context) :
    ∀ (fuel page : Nat) (nd ds : List α) (q : Values) (c : Client (List α))
      (r : List α × Option Error × Client (List α)),
      DashboardsContext.loop ctx fuel page nd ds q c = some r →
      c.trace <+: r.2.2.trace := by
  intro fuel
  induction fuel with
  | zero =>
    intro page nd ds q c r h
    simp [DashboardsContext.loop] at h
  | succ fuel ih =>
    intro page nd ds q c r h
    rcases hrep : c.replies c.trace.length with e | v
    · simp only [DashboardsContext.loop, Client.request, hrep, Option.some.injEq] at h
      subst h
      exact List.prefix_append _ _
    · simp only [DashboardsContext.loop, Client.request, hrep] at h
      split at h
      · simp only [Option.some.injEq] at h
        subst h
        exact List.prefix_append _ _
      · exact (List.prefix_append _ _).trans (ih _ _ _ _ _ _ h)

theorem DashboardsContext.loop_first_call {α : Type} (ctx : Context) (fuel page : Nat)
    (nd ds : List α) (q : Values) (c : Client (List α))
    (r : List α × Option Error × Client (List α))
    (h : DashboardsContext.loop ctx fuel page nd ds q c = some r) :
    (c.trace ++ [⟨ctx, "GET", "/api/search", q.Set "page" (toString (page + 1)), none,
      true⟩]) <+: r.2.2.trace := by
  cases fuel with
  | zero => simp [DashboardsContext.loop] at h
  | succ fuel =>
    rcases hrep : c.replies c.trace.length with e | v
    · simp only [DashboardsContext.loop, Client.request, hrep, Option.some.injEq] at h
      subst h
      exact List.prefix_refl _
    · simp only [DashboardsContext.loop, Client.request, hrep] at h
      split at h
      · simp only [Option.some.injEq] at h
        subst h
        exact List.prefix_refl _
      · exact DashboardsContext.loop_trace_prefix ctx _ _ _ _ _ _ _ h

/-- C24, as written, fails: a page with more than 1000 items does not stop
`DashboardsContext`. Against a server whose first page has 1001 items and whose second has
two, it makes two calls, for the pages 1 and 2, and returns the items of both. -/
theorem DashboardsContext_continues_after_larger_page :
    (overfullThenShort 0).length = 1001 ∧
      DashboardsContext overfullThenShortClient Context.Background 2 =
        some (concatPages overfullThenShort 2, none,
          overfullThenShortClient.logged
            [DashboardsContext.call Context.Background 1,
              DashboardsContext.call Context.Background 2]) := by
  have hlen : (overfullThenShort 0).length = 1001 := by
    show (List.replicate 1001 0).length = 1001
    rw [List.length_replicate]
  refine ⟨hlen, ?_⟩
  have h := DashboardsContext.loop_full_pages Context.Background overfullThenShort 1 2 0 [] []
    _ overfullThenShortClient DashboardsContext.initial_query_set
    (by
      intro i hi
      interval_cases i <;> rfl)
    (by
      intro i hi
      have hi0 : i = 0 := by omega
      subst hi0
      rw [hlen]
      simp [DashboardsContext.limit])
    (by simp [overfullThenShort, DashboardsContext.limit])
    (by omega)
  simp only [DashboardsContext, h]
  rfl

/-- C24, amended: the continuation rule of `DashboardsContext` compares with `<`. In the
loop, after page number `page` and with the query `q`, let the call for the next page
succeed with the page `p`. If `p` has fewer than 1000 items the loop returns all the items
with a nil error after this one call. If `p` has at least 1000 items, exactly 1000 or more,
the loop goes on with the cursor advanced, and the next thing it does is the call for the
page after. -/
theorem DashboardsContext_continues_iff_page_is_full {α : Type} (ctx : Context)
    (fuel page : Nat) (nd ds p : List α) (q : Values) (c : Client (List α))
    (hrep : c.replies c.trace.length = .ok p) :
    (p.length < 1000 →
        DashboardsContext.loop ctx (fuel + 1) page nd ds q c =
          some (ds ++ p, none,
            c.logged [⟨ctx, "GET", "/api/search", q.Set "page" (toString (page + 1)), none,
              true⟩])) ∧
      (1000 ≤ p.length →
        DashboardsContext.loop ctx (fuel + 1) page nd ds q c =
            DashboardsContext.loop ctx fuel (page + 1) p (ds ++ p)
              (q.Set "page" (toString (page + 1)))
              (c.logged [⟨ctx, "GET", "/api/search", q.Set "page" (toString (page + 1)),
                none, true⟩]) ∧
          ∀ r, DashboardsContext.loop ctx (fuel + 1) page nd ds q c = some r →
            (c.trace ++
              [⟨ctx, "GET", "/api/search", q.Set "page" (toString (page + 1)), none, true⟩,
                ⟨ctx, "GET", "/api/search",
                  (q.Set "page" (toString (page + 1))).Set "page" (toString (page + 1 + 1)),
                  none, true⟩]) <+: r.2.2.trace) := by
  constructor
  · intro hshort
    have hlt : p.length < DashboardsContext.limit := hshort
    simp [DashboardsContext.loop, Client.request, hrep, hlt, Client.logged]
  · intro hfull
    have hnot : ¬ p.length < DashboardsContext.limit := by
      simp only [DashboardsContext.limit]
      omega
    have hstep : DashboardsContext.loop ctx (fuel + 1) page nd ds q c =
        DashboardsContext.loop ctx fuel (page + 1) p (ds ++ p)
          (q.Set "page" (toString (page + 1)))
          (c.logged [⟨ctx, "GET", "/api/search", q.Set "page" (toString (page + 1)),
            none, true⟩]) := by
      simp [DashboardsContext.loop, Client.request, hrep, hnot, Client.logged]
    refine ⟨hstep, ?_⟩
    intro r hr
    rw [hstep] at hr
    have h := DashboardsContext.loop_first_call ctx _ _ _ _ _ _ r hr
    simpa [Client.logged, List.append_assoc] using h

theorem DashboardsContext_continues_iff_page_is_full_witness :
    DashboardsContext.loop Context.Background (1 + 1) 0 [] [] [] overfullThenShortClient =
      DashboardsContext.loop Context.Background 1 (0 + 1) (overfullThenShort 0)
        ([] ++ overfullThenShort 0) (Values.Set [] "page" (toString (0 + 1)))
        (overfullThenShortClient.logged
          [⟨Context.Background, "GET", "/api/search", Values.Set [] "page" (toString (0 + 1)),
            none, true⟩]) :=
  ((DashboardsContext_continues_iff_page_is_full Context.Background 1 0 [] []
    (overfullThenShort 0) [] overfullThenShortClient rfl).2
    (by
      show 1000 ≤ (List.replicate 1001 0).length
      rw [List.length_replicate]
      exact Nat.le_succ 1000)).1

/-! ## Datasource permissions -/

/-- C25: the datasource-permission operations report an error of `c.request` with the path
of the call. When the call fails with error `e`, each of the five operations returns an
error that wraps `e` and whose text is `error enabling permissions at`, `error disabling
permissions at`, `error getting permissions at`, `error adding permissions at` or `error
deleting permissions at`, followed by the path handed to `c.request`, a colon and the text
of `e`; when the call succeeds each returns a nil error. For
`AddDatasourcePermissionContext` this is the case in which the payload marshals, so that
the call is made. -/
theorem datasource_permission_errors_name_path {π ρ : Type} (c : Client δ)
    (co : Client (Option ρ)) (ctx : Context) (id permissionID : Int)
    (jsonMarshal : π → Except Error JSON) (item : π) (data : JSON)
    (hmarshal : jsonMarshal item = .ok data) :
    (∀ e, c.replies c.trace.length = .error e →
        EnableDatasourcePermissionsContext c ctx id =
          (some (.wrapError
            ("error enabling permissions at " ++
              ("/api/datasources/" ++ toString id ++ "/enable-permissions") ++ ": " ++ e.text)
            e),
            c.logged [⟨ctx, "POST", "/api/datasources/" ++ toString id ++ "/enable-permissions",
              [], none, false⟩]) ∧
        DisableDatasourcePermissionsContext c ctx id =
          (some (.wrapError
            ("error disabling permissions at " ++
              ("/api/datasources/" ++ toString id ++ "/disable-permissions") ++ ": " ++ e.text)
            e),
            c.logged [⟨ctx, "POST",
              "/api/datasources/" ++ toString id ++ "/disable-permissions", [], none,
              false⟩]) ∧
        AddDatasourcePermissionContext jsonMarshal c ctx id item =
          (some (.wrapError
            ("error adding permissions at " ++
              ("/api/datasources/" ++ toString id ++ "/permissions") ++ ": " ++ e.text)
            e),
            c.logged [⟨ctx, "POST", "/api/datasources/" ++ toString id ++ "/permissions", [],
              some (.ofData data), false⟩]) ∧
        RemoveDatasourcePermissionContext c ctx id permissionID =
          (some (.wrapError
            ("error deleting permissions at " ++
              ("/api/datasources/" ++ toString id ++ "/permissions/" ++
                toString permissionID) ++ ": " ++ e.text)
            e),
            c.logged [⟨ctx, "DELETE",
              "/api/datasources/" ++ toString id ++ "/permissions/" ++ toString permissionID,
              [], none, false⟩])) ∧
      (∀ e, co.replies co.trace.length = .error e →
        DatasourcePermissionsContext co ctx id =
          (none,
            some (.wrapError
              ("error getting permissions at " ++
                ("/api/datasources/" ++ toString id ++ "/permissions") ++ ": " ++ e.text)
              e),
            co.logged [⟨ctx, "GET", "/api/datasources/" ++ toString id ++ "/permissions", [],
              none, true⟩])) ∧
      (∀ msg e, (Error.wrapError msg e).text = msg ∧ (Error.wrapError msg e).Unwrap = some e) ∧
      (∀ v, c.replies c.trace.length = .ok v →
        (EnableDatasourcePermissionsContext c ctx id).1 = none ∧
        (DisableDatasourcePermissionsContext c ctx id).1 = none ∧
        (AddDatasourcePermissionContext jsonMarshal c ctx id item).1 = none ∧
        (RemoveDatasourcePermissionContext c ctx id permissionID).1 = none) ∧
      (∀ v, co.replies co.trace.length = .ok v →
        (DatasourcePermissionsContext co ctx id).1 = v ∧
        (DatasourcePermissionsContext co ctx id).2.1 = none) := by
  refine ⟨?_, ?_, fun msg e => ⟨rfl, rfl⟩, ?_, ?_⟩
  · intro e he
    simp [EnableDatasourcePermissionsContext, DisableDatasourcePermissionsContext,
      AddDatasourcePermissionContext, RemoveDatasourcePermissionContext, Client.requestNil,
      Client.logged, he, hmarshal]
  · intro e he
    simp [DatasourcePermissionsContext, Client.request, Client.logged, he]
  · intro v hv
    simp [EnableDatasourcePermissionsContext, DisableDatasourcePermissionsContext,
      AddDatasourcePermissionContext, RemoveDatasourcePermissionContext, Client.requestNil,
      hv, hmarshal]
  · intro v hv
    simp [DatasourcePermissionsContext, Client.request, hv]

theorem datasource_permission_errors_name_path_witness :
    EnableDatasourcePermissionsContext
        (Client.ofReplies [] (.error (.errorString "status: 403, body: denied")) :
          Client Unit) Context.Background 7 =
      (some (.wrapError
        ("error enabling permissions at " ++
          ("/api/datasources/" ++ toString (7 : Int) ++ "/enable-permissions") ++ ": " ++
          (Error.errorString "status: 403, body: denied").text)
        (.errorString "status: 403, body: denied")),
        (Client.ofReplies [] (.error (.errorString "status: 403, body: denied")) :
          Client Unit).logged
          [⟨Context.Background, "POST",
            "/api/datasources/" ++ toString (7 : Int) ++ "/enable-permissions", [], none,
            false⟩]) :=
  ((datasource_permission_errors_name_path
    (Client.ofReplies [] (.error (.errorString "status: 403, body: denied")) : Client Unit)
    (Client.always (none : Option Unit)) Context.Background 7 3
    (fun _ : Unit => .ok JSON.null) () JSON.null rfl).1
    (.errorString "status: 403, body: denied") rfl).1

/-! ## Pagination: `UsersContext` on any number of pages -/

theorem UsersContext.loop_users_trace_prefix {α : Type} (ctx : Context) :
    ∀ (fuel page : Nat) (nu us : List α) (c : Client (List α))
      (r : List α × Option Error × Client (List α)),
      UsersContext.loop ctx fuel page nu us c = some r →
      c.trace <+: r.2.2.trace := by
  intro fuel
  induction fuel with
  | zero =>
    intro page nu us c r h
    simp [UsersContext.loop] at h
  | succ fuel ih =>
    intro page nu us c r h
    simp only [UsersContext.loop] at h
    split at h
    · rcases hrep : c.replies c.trace.length with e | v
      · simp only [Client.request, hrep, Option.some.injEq] at h
        subst h
        exact List.prefix_append _ _
      · simp only [Client.request, hrep] at h
        exact (List.prefix_append _ _).trans (ih _ _ _ _ _ h)
    · simp only [Option.some.injEq] at h
      subst h
      exact List.prefix_refl _

theorem UsersContext.loop_users_first_call {α : Type} (ctx : Context) (fuel page : Nat)
    (nu us : List α) (c : Client (List α)) (r : List α × Option Error × Client (List α))
    (hcond : 0 < nu.length ∨ page = 1)
    (h : UsersContext.loop ctx fuel page nu us c = some r) :
    (c.trace ++ [UsersContext.call ctx page]) <+: r.2.2.trace := by
  cases fuel with
  | zero => simp [UsersContext.loop] at h
  | succ fuel =>
    have hcond' : nu.length > 0 ∨ page = 1 := hcond
    simp only [UsersContext.loop, hcond', if_true] at h
    rcases hrep : c.replies c.trace.length with e | v
    · simp only [Client.request, hrep, Option.some.injEq] at h
      subst h
      exact List.prefix_refl _
    · simp only [Client.request, hrep] at h
      exact UsersContext.loop_users_trace_prefix ctx _ _ _ _ _ _ h

/-- C26, the runs of `UsersContext`, the one that shows the defect included. If the first
`j` calls succeed and leave the pages `p 0`, ..., `p (j - 1)` in `newUsers`, the last of
which is the first empty one, then `UsersContext` makes exactly `j` calls, `GET /api/users`
with the single query parameter `page` = 1, ..., `j`, and returns with a nil error as many
users as the pages before the empty one hold; an empty first page gives one call and no
users, and after a non-empty first page the second call is always made. But every page is
decoded into the same slice, so a user keeps the fields of the user that was in its place
before, where its own document has none. Against a server whose pages are the user 1 with
a name and an email, the user 2 with neither, and the empty page, the second user returned
is the user 2 with the name and the email of user 1; the second page decoded by itself is
the user 2 without a name and an email. -/
theorem UsersContext_keeps_stale_fields {α : Type} (c : Client (List α))
    (ctx : Context) (p : Nat → List α) (j fuel : Nat)
    (hj : 0 < j)
    (hr : ∀ i, i < j → c.replies (c.trace.length + i) = .ok (p i))
    (hfilled : ∀ i, i + 1 < j → p i ≠ [])
    (hempty : p (j - 1) = [])
    (hfuel : j + 1 ≤ fuel) :
    (∃ users,
        UsersContext c ctx fuel =
          some (users, none,
            c.logged ((List.range j).map fun i => UsersContext.call ctx (i + 1))) ∧
        users.length = ((List.range (j - 1)).map fun i => (p i).length).sum) ∧
      (∀ i, i < j → UsersContext.call ctx (i + 1) =
        ⟨ctx, "GET", "/api/users", [("page", [toString (i + 1)])], none, true⟩) ∧
      (j = 1 → UsersContext c ctx fuel = some ([], none, c.logged [UsersContext.call ctx 1])) ∧
      (p 0 ≠ [] → 2 ≤ j) ∧
      (∀ (c0 : Client (List α)) (n : Nat) (p0 : List α)
        (r : List α × Option Error × Client (List α)),
        c0.replies c0.trace.length = .ok p0 → p0 ≠ [] → UsersContext c0 ctx n = some r →
        (c0.trace ++ [UsersContext.call ctx 1, UsersContext.call ctx 2]) <+: r.2.2.trace) ∧
      (∀ unmarshalTime : String → Except Error Time,
        observe (UsersContext (userPagesClient unmarshalTime) Context.Background 4) =
            some ([userAnn, userTwoStale], none,
              [UsersContext.call Context.Background 1, UsersContext.call Context.Background 2,
                UsersContext.call Context.Background 3]) ∧
          (decodeUsersPage unmarshalTime (.arr [.obj [("id", .num 2)]]) Slice.nil).1.items =
            [userTwo]) ∧
      userTwoStale.Name = "ann" ∧ userTwoStale.Email = "ann@example.org" ∧
      userTwo.Name = "" ∧ userTwo.Email = "" := by
  obtain ⟨k, rfl⟩ : ∃ k, j = k + 1 := ⟨j - 1, by omega⟩
  have h := UsersContext.loop_until_empty ctx p k fuel 1 [] [] c (by decide) (Or.inr rfl)
    (fun i hi => hr i (by omega))
    (fun i hi => List.length_pos.mpr (hfilled i (by omega)))
    (by simpa using hempty) (by omega)
  have hmain : UsersContext c ctx fuel =
      some (concatPages p (k + 1 - 1), none,
        c.logged ((List.range (k + 1)).map fun i => UsersContext.call ctx (i + 1))) := by
    simp only [UsersContext, h]
    simp [Nat.add_comm 1]
  refine ⟨⟨_, hmain, ?_⟩, fun i hi => rfl, ?_, ?_, ?_, ?_, rfl, rfl, rfl, rfl⟩
  · simp [concatPages, List.length_flatten, Function.comp_def]
  · intro hk
    have hk0 : k = 0 := by omega
    subst hk0
    rw [hmain]
    simp [concatPages, List.range_succ]
  · intro hp0
    by_contra hlt
    have hk0 : k = 0 := by omega
    subst hk0
    exact hp0 (by simpa using hempty)
  · intro c0 n p0 r hrep hp0 hrun
    cases n with
    | zero => simp [UsersContext, UsersContext.loop] at hrun
    | succ n =>
      simp only [UsersContext, UsersContext.loop, Client.request, hrep, or_true, if_true]
        at hrun
      have hfirst := UsersContext.loop_users_first_call ctx n 2 p0 _ _ r
        (Or.inl (List.length_pos.mpr hp0)) hrun
      simpa [UsersContext.call, Values.Add, List.append_assoc] using hfirst
  · intro unmarshalTime
    exact ⟨rfl, rfl⟩

theorem UsersContext_keeps_stale_fields_witness :
    ∃ users,
      UsersContext oneUserClient Context.Background 3 =
        some (users, none,
          oneUserClient.logged
            ((List.range 2).map fun i => UsersContext.call Context.Background (i + 1))) ∧
      users.length =
        ((List.range (2 - 1)).map fun i => (if i = 0 then [7] else ([] : List Nat)).length).sum :=
  (UsersContext_keeps_stale_fields oneUserClient Context.Background
    (fun i => if i = 0 then [7] else []) 2 3 (by decide)
    (by
      intro i hi
      interval_cases i <;> rfl)
    (by
      intro i hi
      have hi0 : i = 0 := by omega
      subst hi0
      simp)
    (by simp)
    (by decide)).1

/-! ## Durations: negative values -/

theorem timeDurationToRuleDuration.f_negative (st : String × Int) (unit : String)
    (mult : Int) (exact : Bool) (hneg : st.2 < 0) (hmult : 0 < mult) :
    timeDurationToRuleDuration.f st unit mult exact = st := by
  have h := Int.tdiv_nonneg (a := -st.2) (b := mult) (by omega) (by omega)
  rw [Int.neg_tdiv] at h
  have hv : ¬ st.2.tdiv mult > 0 := by omega
  unfold timeDurationToRuleDuration.f
  split
  · rfl
  · simp only [hv, if_false]

theorem Int.tdiv_million_neg (d : Int) (h : d ≤ -1000000) : d.tdiv 1000000 < 0 := by
  have h1 : (-d).tdiv 1000000 = (-d) / 1000000 :=
    Int.tdiv_eq_ediv (by omega) (by decide)
  rw [Int.neg_tdiv] at h1
  omega

theorem Int.tdiv_million_zero (d : Int) (h1 : -1000000 < d) (h2 : d < 1000000) :
    d.tdiv 1000000 = 0 := by
  rcases le_or_lt 0 d with hd | hd
  · rw [Int.tdiv_eq_ediv hd (by decide)]
    omega
  · have h3 : (-d).tdiv 1000000 = (-d) / 1000000 :=
      Int.tdiv_eq_ediv (by omega) (by decide)
    rw [Int.neg_tdiv] at h3
    omega

/-- C27: `timeDurationToRuleDuration` on negative durations. For every `d` of at most minus
one millisecond the result is the empty string, so `syncCalculatedRuleFields` leaves
`For = ""` in a rule with an empty `For` and such a `ForDuration`; for every `d` strictly
between minus one and plus one millisecond the result is `0s`. -/
theorem timeDurationToRuleDuration_negative (d : Int) :
    (d ≤ -1000000 → timeDurationToRuleDuration d = "") ∧
      (-1000000 < d → d < 1000000 → timeDurationToRuleDuration d = "0s") ∧
      (∀ rule : AlertRule, rule.For = "" → rule.ForDuration ≤ -1000000 →
        (syncCalculatedRuleFields rule).For = "") := by
  have hneg : ∀ x : Int, x ≤ -1000000 → timeDurationToRuleDuration x = "" := by
    intro x hx
    have hms := Int.tdiv_million_neg x hx
    have hne : x.tdiv 1000000 ≠ 0 := by omega
    have hst : ∀ (unit : String) (mult : Int) (exact : Bool), 0 < mult →
        timeDurationToRuleDuration.f ("", x.tdiv 1000000) unit mult exact =
          ("", x.tdiv 1000000) :=
      fun unit mult exact hm => timeDurationToRuleDuration.f_negative _ unit mult exact hms hm
    simp only [timeDurationToRuleDuration, hne, if_false]
    rw [hst "y" _ true (by decide), hst "w" _ true (by decide), hst "d" _ false (by decide),
      hst "h" _ false (by decide), hst "m" _ false (by decide), hst "s" _ false (by decide),
      hst "ms" _ false (by decide)]
  refine ⟨hneg d, ?_, ?_⟩
  · intro h1 h2
    simp [timeDurationToRuleDuration, Int.tdiv_million_zero d h1 h2]
  · intro rule hfor hd
    simp [syncCalculatedRuleFields, hfor, hneg rule.ForDuration hd]

theorem timeDurationToRuleDuration_negative_witness :
    timeDurationToRuleDuration (-5000000000) = "" ∧
      timeDurationToRuleDuration (-999999) = "0s" :=
  ⟨(timeDurationToRuleDuration_negative (-5000000000)).1 (by decide),
    (timeDurationToRuleDuration_negative (-999999)).2.1 (by decide) (by decide)⟩

/-! ## Dashboards: the folder of a fetched dashboard, and the context -/

/-- C28, the runs of `DashboardContext` and `DashboardByUIDContext`, the one that shows the
defect included. When `c.request` fails the result is nil, with the error. When it succeeds
and leaves a dashboard in `result`, that dashboard is returned with `FolderID` overwritten
by `Meta.Folder`, every other field as decoded, and a nil error: for the body of
`strayFolderBody`, whose top-level `folderId` is 5 and whose `meta` has the `folderId` 9,
the result has `FolderID = 9`. When it succeeds and leaves `result` nil, as it does for the
body `null`, the program dereferences the nil pointer and panics: nothing is returned. -/
theorem dashboard_nil_result_panics (c : Client (Option Dashboard)) (ctx : Context)
    (slug uid : String) :
    (∀ e, c.replies c.trace.length = .error e →
        (DashboardContext c ctx slug).1 = .ok none ∧
        (DashboardContext c ctx slug).2.1 = some e ∧
        (DashboardByUIDContext c ctx uid).1 = .ok none ∧
        (DashboardByUIDContext c ctx uid).2.1 = some e) ∧
      (∀ v, c.replies c.trace.length = .ok (some v) →
        (DashboardContext c ctx slug).1 = .ok (some { v with FolderID := v.Meta.Folder }) ∧
        (DashboardContext c ctx slug).2.1 = none ∧
        (DashboardByUIDContext c ctx uid).1 =
          .ok (some { v with FolderID := v.Meta.Folder }) ∧
        (DashboardByUIDContext c ctx uid).2.1 = none) ∧
      (c.replies c.trace.length = .ok none →
        (DashboardContext c ctx slug).1 = .error .nilDereference ∧
        (DashboardByUIDContext c ctx uid).1 = .error .nilDereference) ∧
      (DashboardByUIDContext
        (Client.decoding (jsonPointer Dashboard.decoder Dashboard.zero) strayFolderBody
          (some Dashboard.zero)) ctx uid).1 = .ok (some strayFolderResult) ∧
      (DashboardByUIDContext
        (Client.decoding (jsonPointer Dashboard.decoder Dashboard.zero) "null"
          (some Dashboard.zero)) ctx uid).1 = .error .nilDereference ∧
      (DashboardContext
        (Client.decoding (jsonPointer Dashboard.decoder Dashboard.zero) "null"
          (some Dashboard.zero)) ctx slug).1 = .error .nilDereference := by
  refine ⟨?_, ?_, ?_, rfl, rfl, rfl⟩
  · intro e he
    simp [DashboardContext, DashboardByUIDContext, dashboard, dashboardContext,
      Client.request, he]
  · intro v hv
    simp [DashboardContext, DashboardByUIDContext, dashboard, dashboardContext,
      Client.request, hv]
  · intro hnil
    simp [DashboardContext, DashboardByUIDContext, dashboard, dashboardContext,
      Client.request, hnil]

theorem dashboard_nil_result_panics_witness :
    (DashboardContext
        (Client.decoding (jsonPointer Dashboard.decoder Dashboard.zero) "null"
          (some Dashboard.zero)) Context.Background "home").1 = .error .nilDereference ∧
      (DashboardByUIDContext
        (Client.decoding (jsonPointer Dashboard.decoder Dashboard.zero) "null"
          (some Dashboard.zero)) Context.Background "abc").1 = .error .nilDereference :=
  (dashboard_nil_result_panics
    (Client.decoding (jsonPointer Dashboard.decoder Dashboard.zero) "null"
      (some Dashboard.zero)) Context.Background "home" "abc").2.2.1 rfl

/-- C29: the context argument of `DashboardContext`, `DashboardByUIDContext`,
`DeleteDashboardContext`, `DeleteDashboardByUIDContext` and `DashboardsByIDsContext` has no
influence. For any two contexts and equal remaining arguments, the whole outcome (result,
error and calls logged) is the same; and the one call made carries
`context.Background()`. `DashboardsByIDsContext` makes its call when the ids marshal. -/
theorem dashboard_operations_ignore_context {α : Type} (ctx1 ctx2 : Context)
    (c : Client (Option Dashboard)) (cd : Client δ) (cl : Client (List α))
    (slug uid : String)
    (jsonMarshal : List Int → Except Error String) (ids : List Int) :
    DashboardContext c ctx1 slug = DashboardContext c ctx2 slug ∧
      DashboardByUIDContext c ctx1 uid = DashboardByUIDContext c ctx2 uid ∧
      DeleteDashboardContext cd ctx1 slug = DeleteDashboardContext cd ctx2 slug ∧
      DeleteDashboardByUIDContext cd ctx1 uid = DeleteDashboardByUIDContext cd ctx2 uid ∧
      DashboardsByIDsContext jsonMarshal cl ctx1 ids =
        DashboardsByIDsContext jsonMarshal cl ctx2 ids ∧
      (DashboardContext c ctx1 slug).2.2 =
        c.logged [⟨Context.Background, "GET", "/api/dashboards/db/" ++ slug, [], none,
          true⟩] ∧
      (DashboardByUIDContext c ctx1 uid).2.2 =
        c.logged [⟨Context.Background, "GET", "/api/dashboards/uid/" ++ uid, [], none,
          true⟩] ∧
      (DeleteDashboardContext cd ctx1 slug).2 =
        cd.logged [⟨Context.Background, "DELETE", "/api/dashboards/db/" ++ slug, [], none,
          false⟩] ∧
      (DeleteDashboardByUIDContext cd ctx1 uid).2 =
        cd.logged [⟨Context.Background, "DELETE", "/api/dashboards/uid/" ++ uid, [], none,
          false⟩] ∧
      (∀ text, jsonMarshal ids = .ok text →
        (DashboardsByIDsContext jsonMarshal cl ctx1 ids).2.2 =
          cl.logged [⟨Context.Background, "GET", "/api/search",
            [("type", ["dash-db"]), ("dashboardIds", [text])], none, true⟩]) := by
  refine ⟨rfl, rfl, rfl, rfl, rfl, ?_, ?_, ?_, ?_, ?_⟩
  · rcases hrep : c.replies c.trace.length with e | (_ | v) <;>
      simp [DashboardContext, dashboard, dashboardContext, Client.request, Client.logged,
        hrep]
  · rcases hrep : c.replies c.trace.length with e | (_ | v) <;>
      simp [DashboardByUIDContext, dashboard, dashboardContext, Client.request,
        Client.logged, hrep]
  · exact Client.requestNil_client _ _ _ _ _ _
  · exact Client.requestNil_client _ _ _ _ _ _
  · intro text htext
    simp only [DashboardsByIDsContext, htext, FolderDashboardSearch,
      FolderDashboardSearchContext]
    exact Client.request_client _ _ _ _ _ _ _

theorem dashboard_operations_ignore_context_witness :
    (DashboardsByIDsContext (fun _ => .ok "[1,2]") (Client.always ([] : List Nat))
        (Context.WithCancel 1) [1, 2]).2.2 =
      (Client.always ([] : List Nat)).logged
        [⟨Context.Background, "GET", "/api/search",
          [("type", ["dash-db"]), ("dashboardIds", ["[1,2]"])], none, true⟩] :=
  (dashboard_operations_ignore_context (Context.WithCancel 1) (Context.WithCancel 2)
    (Client.always (some Dashboard.zero)) (Client.always ())
    (Client.always ([] : List Nat))
    "home" "abc" (fun _ => .ok "[1,2]") [1, 2]).2.2.2.2.2.2.2.2.2 "[1,2]" rfl

end Gapi
